import Mathlib

/-! # Chrome EC button module (`3rdparty/chromeec/common/button.c`)

A shallow embedding of the button module: the debounce engine
(`button_interrupt`, `button_change_deferred`), the recovery-boot detector
(`button_init`, `is_recovery_boot`, `button_check_hw_reinit_required`) and the
emulated-sysrq diagnostic state machine (`debug_mode_transition`,
`debug_mode_handle`).

Conventions of the embedding

* The build modelled has `CONFIG_BUTTON_RECOVERY`, `CONFIG_EMULATED_SYSRQ` and
  the keyboard protocol defined and `CONFIG_CMD_BUTTON` undefined;
  `CONFIG_LED_COMMON` is a field of the board description.
* The C globals (`state[]`, `next_deferred_time`, the four `debug_*` variables)
  and the two deferred-call slots are the fields of one record, `EC`, that the
  functions pass along.  Calls to collaborators that only produce an effect
  (`host_send_sysrq`, `chipset_reset`, `keyboard_update_button`, ...) are
  appended to `EC.log`, each with the time of the routine that made the call.
  Console printing (`CPRINTS`) is not recorded.
* `get_time()` is an argument (`now`, `time_now`): one reading per routine
  invocation.  Timestamps are 64-bit microsecond counters in C; they are
  natural numbers here, so the wrap-around after 2^64 microseconds is outside
  the model.  The delay handed to `hook_call_deferred` is an `int` in C.  The
  debounce engine hands it a difference of two timestamps, whose conversion
  to `int` is modelled (`uint64_to_int`).  The diagnostic state machine hands
  it constants and, in `STATE_STAGING`, the time left to its deadline, which
  the machine sets `DEBUG_TIMEOUT` ahead and which is kept as an integer.
* GPIO levels and pressed flags are 0/1 integers in C and `Bool` here.
* A routine that polls the clock in a loop is given the list of what its
  iterations observe; its result says whether it returned within that list.
-/

namespace Button

/-! ## Collaborators and constants declared outside the sources -/

/-- Modelled from the spec: `timer.h` is not among the sources; timestamps
count microseconds, so one second is 10^6 of them. -/
def SECOND : Nat := 1000000

/-- Modelled from the spec: `timer.h` is not among the sources; a millisecond
is 10^3 microseconds. -/
def MSEC : Nat := 1000

/-- Modelled from the spec: `timestamp_expired(deadline, now)` of the timer
collaborator is not among the sources; a deadline has expired ("elapsed") once
the clock has reached it. -/
def timestamp_expired (deadline now : Nat) : Bool :=
  decide (deadline ≤ now)

/-- Modelled from the spec: `hook_call_deferred(slot, us)` of the scheduler
collaborator is not among the sources.  It runs the callback once after `us`
microseconds, replacing any prior pending invocation of that slot; a negative
delay cancels the pending invocation.  The value returned is the new content
of the slot: the time at which the callback is due, or `none`. -/
def hook_call_deferred (now : Nat) (us : Int) : Option Nat :=
  if us < 0 then none else some (now + us.toNat)

/-- The conversion of a difference of two `uint64_t` timestamps to the `int us`
parameter of `hook_call_deferred`, a 32-bit `int`: the low 32 bits of the
difference, read in two's complement (the conversion of the compilers the
module is built with).  The argument is the difference as an integer; reducing
it modulo `2^64` first, as the unsigned subtraction does, leaves the low 32
bits as they are.  A difference from 0 to `2^31 - 1` is kept, one from `2^31`
to `2^32 - 1` becomes negative. -/
def uint64_to_int (x : Int) : Int :=
  (x + 2 ^ 31) % 2 ^ 32 - 2 ^ 31

/-- The identifiers of `enum ec_led_id` the module uses. -/
inductive ec_led_id where
  | EC_LED_ID_RECOVERY_HW_REINIT_LED
  | EC_LED_ID_SYSRQ_DEBUG_LED
deriving DecidableEq

/-- The values of `enum ec_led_state`. -/
inductive ec_led_state where
  | LED_STATE_OFF
  | LED_STATE_ON
  | LED_STATE_RESET
deriving DecidableEq

/-- The host events the module posts. -/
inductive host_event_code where
  | EC_HOST_EVENT_KEYBOARD_RECOVERY
  | EC_HOST_EVENT_KEYBOARD_RECOVERY_HW_REINIT
deriving DecidableEq

/-- The calls to collaborators that the module makes for their effect. -/
inductive Effect where
  | gpio_enable_interrupt (gpio : Nat)
  | host_set_single_event (event : host_event_code)
  | watchdog_reload
  | msleep (ms : Nat)
  | led_control (id : ec_led_id) (st : ec_led_state)
  /-- The call `keyboard_update_button(buttons[i].type, new_pressed)`; the index
  `i` of the button is recorded with it. -/
  | keyboard_update_button (i : Nat) (type : Nat) (new_pressed : Bool)
  | host_send_sysrq (key : Char)
  | chipset_reset (flags : Nat)
deriving DecidableEq

/-! ## Data model -/

/-- The record `struct button_config` (declared in `button.h`). -/
structure button_config where
  name : String
  type : Nat
  gpio : Nat
  debounce_us : Nat
  flags : Nat
deriving DecidableEq

/-- The record `struct button_state_t`. -/
structure button_state_t where
  debounce_time : Nat
  debounced_pressed : Bool
deriving DecidableEq

/-- The board description: the configuration tables and the constants that
the module takes from headers outside the sources. -/
structure Board where
  CONFIG_BUTTON_COUNT : Nat
  buttons : Nat → button_config
  recovery_buttons_count : Nat
  recovery_buttons : Nat → button_config
  BUTTON_VOLUME_UP : Nat
  BUTTON_VOLUME_DOWN : Nat
  BUTTON_FLAG_ACTIVE_HIGH : Nat
  RESET_FLAG_RESET_PIN : Nat
  RESET_FLAG_POWER_ON : Nat
  CONFIG_LED_COMMON : Bool

/-- The type `enum debug_state`. -/
inductive debug_state where
  | STATE_DEBUG_NONE
  | STATE_DEBUG_CHECK
  | STATE_STAGING
  | STATE_DEBUG_MODE_ACTIVE
  | STATE_SYSRQ_PATH
  | STATE_WARM_RESET_PATH
  | STATE_SYSRQ_EXEC
  | STATE_WARM_RESET_EXEC
deriving DecidableEq

open debug_state ec_led_id ec_led_state host_event_code

def DEBUG_BTN_POWER : Nat := 1 <<< 0
def DEBUG_BTN_VOL_UP : Nat := 1 <<< 1
def DEBUG_BTN_VOL_DN : Nat := 1 <<< 2
def DEBUG_TIMEOUT : Nat := 10 * SECOND

/-- The mutable state of the module: the file-scope variables of `button.c`,
the two deferred-call slots (`none`: nothing pending, `some t`: the callback
is due at time `t`) and the log of effects. -/
structure EC where
  state : Nat → button_state_t
  next_deferred_time : Nat
  button_change_deferred_data : Option Nat
  curr_debug_state : debug_state
  next_debug_state : debug_state
  debug_state_deadline : Nat
  /-- An `int` in C; it starts at 0 and is only incremented, decremented while
  non-zero, or cleared. -/
  debug_button_hit_count : Nat
  debug_mode_handle_data : Option Nat
  log : List (Nat × Effect)

/-- The state at load time: zero-initialised `.bss`, the two debug states set
to `STATE_DEBUG_NONE` by their initialisers, nothing scheduled. -/
def EC.boot : EC where
  state := fun _ => { debounce_time := 0, debounced_pressed := false }
  next_deferred_time := 0
  button_change_deferred_data := none
  curr_debug_state := STATE_DEBUG_NONE
  next_debug_state := STATE_DEBUG_NONE
  debug_state_deadline := 0
  debug_button_hit_count := 0
  debug_mode_handle_data := none
  log := []

/-- Assignment `state[i] = v`. -/
def set_state (st : Nat → button_state_t) (i : Nat) (v : button_state_t) :
    Nat → button_state_t :=
  fun j => if j = i then v else st j

/-! ## The debounce engine -/

/-- The function `raw_button_pressed`; `gpio_get_level` is the level each line
shows when it is read. -/
def raw_button_pressed (b : Board) (gpio_get_level : Nat → Bool) (button : button_config) : Bool :=
  let raw_value := gpio_get_level button.gpio
  if button.flags &&& b.BUTTON_FLAG_ACTIVE_HIGH ≠ 0 then raw_value else !raw_value

/-- The body of the loop of `button_change_deferred` for button `i`; the
second component is the local `soonest_debounce_time`. -/
def button_change_body (b : Board) (gpio_get_level : Nat → Bool) (time_now : Nat) (i : Nat)
    (a : EC × Nat) : EC × Nat :=
  let s := a.1
  let soonest_debounce_time := a.2
  -- Skip this button if we are not waiting to debounce
  if (s.state i).debounce_time = 0 then a
  else if (s.state i).debounce_time ≤ time_now then
    -- Check if the state has changed
    let new_pressed := raw_button_pressed b gpio_get_level (b.buttons i)
    let s : EC :=
      if (s.state i).debounced_pressed ≠ new_pressed then
        { s with state := set_state s.state i { (s.state i) with debounced_pressed := new_pressed },
                 debug_mode_handle_data := hook_call_deferred time_now 0,
                 log := s.log ++
                   [(time_now, Effect.keyboard_update_button i (b.buttons i).type new_pressed)] }
      else s
    -- Clear the debounce time to stop checking it
    ({ s with state := set_state s.state i { (s.state i) with debounce_time := 0 } },
      soonest_debounce_time)
  else
    (s, if soonest_debounce_time = 0 then (s.state i).debounce_time
        else min soonest_debounce_time (s.state i).debounce_time)

/-- The loop `for (i = 0; i < n; i++)` of `button_change_deferred`: buttons
`0, ..., n - 1` in this order. -/
def button_change_loop (b : Board) (gpio_get_level : Nat → Bool) (time_now : Nat) :
    Nat → EC × Nat → EC × Nat
  | 0, a => a
  | n + 1, a =>
    button_change_body b gpio_get_level time_now n
      (button_change_loop b gpio_get_level time_now n a)

/-- The function `button_change_deferred`, run at time `time_now`. -/
def button_change_deferred (b : Board) (gpio_get_level : Nat → Bool) (time_now : Nat)
    (s : EC) : EC :=
  let a := button_change_loop b gpio_get_level time_now b.CONFIG_BUTTON_COUNT (s, 0)
  let s := a.1
  let soonest_debounce_time := a.2
  if soonest_debounce_time ≠ 0 then
    let s := { s with next_deferred_time := soonest_debounce_time }
    { s with button_change_deferred_data :=
        hook_call_deferred time_now
              (uint64_to_int ((s.next_deferred_time : Int) - (time_now : Int))) }
  else s

/-- The body of the loop of `button_interrupt` for the button `i` whose line
is `signal`. -/
def button_interrupt_body (b : Board) (time_now : Nat) (i : Nat) (s : EC) : EC :=
  let deadline := time_now + (b.buttons i).debounce_us
  let s := { s with state := set_state s.state i { (s.state i) with debounce_time := deadline } }
  if s.next_deferred_time ≤ time_now ∨ s.next_deferred_time > (s.state i).debounce_time then
    let s := { s with next_deferred_time := (s.state i).debounce_time }
    { s with button_change_deferred_data :=
        hook_call_deferred time_now
              (uint64_to_int ((s.next_deferred_time : Int) - (time_now : Int))) }
  else s

/-- The loop of `button_interrupt`: `n` buttons are left to look at, starting
with button `i`; the first one whose line is `signal` is handled and ends the
loop (`break`). -/
def button_interrupt_loop (b : Board) (signal : Nat) (time_now : Nat) : Nat → Nat → EC → EC
  | 0, _, s => s
  | n + 1, i, s =>
    if (b.buttons i).gpio ≠ signal then button_interrupt_loop b signal time_now n (i + 1) s
    else button_interrupt_body b time_now i s

/-- The function `button_interrupt(signal)`, run at time `time_now`. -/
def button_interrupt (b : Board) (signal : Nat) (time_now : Nat) (s : EC) : EC :=
  button_interrupt_loop b signal time_now b.CONFIG_BUTTON_COUNT 0 s

/-! ## Executions of the debounce engine -/

/-- The scheduler runs `button_change_deferred` from its deferred slot: the
slot is emptied (the callback runs once), then the routine is called. -/
def button_change_deferred_run (b : Board) (gpio_get_level : Nat → Bool) (time_now : Nat)
    (s : EC) : EC :=
  button_change_deferred b gpio_get_level time_now { s with button_change_deferred_data := none }

/-- What happens to the debounce engine: a raw edge on a line (the interrupt
handler runs), or a run of the deferred tick, which reads the line levels
`gpio_get_level`. -/
inductive ButtonEvent where
  | interrupt (signal : Nat) (time_now : Nat)
  | tick (gpio_get_level : Nat → Bool) (time_now : Nat)

/-- The time of an event. -/
def ButtonEvent.time : ButtonEvent → Nat
  | ButtonEvent.interrupt _ t => t
  | ButtonEvent.tick _ t => t

/-- Whether an event is a raw edge on line `gpio`. -/
def ButtonEvent.is_edge (gpio : Nat) : ButtonEvent → Bool
  | ButtonEvent.interrupt signal _ => decide (signal = gpio)
  | ButtonEvent.tick _ _ => false

/-- One event of an execution of the debounce engine. -/
def button_step (b : Board) (s : EC) : ButtonEvent → EC
  | ButtonEvent.interrupt signal t => button_interrupt b signal t s
  | ButtonEvent.tick gpio_get_level t => button_change_deferred_run b gpio_get_level t s

/-- An execution of the debounce engine: the events in order. -/
def button_run (b : Board) (s : EC) (evs : List ButtonEvent) : EC :=
  evs.foldl (button_step b) s

/-- The times of the raw edges on line `gpio`, in order. -/
def edge_times (gpio : Nat) (evs : List ButtonEvent) : List Nat :=
  (evs.filter (ButtonEvent.is_edge gpio)).map ButtonEvent.time

/-- Whether a log entry is a notification for button `i`. -/
def is_notification (i : Nat) (e : Nat × Effect) : Bool :=
  match e.2 with
  | Effect.keyboard_update_button j _ _ => decide (j = i)
  | _ => false

/-- The notifications for button `i` in a log. -/
def notifications (i : Nat) (log : List (Nat × Effect)) : List (Nat × Effect) :=
  log.filter (is_notification i)

/-- What `button_change_deferred`, run at `time_now`, makes of the state of
button `i`. -/
def debounce_one (b : Board) (gpio_get_level : Nat → Bool) (time_now : Nat) (i : Nat)
    (st : button_state_t) : button_state_t :=
  if st.debounce_time = 0 then st
  else if st.debounce_time ≤ time_now then
    { debounce_time := 0, debounced_pressed := raw_button_pressed b gpio_get_level (b.buttons i) }
  else st

/-- The notifications that `button_change_deferred`, run at `time_now` on the
button states `st`, emits for buttons `0, ..., n - 1`. -/
def debounce_log (b : Board) (gpio_get_level : Nat → Bool) (time_now : Nat)
    (st : Nat → button_state_t) : Nat → List (Nat × Effect)
  | 0 => []
  | n + 1 =>
    debounce_log b gpio_get_level time_now st n ++
      (if (st n).debounce_time ≠ 0 ∧ (st n).debounce_time ≤ time_now ∧
          (st n).debounced_pressed ≠ raw_button_pressed b gpio_get_level (b.buttons n) then
        [(time_now, Effect.keyboard_update_button n (b.buttons n).type
            (raw_button_pressed b gpio_get_level (b.buttons n)))]
      else [])

/-- The value of `soonest_debounce_time` after the loop of
`button_change_deferred`, run at `time_now` on the button states `st`, has
looked at buttons `0, ..., n - 1`. -/
def debounce_soonest (time_now : Nat) (st : Nat → button_state_t) : Nat → Nat
  | 0 => 0
  | n + 1 =>
    if (st n).debounce_time ≠ 0 ∧ time_now < (st n).debounce_time then
      (if debounce_soonest time_now st n = 0 then (st n).debounce_time
       else min (debounce_soonest time_now st n) (st n).debounce_time)
    else debounce_soonest time_now st n

/-! ## The recovery-boot detector -/

/-- The result of a routine that polls the clock: the state it has reached
and whether it has returned.  `returned = false` means that the clock readings
supplied to it ended while it was still polling. -/
structure Polled where
  ec : EC
  returned : Bool

/-- What one iteration of the loop of `button_check_hw_reinit_required`
observes: the line levels, `power_button_signal_asserted()`, and the reading
of `get_time()` that ends the iteration. -/
structure Poll where
  gpio_get_level : Nat → Bool
  power_button_signal_asserted : Bool
  get_time : Nat

/-- The loop of `is_recovery_button_pressed`: `n` recovery buttons are left,
starting with number `i`. -/
def is_recovery_button_pressed_loop (b : Board) (gpio_get_level : Nat → Bool) : Nat → Nat → Bool
  | 0, _ => true
  | n + 1, i =>
    if !raw_button_pressed b gpio_get_level (b.recovery_buttons i) then false
    else is_recovery_button_pressed_loop b gpio_get_level n (i + 1)

/-- The function `is_recovery_button_pressed`. -/
def is_recovery_button_pressed (b : Board) (gpio_get_level : Nat → Bool) : Bool :=
  is_recovery_button_pressed_loop b gpio_get_level b.recovery_buttons_count 0

/-- Negation `!led_state` of an LED state (`LED_STATE_OFF` is 0, `LED_STATE_ON` is 1). -/
def led_not : ec_led_state → ec_led_state
  | LED_STATE_OFF => LED_STATE_ON
  | _ => LED_STATE_OFF

/-- The loop of `button_blink_hw_reinit_led` and the reset of the LED that
follows it; `now` is the last reading of `get_time()` and `clock` holds the
readings that end the iterations to come. -/
def button_blink_loop (deadline : Nat) : ec_led_state → Nat → List Nat → EC → Polled
  | _, now, [], s =>
    if timestamp_expired deadline now then
      -- Reset LED to default state.
      { ec := { s with log := s.log ++
          [(now, Effect.led_control EC_LED_ID_RECOVERY_HW_REINIT_LED LED_STATE_RESET)] },
        returned := true }
    else { ec := s, returned := false }
  | led_state, now, t :: clock, s =>
    if timestamp_expired deadline now then
      -- Reset LED to default state.
      { ec := { s with log := s.log ++
          [(now, Effect.led_control EC_LED_ID_RECOVERY_HW_REINIT_LED LED_STATE_RESET)] },
        returned := true }
    else
      button_blink_loop deadline (led_not led_state) t clock
        { s with log := s.log ++
            [(now, Effect.led_control EC_LED_ID_RECOVERY_HW_REINIT_LED led_state),
             (now, Effect.watchdog_reload),
             (now, Effect.msleep 100)] }

/-- The function `button_blink_hw_reinit_led`; the first reading of `clock` is
its `now = get_time()`. -/
def button_blink_hw_reinit_led (clock : List Nat) (s : EC) : Polled :=
  match clock with
  | [] => { ec := s, returned := false }
  | now :: clock' => button_blink_loop (now + 3 * SECOND) LED_STATE_ON now clock' s

/-- What `button_check_hw_reinit_required` does once its loop has ended with
the deadline expired. -/
def button_hw_reinit_requested (b : Board) (now : Nat) (blink : List Nat) (s : EC) : Polled :=
  let s := { s with log := s.log ++
    [(now, Effect.host_set_single_event EC_HOST_EVENT_KEYBOARD_RECOVERY_HW_REINIT)] }
  if b.CONFIG_LED_COMMON then button_blink_hw_reinit_led blink s
  else { ec := s, returned := true }

/-- The loop of `button_check_hw_reinit_required` and what follows it; `now`
is the last reading of `get_time()` and `polls` holds what the iterations to
come observe. -/
def button_check_hw_reinit_loop (b : Board) (deadline : Nat) (blink : List Nat) :
    Nat → List Poll → EC → Polled
  | now, [], s =>
    if timestamp_expired deadline now then button_hw_reinit_requested b now blink s
    else { ec := s, returned := false }
  | now, p :: polls, s =>
    if timestamp_expired deadline now then button_hw_reinit_requested b now blink s
    else if !is_recovery_button_pressed b p.gpio_get_level || !p.power_button_signal_asserted then
      { ec := s, returned := true }
    else
      button_check_hw_reinit_loop b deadline blink p.get_time polls
        { s with log := s.log ++ [(p.get_time, Effect.watchdog_reload)] }

/-- The function `button_check_hw_reinit_required`; `now` is its first reading
of `get_time()`, `polls` what the iterations of its loop observe and `blink`
the clock readings of the LED routine. -/
def button_check_hw_reinit_required (b : Board) (now : Nat) (polls : List Poll)
    (blink : List Nat) (s : EC) : Polled :=
  let deadline := now + 20 * SECOND
  button_check_hw_reinit_loop b deadline blink now polls s

/-- What `button_init` observes. -/
structure BootEnv where
  /-- The line levels read by the loop of `button_init`. -/
  init_level : Nat → Bool
  system_jumped_to_this_image : Bool
  system_get_reset_flags : Nat
  /-- The line levels read by `is_recovery_boot`. -/
  recovery_level : Nat → Bool
  /-- The clock when `button_check_hw_reinit_required` starts. -/
  get_time : Nat
  polls : List Poll
  blink : List Nat

/-- The function `is_recovery_boot`. -/
def is_recovery_boot (b : Board) (env : BootEnv) : Bool :=
  if env.system_jumped_to_this_image then false
  else if env.system_get_reset_flags &&& (b.RESET_FLAG_RESET_PIN ||| b.RESET_FLAG_POWER_ON) = 0
    then false
  else if !is_recovery_button_pressed b env.recovery_level then false
  else true

/-- The loop of `button_init` over buttons `0, ..., n - 1`. -/
def button_init_loop (b : Board) (env : BootEnv) : Nat → EC → EC
  | 0, s => s
  | n + 1, s =>
    let s := button_init_loop b env n s
    let pressed := raw_button_pressed b env.init_level (b.buttons n)
    let s := { s with state := set_state s.state n { (s.state n) with debounced_pressed := pressed } }
    let s := { s with state := set_state s.state n { (s.state n) with debounce_time := 0 } }
    { s with log := s.log ++ [(env.get_time, Effect.gpio_enable_interrupt (b.buttons n).gpio)] }

/-- The function `button_init`. -/
def button_init (b : Board) (env : BootEnv) (s : EC) : Polled :=
  let s := { s with next_deferred_time := 0 }
  let s := button_init_loop b env b.CONFIG_BUTTON_COUNT s
  if is_recovery_boot b env then
    let s := { s with log := s.log ++
      [(env.get_time, Effect.host_set_single_event EC_HOST_EVENT_KEYBOARD_RECOVERY)] }
    button_check_hw_reinit_required b env.get_time env.polls env.blink s
  else { ec := s, returned := true }

/-! ## The diagnostic state machine -/

/-- The function `debug_button_mask`, given the reading of
`power_button_is_pressed()`. -/
def debug_button_mask (b : Board) (power_button_is_pressed : Bool) (s : EC) : Nat :=
  let mask := 0
  let mask := if power_button_is_pressed then mask ||| DEBUG_BTN_POWER else mask
  let mask := if (s.state b.BUTTON_VOLUME_UP).debounced_pressed
    then mask ||| DEBUG_BTN_VOL_UP else mask
  let mask := if (s.state b.BUTTON_VOLUME_DOWN).debounced_pressed
    then mask ||| DEBUG_BTN_VOL_DN else mask
  mask

/-- The function `debug_mode_blink_led`. -/
def debug_mode_blink_led (s : EC) : Bool :=
  s.curr_debug_state != STATE_DEBUG_NONE && s.curr_debug_state != STATE_DEBUG_CHECK

/-- The loop `while (debug_button_hit_count) { host_send_sysrq('x'); debug_button_hit_count--; }`
of `debug_mode_transition`: the argument is the counter, the result the log
once the counter has reached 0. -/
def send_sysrq_loop (now : Nat) : Nat → List (Nat × Effect) → List (Nat × Effect)
  | 0, log => log
  | n + 1, log => send_sysrq_loop now n (log ++ [(now, Effect.host_send_sysrq 'x')])

/-- The function `debug_mode_transition(next_state)`, run at time `now`. -/
def debug_mode_transition (b : Board) (now : Nat) (next_state : debug_state) (s : EC) : EC :=
  let curr_blink_state := debug_mode_blink_led s
  -- Cancel any deferred calls.
  let s := { s with debug_mode_handle_data := hook_call_deferred now (-1) }
  -- Update current debug mode state.
  let s := { s with curr_debug_state := next_state }
  -- Set deadline to 10 seconds from current time.
  let s := { s with debug_state_deadline := now + DEBUG_TIMEOUT }
  let s : EC :=
    match s.curr_debug_state with
    | STATE_DEBUG_NONE => s
    | STATE_DEBUG_CHECK =>
      { s with debug_mode_handle_data := hook_call_deferred now DEBUG_TIMEOUT }
    | STATE_STAGING =>
      { s with debug_mode_handle_data := hook_call_deferred now DEBUG_TIMEOUT }
    | STATE_DEBUG_MODE_ACTIVE => { s with debug_button_hit_count := 0 }
    | STATE_SYSRQ_PATH =>
      let s := { s with debug_button_hit_count := s.debug_button_hit_count + 1 }
      if s.debug_button_hit_count = 4 then { s with curr_debug_state := STATE_DEBUG_NONE } else s
    | STATE_WARM_RESET_PATH => s
    | STATE_SYSRQ_EXEC =>
      { s with log := send_sysrq_loop now s.debug_button_hit_count s.log,
               debug_button_hit_count := 0,
               curr_debug_state := STATE_DEBUG_NONE }
    | STATE_WARM_RESET_EXEC =>
      { s with log := s.log ++ [(now, Effect.chipset_reset 0)],
               curr_debug_state := STATE_DEBUG_NONE }
  if s.curr_debug_state ≠ STATE_DEBUG_NONE then s
  else
    -- If state machine reached initial state, reset all variables.
    { s with next_debug_state := STATE_DEBUG_NONE,
             debug_state_deadline := 0,
             debug_button_hit_count := 0,
             log := if b.CONFIG_LED_COMMON && curr_blink_state
               then s.log ++ [(now, Effect.led_control EC_LED_ID_SYSRQ_DEBUG_LED LED_STATE_RESET)]
               else s.log }

/-- The function `debug_mode_handle`, run at time `now`; `mask` is the value
of `debug_button_mask()`, which every branch that looks at the buttons reads
exactly once. -/
def debug_mode_handle (b : Board) (mask : Nat) (now : Nat) (s : EC) : EC :=
  match s.curr_debug_state with
  | STATE_DEBUG_NONE =>
    if mask = (DEBUG_BTN_VOL_UP ||| DEBUG_BTN_VOL_DN) then
      debug_mode_transition b now STATE_DEBUG_CHECK s
    else s
  | STATE_DEBUG_CHECK =>
    if ¬ (mask = (DEBUG_BTN_VOL_UP ||| DEBUG_BTN_VOL_DN)) then
      debug_mode_transition b now STATE_DEBUG_NONE s
    else if timestamp_expired s.debug_state_deadline now then
      debug_mode_transition b now STATE_STAGING
        { s with next_debug_state := STATE_DEBUG_MODE_ACTIVE }
    else s
  | STATE_STAGING =>
    -- If no button is pressed, transition to next state.
    if mask = 0 then
      debug_mode_transition b now s.next_debug_state s
    -- Exit debug mode if keys are stuck for > 10 seconds.
    else if timestamp_expired s.debug_state_deadline now then
      debug_mode_transition b now STATE_DEBUG_NONE s
    else
      { s with debug_mode_handle_data :=
          hook_call_deferred now ((s.debug_state_deadline : Int) - (now : Int)) }
  | STATE_DEBUG_MODE_ACTIVE =>
    if mask = 0 ∧ ¬ timestamp_expired s.debug_state_deadline now then s
    else if mask ≠ DEBUG_BTN_VOL_UP ∧ mask ≠ DEBUG_BTN_VOL_DN then
      debug_mode_transition b now STATE_DEBUG_NONE s
    else
      let s := if mask = DEBUG_BTN_VOL_UP
        then { s with next_debug_state := STATE_SYSRQ_PATH }
        else { s with next_debug_state := STATE_WARM_RESET_PATH }
      debug_mode_transition b now STATE_STAGING s
  | STATE_SYSRQ_PATH =>
    if mask = 0 ∧ ¬ timestamp_expired s.debug_state_deadline now then s
    else if mask ≠ DEBUG_BTN_VOL_UP ∧ mask ≠ DEBUG_BTN_VOL_DN then
      debug_mode_transition b now STATE_DEBUG_NONE s
    else
      let s := if mask = DEBUG_BTN_VOL_UP
        then { s with next_debug_state := STATE_SYSRQ_PATH }
        else { s with next_debug_state := STATE_SYSRQ_EXEC }
      debug_mode_transition b now STATE_STAGING s
  | STATE_WARM_RESET_PATH =>
    if mask = 0 ∧ ¬ timestamp_expired s.debug_state_deadline now then s
    else if mask ≠ DEBUG_BTN_VOL_UP then
      debug_mode_transition b now STATE_DEBUG_NONE s
    else
      debug_mode_transition b now STATE_STAGING
        { s with next_debug_state := STATE_WARM_RESET_EXEC }
  | STATE_SYSRQ_EXEC => debug_mode_transition b now STATE_DEBUG_NONE s
  | STATE_WARM_RESET_EXEC => debug_mode_transition b now STATE_DEBUG_NONE s

/-! ## Executions of the diagnostic state machine -/

/-- The scheduler runs `debug_mode_handle` from its deferred slot at time
`now`: the slot is emptied (the callback runs once), then the routine is
called. -/
def debug_mode_handle_deferred (b : Board) (mask : Nat) (now : Nat) (s : EC) : EC :=
  debug_mode_handle b mask now { s with debug_mode_handle_data := none }

/-- What makes the handler run: a confirmed change of a button at time `t`
(the debounce tick calls `hook_call_deferred(&debug_mode_handle_data, 0)`, so
the handler runs from its slot at `t` and reads `mask`, which is the mask as
before when the button is not one of the mask), or the pending invocation
falling due. -/
inductive DebugEvent where
  | mask_change (t : Nat) (mask : Nat)
  | deadline
deriving DecidableEq

/-- An execution in progress: the time of the last event, the confirmed mask
and the module state. -/
structure DebugRun where
  clock : Nat
  mask : Nat
  ec : EC

/-- One event of an execution.  A mask change at `t` is possible only if time
does not go back and no pending invocation is due by `t` (it would have run
first); the deadline event runs the pending invocation at the time it is due,
with the mask unchanged. -/
def debug_step (b : Board) (r : DebugRun) : DebugEvent → Option DebugRun
  | DebugEvent.mask_change t mask =>
    if r.clock ≤ t ∧ (∀ d, r.ec.debug_mode_handle_data = some d → t < d) then
      some { clock := t, mask := mask,
             ec := debug_mode_handle_deferred b mask t
               { r.ec with debug_mode_handle_data := hook_call_deferred t 0 } }
    else none
  | DebugEvent.deadline =>
    match r.ec.debug_mode_handle_data with
    | some d =>
      if r.clock ≤ d then
        some { clock := d, mask := r.mask, ec := debug_mode_handle_deferred b r.mask d r.ec }
      else none
    | none => none

/-- An execution: the events in order; `none` if one of them is not possible. -/
def debug_run (b : Board) : DebugRun → List DebugEvent → Option DebugRun
  | r, [] => some r
  | r, e :: es =>
    match debug_step b r e with
    | some r' => debug_run b r' es
    | none => none

/-- The number of `host_send_sysrq` calls in a log. -/
def sysrq_calls (log : List (Nat × Effect)) : Nat :=
  (log.filter (fun e => decide (e.2 = Effect.host_send_sysrq 'x'))).length

/-- The number of `chipset_reset` calls in a log. -/
def reset_calls (log : List (Nat × Effect)) : Nat :=
  (log.filter (fun e => decide (e.2 = Effect.chipset_reset 0))).length

/-- The number of times the host event `ev` is posted in a log. -/
def event_posts (ev : host_event_code) (log : List (Nat × Effect)) : Nat :=
  (log.filter (fun e => decide (e.2 = Effect.host_set_single_event ev))).length

/-- A board with two buttons, volume-up and volume-down, and no LED. -/
def demo_board : Board where
  CONFIG_BUTTON_COUNT := 2
  buttons := fun i =>
    if i = 0 then { name := "Volume Up", type := 2, gpio := 10, debounce_us := 30000, flags := 0 }
    else { name := "Volume Down", type := 1, gpio := 11, debounce_us := 30000, flags := 0 }
  recovery_buttons_count := 2
  recovery_buttons := fun i =>
    if i = 0 then { name := "Volume Up", type := 2, gpio := 10, debounce_us := 30000, flags := 0 }
    else { name := "Volume Down", type := 1, gpio := 11, debounce_us := 30000, flags := 0 }
  BUTTON_VOLUME_UP := 0
  BUTTON_VOLUME_DOWN := 1
  BUTTON_FLAG_ACTIVE_HIGH := 1
  RESET_FLAG_RESET_PIN := 2
  RESET_FLAG_POWER_ON := 8
  CONFIG_LED_COMMON := false

/-- The state of the two-button board after two raw edges on the volume-up
line (line 10), at times 20 and 40, from the boot state: the tick is due at
30020 and the deadline of the button is 30040. -/
def bounce_state : EC :=
  button_run demo_board EC.boot [ButtonEvent.interrupt 10 20, ButtonEvent.interrupt 10 40]

/-- A poll that observes every line low (the buttons of the two-button board
are active-low, so pressed) and the power-button signal asserted. -/
def held_poll (t : Nat) : Poll :=
  { gpio_get_level := fun _ => false, power_button_signal_asserted := true, get_time := t }

/-- A poll that observes every line high (the buttons of the two-button board
released). -/
def released_poll (t : Nat) : Poll :=
  { gpio_get_level := fun _ => true, power_button_signal_asserted := true, get_time := t }

/-- A power-on boot of the two-button board with both buttons held for the
whole 20-second window: the polls end at 7 s, 14 s and 21 s. -/
def held_boot : BootEnv :=
  { init_level := fun _ => false
    system_jumped_to_this_image := false
    system_get_reset_flags := 8
    recovery_level := fun _ => false
    get_time := 0
    polls := [held_poll 7000000, held_poll 14000000, held_poll 21000000]
    blink := [] }

/-- A power-on boot of the two-button board with no button pressed. -/
def plain_boot : BootEnv :=
  { init_level := fun _ => true
    system_jumped_to_this_image := false
    system_get_reset_flags := 8
    recovery_level := fun _ => true
    get_time := 0
    polls := []
    blink := [] }

/-- The function `debug_mode_handle` together with the mask it reads:
`debug_button_mask()` is computed from the reading of
`power_button_is_pressed()` and the debounced button states. -/
def debug_mode_handle_on_buttons (b : Board) (power_button_is_pressed : Bool) (now : Nat)
    (s : EC) : EC :=
  debug_mode_handle b (debug_button_mask b power_button_is_pressed s) now s

/-- An execution of the debounce engine in progress: the time of the last
event and the module state. -/
structure ButtonRun where
  clock : Nat
  ec : EC

/-- One event of an execution of the debounce engine under a timely scheduler.
An interrupt at `t` is possible only if time does not go back and no tick is
due by `t` (it would have run first); the tick runs from its slot exactly at
the time it is due. -/
def button_step_timely (b : Board) (r : ButtonRun) : ButtonEvent → Option ButtonRun
  | ButtonEvent.interrupt signal t =>
    if r.clock ≤ t ∧ (∀ d, r.ec.button_change_deferred_data = some d → t < d) then
      some { clock := t, ec := button_interrupt b signal t r.ec }
    else none
  | ButtonEvent.tick gpio_get_level t =>
    if r.clock ≤ t ∧ r.ec.button_change_deferred_data = some t then
      some { clock := t, ec := button_change_deferred_run b gpio_get_level t r.ec }
    else none

/-- An execution of the debounce engine under a timely scheduler: the events
in order; `none` if one of them is not possible. -/
def button_run_timely (b : Board) : ButtonRun → List ButtonEvent → Option ButtonRun
  | r, [] => some r
  | r, e :: es =>
    match button_step_timely b r e with
    | some r' => button_run_timely b r' es
    | none => none

/-! ## Sequences of handler invocations -/

/-- One invocation of `debug_mode_handle`: the mask it reads, the time, and
how it is entered.  The routine is both a deferred callback (the scheduler
empties the slot, then calls it) and a `HOOK_POWER_BUTTON_CHANGE` hook (called
directly, the slot is left as it is). -/
structure HandlerCall where
  from_slot : Bool
  mask : Nat
  now : Nat
deriving DecidableEq

/-- One invocation of the handler. -/
def debug_call (b : Board) (s : EC) (c : HandlerCall) : EC :=
  if c.from_slot then debug_mode_handle_deferred b c.mask c.now s
  else debug_mode_handle b c.mask c.now s

/-- A sequence of invocations of the handler, in order. -/
def debug_calls (b : Board) (s : EC) (cs : List HandlerCall) : EC :=
  cs.foldl (debug_call b) s

/-! ## The debounce engine under a scheduler that may be late -/

/-- One event of an execution of the debounce engine when the deferred
callback may run late but never early.  An interrupt at `t` is possible
whenever time does not go back; the tick runs from its slot at a time `t` that
is not before the time it is due. -/
def button_step_late (b : Board) (r : ButtonRun) : ButtonEvent → Option ButtonRun
  | ButtonEvent.interrupt signal t =>
    if r.clock ≤ t then some { clock := t, ec := button_interrupt b signal t r.ec }
    else none
  | ButtonEvent.tick gpio_get_level t =>
    match r.ec.button_change_deferred_data with
    | some d =>
      if r.clock ≤ t ∧ d ≤ t then
        some { clock := t, ec := button_change_deferred_run b gpio_get_level t r.ec }
      else none
    | none => none

/-- An execution of the debounce engine under a scheduler that may be late:
the events in order; `none` if one of them is not possible. -/
def button_run_late (b : Board) : ButtonRun → List ButtonEvent → Option ButtonRun
  | r, [] => some r
  | r, e :: es =>
    match button_step_late b r e with
    | some r' => button_run_late b r' es
    | none => none

/-! ## The version comparison of `usb_updater.c` -/

/-- The fields of `struct signed_header_version` that `a_newer_than_b` reads;
each is a `uint32_t`. -/
structure signed_header_version where
  minor : Nat
  major : Nat
  epoch : Nat
deriving DecidableEq

/-- The loop of `a_newer_than_b` over the rows `fields[0]` and `fields[1]`,
from the current index on. -/
def a_newer_than_b_loop : List Nat → List Nat → Bool
  | a_value :: fields0, b_value :: fields1 =>
    -- Let's filter out images where the section is not initialized
    let a_value := if a_value = 0xffffffff then 0 else a_value
    let b_value := if b_value = 0xffffffff then 0 else b_value
    if a_value ≠ b_value then decide (a_value > b_value)
    else a_newer_than_b_loop fields0 fields1
  | _, _ => false

/-- The function `a_newer_than_b`. -/
def a_newer_than_b (a b : signed_header_version) : Bool :=
  a_newer_than_b_loop [a.epoch, a.major, a.minor] [b.epoch, b.major, b.minor]

/-- A field with the erased-flash value `0xffffffff` replaced by 0. -/
def normalised_field (v : Nat) : Nat := if v = 0xffffffff then 0 else v

/-- Strict lexicographic order on `(epoch, major, minor)` after normalising
every field, written out from the words of the claim: `a` is greater than
`b`. -/
def lexicographically_greater (a b : signed_header_version) : Prop :=
  normalised_field a.epoch > normalised_field b.epoch ∨
  (normalised_field a.epoch = normalised_field b.epoch ∧
    (normalised_field a.major > normalised_field b.major ∨
      (normalised_field a.major = normalised_field b.major ∧
        normalised_field a.minor > normalised_field b.minor)))

/-! ## A board with a third button -/

/-- A board with three buttons: volume-up, volume-down and a third button on
line 12 that is not part of the diagnostic mask. -/
def three_button_board : Board where
  CONFIG_BUTTON_COUNT := 3
  buttons := fun i =>
    if i = 0 then { name := "Volume Up", type := 2, gpio := 10, debounce_us := 30000, flags := 0 }
    else if i = 1 then
      { name := "Volume Down", type := 1, gpio := 11, debounce_us := 30000, flags := 0 }
    else { name := "Recovery", type := 3, gpio := 12, debounce_us := 30000, flags := 0 }
  recovery_buttons_count := 1
  recovery_buttons := fun _ =>
    { name := "Recovery", type := 3, gpio := 12, debounce_us := 30000, flags := 0 }
  BUTTON_VOLUME_UP := 0
  BUTTON_VOLUME_DOWN := 1
  BUTTON_FLAG_ACTIVE_HIGH := 1
  RESET_FLAG_RESET_PIN := 2
  RESET_FLAG_POWER_ON := 8
  CONFIG_LED_COMMON := false

/-- The three-button board with both volume buttons held: raw edges on lines
10 and 11 at time 20, the tick at 30020 reads both lines low (pressed) and
schedules the handler with delay 0, and the handler runs from its slot at
30020.  The machine is in `STATE_DEBUG_CHECK`, deadline and timer at
10030020. -/
def combo_held_state : EC :=
  let s := button_interrupt three_button_board 10 20 EC.boot
  let s := button_interrupt three_button_board 11 20 s
  let s := button_change_deferred_run three_button_board
    (fun gpio => decide (gpio = 12)) 30020 s
  debug_mode_handle_deferred three_button_board
    (debug_button_mask three_button_board false s) 30020 s

/-- The third button is pressed while the combination is held: a raw edge on
line 12 at 1000000, the tick at 1030000 reads all three lines low and
schedules the handler with delay 0 (the state that the scheduler then finds
is `third_button_tick`). -/
def third_button_tick : EC :=
  let s := button_interrupt three_button_board 12 1000000 combo_held_state
  button_change_deferred_run three_button_board (fun _ => false) 1030000 s

/-- The handler runs from its slot at 1030000 and reads the mask, which is
still `{vol-up, vol-down}`. -/
def third_button_state : EC :=
  debug_mode_handle_deferred three_button_board
    (debug_button_mask three_button_board false third_button_tick) 1030000 third_button_tick

/-! ## A board with a debounce interval that does not fit an `int` -/

/-- The two-button board with a debounce interval of 3000 seconds on both
buttons; `debounce_us` is a `uint32_t`, and 3000000000 is above `2^31 - 1`. -/
def slow_board : Board :=
  { demo_board with
    buttons := fun i =>
      if i = 0 then
        { name := "Volume Up", type := 2, gpio := 10, debounce_us := 3000000000, flags := 0 }
      else
        { name := "Volume Down", type := 1, gpio := 11, debounce_us := 3000000000, flags := 0 } }

/-! # Theorems -/

/-! ## The diagnostic key combination: scenarios -/

/-- A negative delay cancels the pending call. -/
theorem hook_call_deferred_cancel (now : Nat) : hook_call_deferred now (-1) = none := by
  simp [hook_call_deferred]

/-- A delay of `us` microseconds makes the call due at `now + us`. -/
theorem hook_call_deferred_delay (now us : Nat) :
    hook_call_deferred now (us : Int) = some (now + us) := by
  simp [hook_call_deferred]

/-- The delay `deadline - now`, for a deadline that is not in the past, makes
the call due at the deadline. -/
theorem hook_call_deferred_until (now deadline : Nat) (h : now ≤ deadline) :
    hook_call_deferred now ((deadline : Int) - (now : Int)) = some deadline := by
  unfold hook_call_deferred
  rw [if_neg (by omega)]
  congr 1
  omega

/-- A difference from 0 to `2^31 - 1` is not changed by the conversion to
`int`. -/
theorem uint64_to_int_small (x : Int) (h0 : 0 ≤ x) (h1 : x < 2 ^ 31) : uint64_to_int x = x := by
  unfold uint64_to_int
  norm_num at h1 ⊢
  omega

/-- Scheduling for a deadline that is less than `2^31` microseconds ahead: the
callback is due at the deadline. -/
theorem hook_call_deferred_narrowed (now deadline : Nat) (h : now ≤ deadline)
    (hb : deadline < now + 2 ^ 31) :
    hook_call_deferred now (uint64_to_int ((deadline : Int) - (now : Int))) = some deadline := by
  rw [uint64_to_int_small _ (by omega) (by push_cast at hb ⊢; omega)]
  exact hook_call_deferred_until now deadline h

/-- The mask `{vol-up, vol-down}`. -/
theorem combo_mask_eq : DEBUG_BTN_VOL_UP ||| DEBUG_BTN_VOL_DN = 6 := by decide

theorem sysrq_calls_append (l₁ l₂ : List (Nat × Effect)) :
    sysrq_calls (l₁ ++ l₂) = sysrq_calls l₁ + sysrq_calls l₂ := by
  simp [sysrq_calls]

theorem reset_calls_append (l₁ l₂ : List (Nat × Effect)) :
    reset_calls (l₁ ++ l₂) = reset_calls l₁ + reset_calls l₂ := by
  simp [reset_calls]

/-- The loop of `STATE_SYSRQ_EXEC` makes one `host_send_sysrq` call per hit. -/
theorem sysrq_calls_send_sysrq_loop (now n : Nat) (log : List (Nat × Effect)) :
    sysrq_calls (send_sysrq_loop now n log) = sysrq_calls log + n := by
  induction n generalizing log with
  | zero => simp [send_sysrq_loop]
  | succ n ih =>
    rw [send_sysrq_loop, ih, sysrq_calls_append]
    simp [sysrq_calls]
    omega

/-- While the combination has been held for less than the timeout, a handler
invocation on a mask change keeps the machine in `STATE_DEBUG_CHECK` (mask
still the combination) or `STATE_DEBUG_NONE` (any other mask). -/
theorem check_or_none_step (b : Board) (t0 : Nat) (r r' : DebugRun) (t mask : Nat)
    (hclock : t0 ≤ r.clock)
    (hinv : (r.ec.curr_debug_state = STATE_DEBUG_CHECK ∧
        r.mask = (DEBUG_BTN_VOL_UP ||| DEBUG_BTN_VOL_DN) ∧
        t0 + DEBUG_TIMEOUT ≤ r.ec.debug_state_deadline) ∨
      (r.ec.curr_debug_state = STATE_DEBUG_NONE ∧
        r.mask ≠ (DEBUG_BTN_VOL_UP ||| DEBUG_BTN_VOL_DN)))
    (ht : t < t0 + DEBUG_TIMEOUT)
    (hstep : debug_step b r (DebugEvent.mask_change t mask) = some r') :
    t0 ≤ r'.clock ∧
    ((r'.ec.curr_debug_state = STATE_DEBUG_CHECK ∧
        r'.mask = (DEBUG_BTN_VOL_UP ||| DEBUG_BTN_VOL_DN) ∧
        t0 + DEBUG_TIMEOUT ≤ r'.ec.debug_state_deadline) ∨
      (r'.ec.curr_debug_state = STATE_DEBUG_NONE ∧
        r'.mask ≠ (DEBUG_BTN_VOL_UP ||| DEBUG_BTN_VOL_DN))) := by
  simp only [debug_step] at hstep
  split_ifs at hstep with hv
  obtain ⟨hct, -⟩ := hv
  simp only [Option.some.injEq] at hstep
  subst hstep
  refine ⟨by simpa using le_trans hclock hct, ?_⟩
  have hne : ¬ (r.ec.debug_state_deadline ≤ t) ∨ r.ec.curr_debug_state = STATE_DEBUG_NONE := by
    rcases hinv with ⟨-, -, hd⟩ | ⟨hn, -⟩
    · left; omega
    · right; exact hn
  have hle : t0 ≤ t := le_trans hclock hct
  by_cases hm : mask = (DEBUG_BTN_VOL_UP ||| DEBUG_BTN_VOL_DN)
  · left
    rcases hinv with ⟨hc, -, hd⟩ | ⟨hn, -⟩
    · have hd' : ¬ (r.ec.debug_state_deadline ≤ t) := by omega
      simp [debug_mode_handle_deferred, debug_mode_handle, hc, hm, timestamp_expired, hd']
      exact hd
    · simp [debug_mode_handle_deferred, debug_mode_handle, debug_mode_transition, hn, hm]
      exact hle
  · right
    rcases hinv with ⟨hc, -, hd⟩ | ⟨hn, -⟩
    · simp [debug_mode_handle_deferred, debug_mode_handle, debug_mode_transition, hc, hm]
    · simp [debug_mode_handle_deferred, debug_mode_handle, hn, hm]

/-- The invariant of `check_or_none_step` along any sequence of mask changes
that all come before the timeout. -/
theorem check_or_none_run (b : Board) (t0 : Nat) (ms : List (Nat × Nat)) :
    ∀ (r r' : DebugRun), t0 ≤ r.clock →
    ((r.ec.curr_debug_state = STATE_DEBUG_CHECK ∧
        r.mask = (DEBUG_BTN_VOL_UP ||| DEBUG_BTN_VOL_DN) ∧
        t0 + DEBUG_TIMEOUT ≤ r.ec.debug_state_deadline) ∨
      (r.ec.curr_debug_state = STATE_DEBUG_NONE ∧
        r.mask ≠ (DEBUG_BTN_VOL_UP ||| DEBUG_BTN_VOL_DN))) →
    (∀ e ∈ ms, e.1 < t0 + DEBUG_TIMEOUT) →
    debug_run b r (ms.map (fun e => DebugEvent.mask_change e.1 e.2)) = some r' →
    (r'.ec.curr_debug_state = STATE_DEBUG_CHECK ∧
        r'.mask = (DEBUG_BTN_VOL_UP ||| DEBUG_BTN_VOL_DN)) ∨
      (r'.ec.curr_debug_state = STATE_DEBUG_NONE ∧
        r'.mask ≠ (DEBUG_BTN_VOL_UP ||| DEBUG_BTN_VOL_DN)) := by
  induction ms with
  | nil =>
    intro r r' _ hinv _ hrun
    simp only [List.map_nil, debug_run, Option.some.injEq] at hrun
    subst hrun
    rcases hinv with ⟨h1, h2, -⟩ | h
    · exact Or.inl ⟨h1, h2⟩
    · exact Or.inr h
  | cons e ms ih =>
    intro r r' hclock hinv hms hrun
    simp only [List.map_cons, debug_run] at hrun
    cases hstep : debug_step b r (DebugEvent.mask_change e.1 e.2) with
    | none => simp [hstep] at hrun
    | some r1 =>
      simp only [hstep] at hrun
      obtain ⟨hc1, hinv1⟩ := check_or_none_step b t0 r r1 e.1 e.2 hclock hinv
        (hms e (List.mem_cons_self _ _)) hstep
      exact ih r1 r' hc1 hinv1 (fun e' he' => hms e' (List.mem_cons_of_mem _ he')) hrun

/-- Pressing the combination in `STATE_DEBUG_NONE` at `t0` enters
`STATE_DEBUG_CHECK`, with the deadline and the next invocation at
`t0 + DEBUG_TIMEOUT`. -/
theorem enter_check (b : Board) (s : EC) (c t0 : Nat)
    (hs : s.curr_debug_state = STATE_DEBUG_NONE)
    (hslot : s.debug_mode_handle_data = none) (h0 : c ≤ t0) :
    ∃ r0, debug_step b { clock := c, mask := 0, ec := s }
        (DebugEvent.mask_change t0 (DEBUG_BTN_VOL_UP ||| DEBUG_BTN_VOL_DN)) = some r0 ∧
      r0.clock = t0 ∧ r0.mask = (DEBUG_BTN_VOL_UP ||| DEBUG_BTN_VOL_DN) ∧
      r0.ec.curr_debug_state = STATE_DEBUG_CHECK ∧
      r0.ec.debug_state_deadline = t0 + DEBUG_TIMEOUT ∧
      r0.ec.debug_mode_handle_data = some (t0 + DEBUG_TIMEOUT) := by
  simp [debug_step, debug_mode_handle_deferred, debug_mode_handle, debug_mode_transition,
    hook_call_deferred_cancel, hook_call_deferred_delay, hs, hslot, h0]

/-! ### Claims C1 to C4 -/

/-- C3: from `STATE_DEBUG_MODE_ACTIVE`, four `{vol-up}` taps, each followed by
a full release, with no `{vol-down}` tap in between: after the fourth press the
machine is still staging with three hits counted, the fourth release brings it
to `STATE_DEBUG_NONE` with the hit counter cleared, and no `host_send_sysrq`
call has been made. -/
theorem four_vol_up_taps_exit (b : Board) (s : EC) (c t1 t2 t3 t4 t5 t6 t7 t8 : Nat)
    (hs : s.curr_debug_state = STATE_DEBUG_MODE_ACTIVE)
    (hhit : s.debug_button_hit_count = 0)
    (hslot : s.debug_mode_handle_data = none)
    (h1 : c ≤ t1) (h2 : t1 ≤ t2) (h2' : t2 < t1 + DEBUG_TIMEOUT)
    (h3 : t2 ≤ t3) (h4 : t3 ≤ t4) (h4' : t4 < t3 + DEBUG_TIMEOUT)
    (h5 : t4 ≤ t5) (h6 : t5 ≤ t6) (h6' : t6 < t5 + DEBUG_TIMEOUT)
    (h7 : t6 ≤ t7) (h8 : t7 ≤ t8) (h8' : t8 < t7 + DEBUG_TIMEOUT) :
    ∃ r r', debug_run b { clock := c, mask := 0, ec := s }
        [DebugEvent.mask_change t1 DEBUG_BTN_VOL_UP, DebugEvent.mask_change t2 0,
         DebugEvent.mask_change t3 DEBUG_BTN_VOL_UP, DebugEvent.mask_change t4 0,
         DebugEvent.mask_change t5 DEBUG_BTN_VOL_UP, DebugEvent.mask_change t6 0,
         DebugEvent.mask_change t7 DEBUG_BTN_VOL_UP] = some r ∧
      r.ec.curr_debug_state = STATE_STAGING ∧
      r.ec.next_debug_state = STATE_SYSRQ_PATH ∧
      r.ec.debug_button_hit_count = 3 ∧
      debug_step b r (DebugEvent.mask_change t8 0) = some r' ∧
      r'.ec.curr_debug_state = STATE_DEBUG_NONE ∧
      r'.ec.debug_button_hit_count = 0 ∧
      sysrq_calls r'.ec.log = sysrq_calls s.log := by
  simp [debug_run, debug_step, debug_mode_handle_deferred, debug_mode_handle,
    debug_mode_transition, hook_call_deferred_cancel, hook_call_deferred_delay,
    timestamp_expired, hs, hhit, hslot, DEBUG_BTN_VOL_UP, DEBUG_BTN_VOL_DN,
    h1, h2, h3, h4, h5, h6, h7, h8, h2', h4', h6', h8']
  split <;> simp [sysrq_calls]

/-- Witness of C3: the four taps on the two-button board, one second apart,
from the active state. -/
theorem four_vol_up_taps_exit_witness :
    ∃ r r', debug_run demo_board
        { clock := 0, mask := 0,
          ec := { EC.boot with curr_debug_state := STATE_DEBUG_MODE_ACTIVE } }
        [DebugEvent.mask_change 1000000 DEBUG_BTN_VOL_UP, DebugEvent.mask_change 2000000 0,
         DebugEvent.mask_change 3000000 DEBUG_BTN_VOL_UP, DebugEvent.mask_change 4000000 0,
         DebugEvent.mask_change 5000000 DEBUG_BTN_VOL_UP, DebugEvent.mask_change 6000000 0,
         DebugEvent.mask_change 7000000 DEBUG_BTN_VOL_UP] = some r ∧
      r.ec.curr_debug_state = STATE_STAGING ∧
      r.ec.next_debug_state = STATE_SYSRQ_PATH ∧
      r.ec.debug_button_hit_count = 3 ∧
      debug_step demo_board r (DebugEvent.mask_change 8000000 0) = some r' ∧
      r'.ec.curr_debug_state = STATE_DEBUG_NONE ∧
      r'.ec.debug_button_hit_count = 0 ∧
      sysrq_calls r'.ec.log =
        sysrq_calls ({ EC.boot with curr_debug_state := STATE_DEBUG_MODE_ACTIVE } : EC).log :=
  four_vol_up_taps_exit demo_board { EC.boot with curr_debug_state := STATE_DEBUG_MODE_ACTIVE }
    0 1000000 2000000 3000000 4000000 5000000 6000000 7000000 8000000 rfl rfl rfl
    (by decide) (by decide) (by decide) (by decide) (by decide) (by decide) (by decide)
    (by decide) (by decide) (by decide) (by decide) (by decide)

/-- What holds of the combination timeout.  The combination
`{vol-up, vol-down}` is pressed at `t0` in `STATE_DEBUG_NONE`.  (1) After any
handler runs `ms` that all come before `t0 + DEBUG_TIMEOUT`, the machine is
neither in `STATE_STAGING` nor in `STATE_DEBUG_MODE_ACTIVE`: it is in
`STATE_DEBUG_CHECK` while the mask is the combination and in
`STATE_DEBUG_NONE` once it is not.  (2) If the mask is held until the deadline
and the handler does not run in between, the invocation at
`t0 + DEBUG_TIMEOUT` enters `STATE_STAGING` with pending next state
`STATE_DEBUG_MODE_ACTIVE`. -/
theorem combo_timeout (b : Board) (s : EC) (c t0 : Nat) (ms : List (Nat × Nat)) (r : DebugRun)
    (hs : s.curr_debug_state = STATE_DEBUG_NONE)
    (hslot : s.debug_mode_handle_data = none)
    (h0 : c ≤ t0)
    (hearly : ∀ e ∈ ms, e.1 < t0 + DEBUG_TIMEOUT)
    (hrun : debug_run b { clock := c, mask := 0, ec := s }
      (DebugEvent.mask_change t0 (DEBUG_BTN_VOL_UP ||| DEBUG_BTN_VOL_DN) ::
        ms.map (fun e => DebugEvent.mask_change e.1 e.2)) = some r) :
    (r.ec.curr_debug_state ≠ STATE_STAGING ∧
      r.ec.curr_debug_state ≠ STATE_DEBUG_MODE_ACTIVE ∧
      (r.mask = (DEBUG_BTN_VOL_UP ||| DEBUG_BTN_VOL_DN) →
        r.ec.curr_debug_state = STATE_DEBUG_CHECK) ∧
      (r.mask ≠ (DEBUG_BTN_VOL_UP ||| DEBUG_BTN_VOL_DN) →
        r.ec.curr_debug_state = STATE_DEBUG_NONE)) ∧
    ∃ r1, debug_run b { clock := c, mask := 0, ec := s }
        [DebugEvent.mask_change t0 (DEBUG_BTN_VOL_UP ||| DEBUG_BTN_VOL_DN),
         DebugEvent.deadline] = some r1 ∧
      r1.clock = t0 + DEBUG_TIMEOUT ∧
      r1.ec.curr_debug_state = STATE_STAGING ∧
      r1.ec.next_debug_state = STATE_DEBUG_MODE_ACTIVE := by
  obtain ⟨r0, hstep, hclk, hmask, hcurr, hdl, hsl⟩ := enter_check b s c t0 hs hslot h0
  constructor
  · simp only [debug_run, hstep] at hrun
    have hinv : (r0.ec.curr_debug_state = STATE_DEBUG_CHECK ∧
        r0.mask = (DEBUG_BTN_VOL_UP ||| DEBUG_BTN_VOL_DN) ∧
        t0 + DEBUG_TIMEOUT ≤ r0.ec.debug_state_deadline) ∨
      (r0.ec.curr_debug_state = STATE_DEBUG_NONE ∧
        r0.mask ≠ (DEBUG_BTN_VOL_UP ||| DEBUG_BTN_VOL_DN)) :=
      Or.inl ⟨hcurr, hmask, le_of_eq hdl.symm⟩
    rcases check_or_none_run b t0 ms r0 r (le_of_eq hclk.symm) hinv hearly hrun with
      ⟨h1, h2⟩ | ⟨h1, h2⟩
    · simp [h1, h2]
    · simp [h1, h2]
  · simp only [debug_run, hstep]
    simp [debug_step, hsl, hclk, debug_mode_handle_deferred, debug_mode_handle,
      debug_mode_transition, hook_call_deferred_cancel, hook_call_deferred_delay,
      timestamp_expired, hcurr, hmask, hdl]

/-- An instance on the two-button board: the combination is pressed at 5;
volume-down is released at 6 and volume-up at 7. -/
theorem combo_timeout_witness :
    ((({ clock := 7, mask := 0, ec := EC.boot } : DebugRun).ec.curr_debug_state ≠ STATE_STAGING ∧
      ({ clock := 7, mask := 0, ec := EC.boot } : DebugRun).ec.curr_debug_state ≠
        STATE_DEBUG_MODE_ACTIVE ∧
      (({ clock := 7, mask := 0, ec := EC.boot } : DebugRun).mask =
          (DEBUG_BTN_VOL_UP ||| DEBUG_BTN_VOL_DN) →
        ({ clock := 7, mask := 0, ec := EC.boot } : DebugRun).ec.curr_debug_state =
          STATE_DEBUG_CHECK) ∧
      (({ clock := 7, mask := 0, ec := EC.boot } : DebugRun).mask ≠
          (DEBUG_BTN_VOL_UP ||| DEBUG_BTN_VOL_DN) →
        ({ clock := 7, mask := 0, ec := EC.boot } : DebugRun).ec.curr_debug_state =
          STATE_DEBUG_NONE)) ∧
    ∃ r1, debug_run demo_board { clock := 0, mask := 0, ec := EC.boot }
        [DebugEvent.mask_change 5 (DEBUG_BTN_VOL_UP ||| DEBUG_BTN_VOL_DN),
         DebugEvent.deadline] = some r1 ∧
      r1.clock = 5 + DEBUG_TIMEOUT ∧
      r1.ec.curr_debug_state = STATE_STAGING ∧
      r1.ec.next_debug_state = STATE_DEBUG_MODE_ACTIVE) :=
  combo_timeout demo_board EC.boot 0 5 [(6, DEBUG_BTN_VOL_UP), (7, 0)]
    { clock := 7, mask := 0, ec := EC.boot } rfl rfl (by decide) (by decide) rfl

/-- C4: the second half of the claim fails when the handler runs during the
hold.  On the three-button board the combination is confirmed at 30020 and the
machine enters `STATE_DEBUG_CHECK` with deadline and timer at 10030020; the
third button is confirmed at 1030000, so the handler runs from its slot and
reads the mask, still exactly `{vol-up, vol-down}`.  It makes no call: the
machine is in `STATE_DEBUG_CHECK` with nothing pending, the invocation at the
deadline is not possible, and the held combination is not promoted.  The same
holds of the state computed from the raw edges and ticks
(`third_button_state`): `STATE_DEBUG_CHECK`, mask `{vol-up, vol-down}`, no
callback of the module pending.  Had the handler run at the deadline, it would
have entered `STATE_STAGING` with pending next state
`STATE_DEBUG_MODE_ACTIVE`. -/
theorem combo_hold_not_promoted :
    (debug_run three_button_board { clock := 0, mask := 0, ec := EC.boot }
      [DebugEvent.mask_change 30020 (DEBUG_BTN_VOL_UP ||| DEBUG_BTN_VOL_DN),
       DebugEvent.mask_change 1030000 (DEBUG_BTN_VOL_UP ||| DEBUG_BTN_VOL_DN)]).map
      (fun r => (r.mask, r.ec.curr_debug_state, r.ec.debug_state_deadline,
        r.ec.debug_mode_handle_data)) =
      some (DEBUG_BTN_VOL_UP ||| DEBUG_BTN_VOL_DN, STATE_DEBUG_CHECK, 30020 + DEBUG_TIMEOUT,
        none) ∧
    (debug_run three_button_board { clock := 0, mask := 0, ec := EC.boot }
      [DebugEvent.mask_change 30020 (DEBUG_BTN_VOL_UP ||| DEBUG_BTN_VOL_DN),
       DebugEvent.mask_change 1030000 (DEBUG_BTN_VOL_UP ||| DEBUG_BTN_VOL_DN),
       DebugEvent.deadline]).map (fun r => r.ec.curr_debug_state) = none ∧
    third_button_state.curr_debug_state = STATE_DEBUG_CHECK ∧
    third_button_state.debug_state_deadline = 30020 + DEBUG_TIMEOUT ∧
    debug_button_mask three_button_board false third_button_state =
      (DEBUG_BTN_VOL_UP ||| DEBUG_BTN_VOL_DN) ∧
    third_button_state.debug_mode_handle_data = none ∧
    third_button_state.button_change_deferred_data = none ∧
    (debug_mode_handle three_button_board
      (debug_button_mask three_button_board false third_button_state) (30020 + DEBUG_TIMEOUT)
      third_button_state).curr_debug_state = STATE_STAGING ∧
    (debug_mode_handle three_button_board
      (debug_button_mask three_button_board false third_button_state) (30020 + DEBUG_TIMEOUT)
      third_button_state).next_debug_state = STATE_DEBUG_MODE_ACTIVE := by
  decide

/-! ## The debounce engine: what one tick and one interrupt do -/

/-- The body of the loop of `button_change_deferred` writes, of the button
states, only the state of button `i`. -/
theorem button_change_body_state (b : Board) (lvl : Nat → Bool) (t i : Nat) (a : EC × Nat)
    (j : Nat) :
    (button_change_body b lvl t i a).1.state j =
      if j = i then debounce_one b lvl t i (a.1.state i) else a.1.state j := by
  unfold button_change_body debounce_one
  by_cases h0 : (a.1.state i).debounce_time = 0
  · by_cases hj : j = i
    · subst hj; simp [h0]
    · simp [h0, hj]
  · by_cases h1 : (a.1.state i).debounce_time ≤ t
    · by_cases h2 : (a.1.state i).debounced_pressed = raw_button_pressed b lvl (b.buttons i)
      · by_cases hj : j = i
        · subst hj; simp [h0, h1, h2, set_state]
        · simp [h0, h1, h2, hj, set_state]
      · by_cases hj : j = i
        · subst hj; simp [h0, h1, h2, set_state]
        · simp [h0, h1, h2, hj, set_state]
    · by_cases hj : j = i
      · subst hj; simp [h0, h1]
      · simp [h0, h1, hj]

/-- The body of the loop of `button_change_deferred` emits a notification for
button `i` exactly when its deadline has elapsed and the level read differs
from the debounced one. -/
theorem button_change_body_log (b : Board) (lvl : Nat → Bool) (t i : Nat) (a : EC × Nat) :
    (button_change_body b lvl t i a).1.log =
      a.1.log ++
        (if (a.1.state i).debounce_time ≠ 0 ∧ (a.1.state i).debounce_time ≤ t ∧
            (a.1.state i).debounced_pressed ≠ raw_button_pressed b lvl (b.buttons i) then
          [(t, Effect.keyboard_update_button i (b.buttons i).type
              (raw_button_pressed b lvl (b.buttons i)))]
        else []) := by
  unfold button_change_body
  by_cases h0 : (a.1.state i).debounce_time = 0
  · simp [h0]
  · by_cases h1 : (a.1.state i).debounce_time ≤ t
    · by_cases h2 : (a.1.state i).debounced_pressed = raw_button_pressed b lvl (b.buttons i)
      · simp [h0, h1, h2]
      · simp [h0, h1, h2]
    · simp [h0, h1]

/-- The update of `soonest_debounce_time` by the body of the loop of
`button_change_deferred`. -/
theorem button_change_body_soonest (b : Board) (lvl : Nat → Bool) (t i : Nat) (a : EC × Nat) :
    (button_change_body b lvl t i a).2 =
      if (a.1.state i).debounce_time ≠ 0 ∧ t < (a.1.state i).debounce_time then
        (if a.2 = 0 then (a.1.state i).debounce_time else min a.2 (a.1.state i).debounce_time)
      else a.2 := by
  unfold button_change_body
  by_cases h0 : (a.1.state i).debounce_time = 0
  · simp [h0]
  · by_cases h1 : (a.1.state i).debounce_time ≤ t
    · have h1' : ¬ t < (a.1.state i).debounce_time := by omega
      simp [h0, h1, h1']
    · have h1' : t < (a.1.state i).debounce_time := by omega
      simp [h0, h1, h1']

/-- The body of the loop of `button_change_deferred` writes only button
states, the slot of the debug handler and the log. -/
theorem button_change_body_frame (b : Board) (lvl : Nat → Bool) (t i : Nat) (a : EC × Nat) :
    (button_change_body b lvl t i a).1.next_deferred_time = a.1.next_deferred_time ∧
    (button_change_body b lvl t i a).1.button_change_deferred_data =
      a.1.button_change_deferred_data ∧
    (button_change_body b lvl t i a).1.curr_debug_state = a.1.curr_debug_state ∧
    (button_change_body b lvl t i a).1.next_debug_state = a.1.next_debug_state ∧
    (button_change_body b lvl t i a).1.debug_state_deadline = a.1.debug_state_deadline ∧
    (button_change_body b lvl t i a).1.debug_button_hit_count = a.1.debug_button_hit_count := by
  unfold button_change_body
  by_cases h0 : (a.1.state i).debounce_time = 0
  · simp [h0]
  · by_cases h1 : (a.1.state i).debounce_time ≤ t
    · by_cases h2 : (a.1.state i).debounced_pressed = raw_button_pressed b lvl (b.buttons i)
      · simp [h0, h1, h2]
      · simp [h0, h1, h2]
    · simp [h0, h1]

/-- The body leaves the whole state alone when the deadline of button `i` has
not elapsed. -/
theorem button_change_body_idle (b : Board) (lvl : Nat → Bool) (t i : Nat) (a : EC × Nat)
    (h : (a.1.state i).debounce_time = 0 ∨ t < (a.1.state i).debounce_time) :
    (button_change_body b lvl t i a).1 = a.1 := by
  unfold button_change_body
  by_cases h0 : (a.1.state i).debounce_time = 0
  · simp [h0]
  · have h1 : ¬ (a.1.state i).debounce_time ≤ t := by omega
    simp [h0, h1]

/-- The loop of `button_change_deferred` writes only button states, the slot
of the debug handler and the log. -/
theorem button_change_loop_frame (b : Board) (lvl : Nat → Bool) (t : Nat) (n : Nat) (a : EC × Nat) :
    (button_change_loop b lvl t n a).1.next_deferred_time = a.1.next_deferred_time ∧
    (button_change_loop b lvl t n a).1.button_change_deferred_data =
      a.1.button_change_deferred_data ∧
    (button_change_loop b lvl t n a).1.curr_debug_state = a.1.curr_debug_state ∧
    (button_change_loop b lvl t n a).1.next_debug_state = a.1.next_debug_state ∧
    (button_change_loop b lvl t n a).1.debug_state_deadline = a.1.debug_state_deadline ∧
    (button_change_loop b lvl t n a).1.debug_button_hit_count = a.1.debug_button_hit_count := by
  induction n with
  | zero => simp [button_change_loop]
  | succ n ih =>
    obtain ⟨h1, h2, h3, h4, h5, h6⟩ := ih
    obtain ⟨g1, g2, g3, g4, g5, g6⟩ :=
      button_change_body_frame b lvl t n (button_change_loop b lvl t n a)
    simp only [button_change_loop]
    exact ⟨g1.trans h1, g2.trans h2, g3.trans h3, g4.trans h4, g5.trans h5, g6.trans h6⟩

/-- The button states after the loop of `button_change_deferred` has looked at
buttons `0, ..., n - 1`. -/
theorem button_change_loop_state (b : Board) (lvl : Nat → Bool) (t : Nat) (n : Nat) (a : EC × Nat)
    (j : Nat) :
    (button_change_loop b lvl t n a).1.state j =
      if j < n then debounce_one b lvl t j (a.1.state j) else a.1.state j := by
  induction n generalizing j with
  | zero => simp [button_change_loop]
  | succ n ih =>
    simp only [button_change_loop, button_change_body_state]
    by_cases hj : j = n
    · subst hj
      simp [ih]
    · by_cases hlt : j < n
      · have : j < n + 1 := by omega
        simp [hj, hlt, this, ih]
      · have : ¬ j < n + 1 := by omega
        simp [hj, hlt, this, ih]

/-- The log after the loop of `button_change_deferred` has looked at buttons
`0, ..., n - 1`. -/
theorem button_change_loop_log (b : Board) (lvl : Nat → Bool) (t : Nat) (n : Nat) (a : EC × Nat) :
    (button_change_loop b lvl t n a).1.log = a.1.log ++ debounce_log b lvl t a.1.state n := by
  induction n with
  | zero => simp [button_change_loop, debounce_log]
  | succ n ih =>
    have hn := button_change_loop_state b lvl t n a n
    simp only [lt_irrefl, if_false] at hn
    simp only [button_change_loop, button_change_body_log, debounce_log, hn, ih,
      List.append_assoc]

/-- The local `soonest_debounce_time` after the loop of
`button_change_deferred` has looked at buttons `0, ..., n - 1`. -/
theorem button_change_loop_soonest (b : Board) (lvl : Nat → Bool) (t : Nat) (n : Nat) (s : EC) :
    (button_change_loop b lvl t n (s, 0)).2 = debounce_soonest t s.state n := by
  induction n with
  | zero => simp [button_change_loop, debounce_soonest]
  | succ n ih =>
    have hn := button_change_loop_state b lvl t n (s, 0) n
    simp only [lt_irrefl, if_false] at hn
    simp only [button_change_loop, button_change_body_soonest, debounce_soonest, hn, ih]

/-- With no elapsed deadline among buttons `0, ..., n - 1`, the loop of
`button_change_deferred` leaves the whole state alone. -/
theorem button_change_loop_idle (b : Board) (lvl : Nat → Bool) (t : Nat) (n : Nat) (a : EC × Nat)
    (h : ∀ i < n, (a.1.state i).debounce_time = 0 ∨ t < (a.1.state i).debounce_time) :
    (button_change_loop b lvl t n a).1 = a.1 := by
  induction n with
  | zero => simp [button_change_loop]
  | succ n ih =>
    have ih' := ih (fun i hi => h i (Nat.lt_succ_of_lt hi))
    simp only [button_change_loop]
    rw [button_change_body_idle, ih']
    rw [ih']
    exact h n (Nat.lt_succ_self n)


/-- The loop of `button_interrupt` either finds no button on the line and
does nothing, or runs the body for the first button on the line. -/
theorem button_interrupt_loop_cases (b : Board) (signal t : Nat) (n : Nat) :
    ∀ (i0 : Nat) (s : EC),
      ((∀ j, i0 ≤ j → j < i0 + n → (b.buttons j).gpio ≠ signal) ∧
        button_interrupt_loop b signal t n i0 s = s) ∨
      ∃ k, i0 ≤ k ∧ k < i0 + n ∧ (b.buttons k).gpio = signal ∧
        (∀ j, i0 ≤ j → j < k → (b.buttons j).gpio ≠ signal) ∧
        button_interrupt_loop b signal t n i0 s = button_interrupt_body b t k s := by
  induction n with
  | zero =>
    intro i0 s
    left
    exact ⟨fun j h1 h2 => absurd h2 (by omega), rfl⟩
  | succ n ih =>
    intro i0 s
    by_cases h : (b.buttons i0).gpio = signal
    · right
      refine ⟨i0, le_refl _, by omega, h, fun j h1 h2 => absurd h2 (by omega), ?_⟩
      simp [button_interrupt_loop, h]
    · rcases ih (i0 + 1) s with ⟨hnone, heq⟩ | ⟨k, hk1, hk2, hk3, hk4, heq⟩
      · left
        refine ⟨fun j h1 h2 => ?_, ?_⟩
        · by_cases hj : j = i0
          · subst hj; exact h
          · exact hnone j (by omega) (by omega)
        · simp [button_interrupt_loop, h, heq]
      · right
        refine ⟨k, by omega, by omega, hk3, fun j h1 h2 => ?_, ?_⟩
        · by_cases hj : j = i0
          · subst hj; exact h
          · exact hk4 j (by omega) h2
        · simp [button_interrupt_loop, h, heq]

/-- The function `button_interrupt` does nothing when no configured button is
on the line. -/
theorem button_interrupt_no_button (b : Board) (signal t : Nat) (s : EC)
    (h : ∀ j, j < b.CONFIG_BUTTON_COUNT → (b.buttons j).gpio ≠ signal) :
    button_interrupt b signal t s = s := by
  rcases button_interrupt_loop_cases b signal t b.CONFIG_BUTTON_COUNT 0 s with
    ⟨-, heq⟩ | ⟨k, -, hk2, hk3, -, -⟩
  · exact heq
  · exact absurd hk3 (h k (by omega))

/-- The function `button_interrupt` runs the body of its loop for the first
configured button on the line. -/
theorem button_interrupt_first (b : Board) (signal t : Nat) (s : EC) (i : Nat)
    (hi : i < b.CONFIG_BUTTON_COUNT) (hg : (b.buttons i).gpio = signal)
    (hfirst : ∀ j, j < i → (b.buttons j).gpio ≠ signal) :
    button_interrupt b signal t s = button_interrupt_body b t i s := by
  rcases button_interrupt_loop_cases b signal t b.CONFIG_BUTTON_COUNT 0 s with
    ⟨hnone, -⟩ | ⟨k, -, hk2, hk3, hk4, heq⟩
  · exact absurd hg (hnone i (Nat.zero_le _) (by omega))
  · have hik : i = k := by
      rcases Nat.lt_trichotomy i k with hlt | heq' | hgt
      · exact absurd hg (hk4 i (Nat.zero_le _) hlt)
      · exact heq'
      · exact absurd hk3 (hfirst k hgt)
    subst hik
    exact heq

/-- The function `button_interrupt` either does nothing or runs the body of
its loop for some button on the line. -/
theorem button_interrupt_cases (b : Board) (signal t : Nat) (s : EC) :
    button_interrupt b signal t s = s ∨
      ∃ k, (b.buttons k).gpio = signal ∧
        button_interrupt b signal t s = button_interrupt_body b t k s := by
  rcases button_interrupt_loop_cases b signal t b.CONFIG_BUTTON_COUNT 0 s with
    ⟨-, heq⟩ | ⟨k, -, -, hk3, -, heq⟩
  · exact Or.inl heq
  · exact Or.inr ⟨k, hk3, heq⟩

/-- The button states after the body of the loop of `button_interrupt`. -/
theorem button_interrupt_body_state (b : Board) (t i : Nat) (s : EC) (j : Nat) :
    (button_interrupt_body b t i s).state j =
      if j = i then
        { debounce_time := t + (b.buttons i).debounce_us,
          debounced_pressed := (s.state i).debounced_pressed }
      else s.state j := by
  simp only [button_interrupt_body]
  by_cases hj : j = i
  · subst hj
    rw [if_pos rfl]
    split_ifs <;> simp [set_state]
  · rw [if_neg hj]
    split_ifs <;> simp [set_state, hj]

/-- The body of the loop of `button_interrupt` writes neither the diagnostic
state machine nor the log. -/
theorem button_interrupt_body_frame (b : Board) (t i : Nat) (s : EC) :
    (button_interrupt_body b t i s).log = s.log ∧
    (button_interrupt_body b t i s).curr_debug_state = s.curr_debug_state ∧
    (button_interrupt_body b t i s).next_debug_state = s.next_debug_state ∧
    (button_interrupt_body b t i s).debug_state_deadline = s.debug_state_deadline ∧
    (button_interrupt_body b t i s).debug_button_hit_count = s.debug_button_hit_count ∧
    (button_interrupt_body b t i s).debug_mode_handle_data = s.debug_mode_handle_data := by
  unfold button_interrupt_body
  simp only [set_state]
  split_ifs <;> simp

/-- The scheduling decision of the body of the loop of `button_interrupt`. -/
theorem button_interrupt_body_schedule (b : Board) (t i : Nat) (s : EC) :
    (s.next_deferred_time ≤ t ∨ s.next_deferred_time > t + (b.buttons i).debounce_us →
      (button_interrupt_body b t i s).next_deferred_time = t + (b.buttons i).debounce_us ∧
      (button_interrupt_body b t i s).button_change_deferred_data =
        hook_call_deferred t
          (uint64_to_int (((t + (b.buttons i).debounce_us : Nat) : Int) - (t : Int)))) ∧
    (¬ (s.next_deferred_time ≤ t ∨ s.next_deferred_time > t + (b.buttons i).debounce_us) →
      (button_interrupt_body b t i s).next_deferred_time = s.next_deferred_time ∧
      (button_interrupt_body b t i s).button_change_deferred_data =
        s.button_change_deferred_data) := by
  unfold button_interrupt_body
  constructor
  · intro h
    simp [set_state, h]
  · intro h
    simp [set_state, h]


/-- The value computed for `soonest_debounce_time` is 0 when no button among
`0, ..., n - 1` has a deadline after `t`, and otherwise the least of the
deadlines after `t`. -/
theorem debounce_soonest_spec (t : Nat) (st : Nat → button_state_t) (n : Nat) :
    (debounce_soonest t st n = 0 ↔ ∀ i < n, (st i).debounce_time ≤ t) ∧
    (debounce_soonest t st n ≠ 0 →
      t < debounce_soonest t st n ∧
      (∃ i < n, (st i).debounce_time = debounce_soonest t st n) ∧
      ∀ i < n, t < (st i).debounce_time → debounce_soonest t st n ≤ (st i).debounce_time) := by
  induction n with
  | zero => simp [debounce_soonest]
  | succ n ih =>
    obtain ⟨ih0, ih1⟩ := ih
    simp only [debounce_soonest]
    by_cases hlive : (st n).debounce_time ≠ 0 ∧ t < (st n).debounce_time
    · rw [if_pos hlive]
      by_cases hr : debounce_soonest t st n = 0
      · rw [if_pos hr]
        refine ⟨⟨fun h => absurd h hlive.1, fun h => ?_⟩, fun _ => ⟨hlive.2, ⟨n, Nat.lt_succ_self n, rfl⟩, ?_⟩⟩
        · have := h n (Nat.lt_succ_self n)
          omega
        · intro i hi hti
          rcases Nat.lt_succ_iff_lt_or_eq.mp hi with hlt | heq
          · have := ih0.mp hr i hlt
            omega
          · subst heq; exact le_refl _
      · rw [if_neg hr]
        obtain ⟨h1, ⟨k, hk, hkeq⟩, h3⟩ := ih1 hr
        refine ⟨⟨fun h => ?_, fun h => ?_⟩, fun _ => ⟨?_, ?_, ?_⟩⟩
        · have := hlive.1
          have hmin : min (debounce_soonest t st n) (st n).debounce_time = 0 := h
          rcases Nat.min_eq_zero_iff.mp hmin with h0 | h0
          · exact absurd h0 hr
          · exact absurd h0 this
        · have := h n (Nat.lt_succ_self n)
          omega
        · exact lt_min h1 hlive.2
        · rcases le_total (debounce_soonest t st n) (st n).debounce_time with hle | hle
          · exact ⟨k, Nat.lt_succ_of_lt hk, by rw [min_eq_left hle]; exact hkeq⟩
          · exact ⟨n, Nat.lt_succ_self n, by rw [min_eq_right hle]⟩
        · intro i hi hti
          rcases Nat.lt_succ_iff_lt_or_eq.mp hi with hlt | heq
          · exact le_trans (min_le_left _ _) (h3 i hlt hti)
          · subst heq; exact min_le_right _ _
    · rw [if_neg hlive]
      have hn : (st n).debounce_time ≤ t := by
        by_contra hc
        exact hlive ⟨by omega, by omega⟩
      refine ⟨⟨fun h i hi => ?_, fun h => ?_⟩, fun hr => ?_⟩
      · rcases Nat.lt_succ_iff_lt_or_eq.mp hi with hlt | heq
        · exact ih0.mp h i hlt
        · subst heq; exact hn
      · exact ih0.mpr (fun i hi => h i (Nat.lt_succ_of_lt hi))
      · obtain ⟨h1, ⟨k, hk, hkeq⟩, h3⟩ := ih1 hr
        refine ⟨h1, ⟨k, Nat.lt_succ_of_lt hk, hkeq⟩, fun i hi hti => ?_⟩
        rcases Nat.lt_succ_iff_lt_or_eq.mp hi with hlt | heq
        · exact h3 i hlt hti
        · subst heq; omega

/-- The value computed for `soonest_debounce_time` depends on the button
states `0, ..., n - 1` only. -/
theorem debounce_soonest_congr (t : Nat) (st st' : Nat → button_state_t) (n : Nat)
    (h : ∀ i < n, st' i = st i) : debounce_soonest t st' n = debounce_soonest t st n := by
  induction n with
  | zero => rfl
  | succ n ih =>
    simp only [debounce_soonest, h n (Nat.lt_succ_self n),
      ih (fun i hi => h i (Nat.lt_succ_of_lt hi))]

/-- As long as no deadline has elapsed, the value computed for
`soonest_debounce_time` does not depend on the time. -/
theorem debounce_soonest_idle (t t' : Nat) (st : Nat → button_state_t) (n : Nat)
    (h : ∀ i < n, (st i).debounce_time = 0 ∨ t < (st i).debounce_time)
    (h' : ∀ i < n, (st i).debounce_time = 0 ∨ t' < (st i).debounce_time) :
    debounce_soonest t' st n = debounce_soonest t st n := by
  induction n with
  | zero => rfl
  | succ n ih =>
    have e := ih (fun i hi => h i (Nat.lt_succ_of_lt hi)) (fun i hi => h' i (Nat.lt_succ_of_lt hi))
    have hn := h n (Nat.lt_succ_self n)
    have hn' := h' n (Nat.lt_succ_self n)
    have hc : ((st n).debounce_time ≠ 0 ∧ t' < (st n).debounce_time) ↔
        ((st n).debounce_time ≠ 0 ∧ t < (st n).debounce_time) := by
      constructor
      · intro hx; exact ⟨hx.1, by omega⟩
      · intro hx; exact ⟨hx.1, by omega⟩
    simp only [debounce_soonest, e, hc]

/-- A tick that finds no elapsed deadline: the state it returns. -/
theorem button_change_deferred_idle (b : Board) (lvl : Nat → Bool) (t : Nat) (s : EC)
    (h : ∀ i < b.CONFIG_BUTTON_COUNT,
      (s.state i).debounce_time = 0 ∨ t < (s.state i).debounce_time) :
    button_change_deferred b lvl t s =
      if debounce_soonest t s.state b.CONFIG_BUTTON_COUNT ≠ 0 then
        { s with next_deferred_time := debounce_soonest t s.state b.CONFIG_BUTTON_COUNT,
                 button_change_deferred_data :=
                   hook_call_deferred t (uint64_to_int
                     ((debounce_soonest t s.state b.CONFIG_BUTTON_COUNT : Int) - (t : Int))) }
      else s := by
  have h1 := button_change_loop_idle b lvl t b.CONFIG_BUTTON_COUNT (s, 0) h
  have h2 := button_change_loop_soonest b lvl t b.CONFIG_BUTTON_COUNT s
  simp only [button_change_deferred, h1, h2]

/-- With every pending deadline less than `2^31` microseconds ahead, the tick
that reschedules is due at the soonest one. -/
theorem debounce_soonest_due (t : Nat) (st : Nat → button_state_t) (n : Nat)
    (hb : ∀ i < n, (st i).debounce_time < t + 2 ^ 31) (hr : debounce_soonest t st n ≠ 0) :
    hook_call_deferred t (uint64_to_int ((debounce_soonest t st n : Int) - (t : Int))) =
      some (debounce_soonest t st n) := by
  obtain ⟨hlt, ⟨k, hk, hkeq⟩, -⟩ := (debounce_soonest_spec t st n).2 hr
  exact hook_call_deferred_narrowed t _ (le_of_lt hlt) (by rw [← hkeq]; exact hb k hk)

/-! ### Claim C6 -/

/-- C6 (as amended): in a state in which no button has an elapsed deadline,
`button_change_deferred` emits no notification and changes no button state.
When every `debounce_time` is 0 it changes nothing at all (no rescheduling);
when some button has a pending deadline, every pending deadline being less
than `2^31` microseconds ahead (so that the delay fits the `int` parameter of
`hook_call_deferred`), it sets `next_deferred_time` to the soonest pending
deadline and reschedules the callback for it, and nothing else.  Calling it
again, as long as no deadline has elapsed and the same bound holds, has no
further effect. -/
theorem tick_without_elapsed_deadline (b : Board) (lvl : Nat → Bool) (t : Nat) (s : EC)
    (h : ∀ i < b.CONFIG_BUTTON_COUNT,
      (s.state i).debounce_time = 0 ∨ t < (s.state i).debounce_time) :
    (button_change_deferred b lvl t s).log = s.log ∧
    (button_change_deferred b lvl t s).state = s.state ∧
    ((∀ i < b.CONFIG_BUTTON_COUNT, (s.state i).debounce_time = 0) →
      button_change_deferred b lvl t s = s) ∧
    ((∃ i < b.CONFIG_BUTTON_COUNT, (s.state i).debounce_time ≠ 0) →
      (∀ i < b.CONFIG_BUTTON_COUNT, (s.state i).debounce_time < t + 2 ^ 31) →
      ∃ m, t < m ∧ (∃ i < b.CONFIG_BUTTON_COUNT, (s.state i).debounce_time = m) ∧
        (∀ i < b.CONFIG_BUTTON_COUNT, (s.state i).debounce_time ≠ 0 →
          m ≤ (s.state i).debounce_time) ∧
        button_change_deferred b lvl t s =
          { s with next_deferred_time := m, button_change_deferred_data := some m }) ∧
    (∀ (lvl' : Nat → Bool) (t' : Nat),
      (∀ i < b.CONFIG_BUTTON_COUNT,
        (s.state i).debounce_time = 0 ∨ t' < (s.state i).debounce_time) →
      (∀ i < b.CONFIG_BUTTON_COUNT, (s.state i).debounce_time < t + 2 ^ 31) →
      (∀ i < b.CONFIG_BUTTON_COUNT, (s.state i).debounce_time < t' + 2 ^ 31) →
      button_change_deferred b lvl' t' (button_change_deferred b lvl t s) =
        button_change_deferred b lvl t s) := by
  have hidle := button_change_deferred_idle b lvl t s h
  obtain ⟨hz, hnz⟩ := debounce_soonest_spec t s.state b.CONFIG_BUTTON_COUNT
  have hst : (button_change_deferred b lvl t s).state = s.state := by
    rw [hidle]; split_ifs <;> rfl
  refine ⟨by rw [hidle]; split_ifs <;> rfl, hst, fun hall => ?_, fun hex hb => ?_, ?_⟩
  · have : debounce_soonest t s.state b.CONFIG_BUTTON_COUNT = 0 :=
      hz.mpr (fun i hi => by rw [hall i hi]; exact Nat.zero_le _)
    rw [hidle, this]
    simp
  · obtain ⟨i, hi, hne⟩ := hex
    have hr : debounce_soonest t s.state b.CONFIG_BUTTON_COUNT ≠ 0 := by
      intro h0
      have := hz.mp h0 i hi
      rcases h i hi with h' | h'
      · exact hne h'
      · omega
    obtain ⟨h1, h2, h3⟩ := hnz hr
    refine ⟨_, h1, h2, fun j hj hjne => ?_, ?_⟩
    · rcases h j hj with h' | h'
      · exact absurd h' hjne
      · exact h3 j hj h'
    · rw [hidle, if_pos hr, debounce_soonest_due t s.state b.CONFIG_BUTTON_COUNT hb hr]
  · intro lvl' t' h' hb hb'
    have h'' : ∀ i < b.CONFIG_BUTTON_COUNT,
        ((button_change_deferred b lvl t s).state i).debounce_time = 0 ∨
          t' < ((button_change_deferred b lvl t s).state i).debounce_time := by
      rw [hst]; exact h'
    have hsoon := debounce_soonest_idle t t' s.state b.CONFIG_BUTTON_COUNT h h'
    rw [button_change_deferred_idle b lvl' t' _ h'', hst, hsoon]
    by_cases hr : debounce_soonest t s.state b.CONFIG_BUTTON_COUNT = 0
    · simp [hr]
    · have hr' : debounce_soonest t' s.state b.CONFIG_BUTTON_COUNT ≠ 0 := by rw [hsoon]; exact hr
      have hdue' := debounce_soonest_due t' s.state b.CONFIG_BUTTON_COUNT hb' hr'
      rw [hsoon] at hdue'
      rw [if_pos hr, hdue', hidle, if_pos hr,
        debounce_soonest_due t s.state b.CONFIG_BUTTON_COUNT hb hr]

/-- Witness of C6: on the two-button board, the tick that is due at 30020
after two raw edges on the volume-up line, at 20 and 40, and a second call at
30030; and a tick at 5 in the boot state, where no button has a deadline. -/
theorem tick_without_elapsed_deadline_witness :
    (button_change_deferred demo_board (fun _ => true) 30020 bounce_state).log =
      bounce_state.log ∧
    (button_change_deferred demo_board (fun _ => true) 30020 bounce_state).state =
      bounce_state.state ∧
    (∃ m, 30020 < m ∧
      (∃ i < demo_board.CONFIG_BUTTON_COUNT, (bounce_state.state i).debounce_time = m) ∧
      (∀ i < demo_board.CONFIG_BUTTON_COUNT, (bounce_state.state i).debounce_time ≠ 0 →
        m ≤ (bounce_state.state i).debounce_time) ∧
      button_change_deferred demo_board (fun _ => true) 30020 bounce_state =
        { bounce_state with next_deferred_time := m,
                            button_change_deferred_data := some m }) ∧
    button_change_deferred demo_board (fun _ => false) 30030
        (button_change_deferred demo_board (fun _ => true) 30020 bounce_state) =
      button_change_deferred demo_board (fun _ => true) 30020 bounce_state ∧
    button_change_deferred demo_board (fun _ => true) 5 EC.boot = EC.boot :=
  ⟨(tick_without_elapsed_deadline demo_board (fun _ => true) 30020 bounce_state
      (by decide)).1,
   (tick_without_elapsed_deadline demo_board (fun _ => true) 30020 bounce_state
      (by decide)).2.1,
   (tick_without_elapsed_deadline demo_board (fun _ => true) 30020 bounce_state
      (by decide)).2.2.2.1 ⟨0, by decide, by decide⟩ (by decide),
   (tick_without_elapsed_deadline demo_board (fun _ => true) 30020 bounce_state
      (by decide)).2.2.2.2 (fun _ => false) 30030 (by decide) (by decide) (by decide),
   (tick_without_elapsed_deadline demo_board (fun _ => true) 5 EC.boot
      (by decide)).2.2.1 (by decide)⟩

/-- C6 as stated fails: on the two-button board, after raw edges on the
volume-up line at 20 and 40, the tick is due at 30020 and the deadline of the
button is 30040.  At 30020 no deadline has elapsed, yet the tick moves
`next_deferred_time` from 30020 to 30040 and reschedules the callback for
30040. -/
theorem tick_reschedules_for_pending_deadline :
    (∀ i < demo_board.CONFIG_BUTTON_COUNT,
      (bounce_state.state i).debounce_time = 0 ∨
        30020 < (bounce_state.state i).debounce_time) ∧
    bounce_state.next_deferred_time = 30020 ∧
    bounce_state.button_change_deferred_data = some 30020 ∧
    (button_change_deferred demo_board (fun _ => true) 30020
      bounce_state).next_deferred_time = 30040 ∧
    (button_change_deferred demo_board (fun _ => true) 30020
      bounce_state).button_change_deferred_data = some 30040 ∧
    (button_change_deferred_run demo_board (fun _ => true) 30020
      bounce_state).button_change_deferred_data = some 30040 := by
  decide

/-! ### Claims C9 and C10 -/

/-- C9: `button_interrupt(signal)` sets the `debounce_time` of the first
configured button whose line is `signal` to `time_now` plus the `debounce_us`
of that button, and changes no other `debounce_time` and no
`debounced_pressed`; when no configured button is on that line, it leaves the
whole state unchanged. -/
theorem button_interrupt_sets_deadline (b : Board) (signal time_now : Nat) (s : EC) :
    (∀ i, i < b.CONFIG_BUTTON_COUNT → (b.buttons i).gpio = signal →
      (∀ j, j < i → (b.buttons j).gpio ≠ signal) →
      ((button_interrupt b signal time_now s).state i).debounce_time =
          time_now + (b.buttons i).debounce_us ∧
        (∀ j, j ≠ i → ((button_interrupt b signal time_now s).state j).debounce_time =
          (s.state j).debounce_time) ∧
        (∀ j, ((button_interrupt b signal time_now s).state j).debounced_pressed =
          (s.state j).debounced_pressed)) ∧
    ((∀ i, i < b.CONFIG_BUTTON_COUNT → (b.buttons i).gpio ≠ signal) →
      button_interrupt b signal time_now s = s) := by
  refine ⟨fun i hi hg hfirst => ?_, fun hnone => button_interrupt_no_button b signal time_now s hnone⟩
  rw [button_interrupt_first b signal time_now s i hi hg hfirst]
  refine ⟨by simp [button_interrupt_body_state], fun j hj => ?_, fun j => ?_⟩
  · simp [button_interrupt_body_state, hj]
  · by_cases hj : j = i
    · subst hj; simp [button_interrupt_body_state]
    · simp [button_interrupt_body_state, hj]

/-- Witness of C9: on the two-button board, an edge on the volume-down line
(line 11, button 1) at time 7, and an edge on line 99, which has no button. -/
theorem button_interrupt_sets_deadline_witness :
    (((button_interrupt demo_board 11 7 EC.boot).state 1).debounce_time =
          7 + (demo_board.buttons 1).debounce_us ∧
        (∀ j, j ≠ 1 → ((button_interrupt demo_board 11 7 EC.boot).state j).debounce_time =
          (EC.boot.state j).debounce_time) ∧
        (∀ j, ((button_interrupt demo_board 11 7 EC.boot).state j).debounced_pressed =
          (EC.boot.state j).debounced_pressed)) ∧
    button_interrupt demo_board 99 7 EC.boot = EC.boot :=
  ⟨(button_interrupt_sets_deadline demo_board 11 7 EC.boot).1 1 (by decide) (by decide)
      (by decide),
   (button_interrupt_sets_deadline demo_board 99 7 EC.boot).2 (by decide)⟩

/-- Beyond the bound of C10: on the board with a debounce interval of
3000000000 microseconds, a raw edge on the volume-up line at time 7 from the
boot state sets the deadline 3000000007, the delay handed to
`hook_call_deferred` is -1294967296 after the conversion to `int`, and no
callback is pending. -/
theorem button_interrupt_long_debounce :
    ((button_interrupt slow_board 10 7 EC.boot).state 0).debounce_time = 3000000007 ∧
    (button_interrupt slow_board 10 7 EC.boot).next_deferred_time = 3000000007 ∧
    uint64_to_int (((3000000007 : Nat) : Int) - ((7 : Nat) : Int)) = -1294967296 ∧
    (button_interrupt slow_board 10 7 EC.boot).button_change_deferred_data = none := by
  decide

/-- C10: `button_interrupt` handles button `i` (the first one on the line),
whose `debounce_us` is below `2^31` (so that the delay fits the `int`
parameter of `hook_call_deferred`).  It reschedules the debounce callback
exactly when `next_deferred_time <= time_now` or `next_deferred_time` is later
than the new deadline `time_now + debounce_us`: then `next_deferred_time`
becomes the new deadline and the callback is scheduled with the delay
`deadline - time_now`, which the conversion to `int` keeps and which is not
negative, so it is due at the deadline; otherwise `next_deferred_time` and the
pending callback are left untouched. -/
theorem button_interrupt_reschedules (b : Board) (signal time_now : Nat) (s : EC) (i : Nat)
    (hi : i < b.CONFIG_BUTTON_COUNT) (hg : (b.buttons i).gpio = signal)
    (hfirst : ∀ j, j < i → (b.buttons j).gpio ≠ signal)
    (hb : (b.buttons i).debounce_us < 2 ^ 31) :
    (s.next_deferred_time ≤ time_now ∨
        s.next_deferred_time > time_now + (b.buttons i).debounce_us →
      (button_interrupt b signal time_now s).next_deferred_time =
          time_now + (b.buttons i).debounce_us ∧
        (button_interrupt b signal time_now s).button_change_deferred_data =
          hook_call_deferred time_now (uint64_to_int
            (((time_now + (b.buttons i).debounce_us : Nat) : Int) - (time_now : Int))) ∧
        uint64_to_int
            (((time_now + (b.buttons i).debounce_us : Nat) : Int) - (time_now : Int)) =
          ((time_now + (b.buttons i).debounce_us : Nat) : Int) - (time_now : Int) ∧
        (0 : Int) ≤ ((time_now + (b.buttons i).debounce_us : Nat) : Int) - (time_now : Int) ∧
        (button_interrupt b signal time_now s).button_change_deferred_data =
          some (time_now + (b.buttons i).debounce_us)) ∧
    (¬ (s.next_deferred_time ≤ time_now ∨
        s.next_deferred_time > time_now + (b.buttons i).debounce_us) →
      (button_interrupt b signal time_now s).next_deferred_time = s.next_deferred_time ∧
        (button_interrupt b signal time_now s).button_change_deferred_data =
          s.button_change_deferred_data) := by
  rw [button_interrupt_first b signal time_now s i hi hg hfirst]
  obtain ⟨h1, h2⟩ := button_interrupt_body_schedule b time_now i s
  refine ⟨fun h => ?_, h2⟩
  obtain ⟨g1, g2⟩ := h1 h
  refine ⟨g1, g2, ?_, by omega, ?_⟩
  · exact uint64_to_int_small _ (by omega) (by push_cast at hb ⊢; omega)
  · rw [g2, hook_call_deferred_narrowed time_now _ (Nat.le_add_right _ _) (by omega)]

/-- Witness of C10 on the two-button board: an edge on the volume-down line
(button 1) at time 7 from the boot state, where `next_deferred_time` is 0, is
rescheduled for; an edge on the volume-up line (button 0) at time 50, when the
tick is already due at 30020, before the new deadline 30050, is not. -/
theorem button_interrupt_reschedules_witness :
    ((button_interrupt demo_board 11 7 EC.boot).next_deferred_time =
          7 + (demo_board.buttons 1).debounce_us ∧
        (button_interrupt demo_board 11 7 EC.boot).button_change_deferred_data =
          some (7 + (demo_board.buttons 1).debounce_us)) ∧
    ((button_interrupt demo_board 10 50 bounce_state).next_deferred_time =
          bounce_state.next_deferred_time ∧
        (button_interrupt demo_board 10 50 bounce_state).button_change_deferred_data =
          bounce_state.button_change_deferred_data) :=
  ⟨⟨((button_interrupt_reschedules demo_board 11 7 EC.boot 1 (by decide) (by decide)
      (by decide) (by decide)).1 (by decide)).1,
    ((button_interrupt_reschedules demo_board 11 7 EC.boot 1 (by decide) (by decide)
      (by decide) (by decide)).1 (by decide)).2.2.2.2⟩,
   (button_interrupt_reschedules demo_board 10 50 bounce_state 0 (by decide) (by decide)
      (by decide) (by decide)).2 (by decide)⟩


/-! ## Bursts of raw edges on one button -/

/-- The button states after a run of the tick. -/
theorem button_change_deferred_run_state (b : Board) (lvl : Nat → Bool) (t : Nat) (s : EC)
    (i : Nat) (hi : i < b.CONFIG_BUTTON_COUNT) :
    (button_change_deferred_run b lvl t s).state i = debounce_one b lvl t i (s.state i) := by
  have h := button_change_loop_state b lvl t b.CONFIG_BUTTON_COUNT
    ({ s with button_change_deferred_data := none }, 0) i
  simp only [hi, if_true] at h
  simp only [button_change_deferred_run, button_change_deferred]
  split_ifs <;> exact h

/-- The log after a run of the tick. -/
theorem button_change_deferred_run_log (b : Board) (lvl : Nat → Bool) (t : Nat) (s : EC) :
    (button_change_deferred_run b lvl t s).log =
      s.log ++ debounce_log b lvl t s.state b.CONFIG_BUTTON_COUNT := by
  have h := button_change_loop_log b lvl t b.CONFIG_BUTTON_COUNT
    ({ s with button_change_deferred_data := none }, 0)
  simp only [button_change_deferred_run, button_change_deferred]
  split_ifs <;> exact h

/-- The notifications for button `i` that a tick emits: one, carrying the
level read, when the deadline of the button has elapsed and the level differs
from the debounced one, and none otherwise. -/
theorem notifications_debounce_log (b : Board) (lvl : Nat → Bool) (t : Nat)
    (st : Nat → button_state_t) (i n : Nat) :
    notifications i (debounce_log b lvl t st n) =
      if i < n ∧ (st i).debounce_time ≠ 0 ∧ (st i).debounce_time ≤ t ∧
          (st i).debounced_pressed ≠ raw_button_pressed b lvl (b.buttons i) then
        [(t, Effect.keyboard_update_button i (b.buttons i).type
            (raw_button_pressed b lvl (b.buttons i)))]
      else [] := by
  induction n with
  | zero => simp [debounce_log, notifications]
  | succ n ih =>
    have happ : ∀ l₁ l₂ : List (Nat × Effect),
        notifications i (l₁ ++ l₂) = notifications i l₁ ++ notifications i l₂ := by
      intro l₁ l₂; simp [notifications]
    rw [debounce_log, happ, ih]
    by_cases hin : i = n
    · subst hin
      have h1 : ¬ (i < i) := lt_irrefl i
      simp only [h1, false_and, if_false, List.nil_append, Nat.lt_succ_self, true_and]
      split_ifs <;> simp [notifications, is_notification]
    · by_cases hlt : i < n
      · have h1 : i < n + 1 := by omega
        simp only [hlt, h1, true_and]
        split_ifs <;> simp [notifications, is_notification, Ne.symm hin]
      · have h1 : ¬ i < n + 1 := by omega
        simp only [hlt, h1, false_and, if_false, List.nil_append]
        split_ifs <;> simp [notifications, is_notification, Ne.symm hin]

/-- An interrupt writes nothing to the log. -/
theorem button_interrupt_log (b : Board) (signal t : Nat) (s : EC) :
    (button_interrupt b signal t s).log = s.log := by
  rcases button_interrupt_cases b signal t s with h | ⟨k, -, h⟩
  · rw [h]
  · rw [h]; exact (button_interrupt_body_frame b t k s).1

/-- An interrupt on another line leaves the state of button `i` alone. -/
theorem button_interrupt_other_line (b : Board) (signal t : Nat) (s : EC) (i : Nat)
    (h : (b.buttons i).gpio ≠ signal) :
    (button_interrupt b signal t s).state i = s.state i := by
  rcases button_interrupt_cases b signal t s with h' | ⟨k, hk, h'⟩
  · rw [h']
  · rw [h', button_interrupt_body_state]
    have : i ≠ k := by
      intro e; subst e; exact h hk
    simp [this]


theorem notifications_append (i : Nat) (l₁ l₂ : List (Nat × Effect)) :
    notifications i (l₁ ++ l₂) = notifications i l₁ ++ notifications i l₂ := by
  simp [notifications]

theorem edge_times_append (g : Nat) (l₁ l₂ : List ButtonEvent) :
    edge_times g (l₁ ++ l₂) = edge_times g l₁ ++ edge_times g l₂ := by
  simp [edge_times]

theorem button_run_append (b : Board) (s : EC) (evs : List ButtonEvent) (ev : ButtonEvent) :
    button_run b s (evs ++ [ev]) = button_step b (button_run b s evs) ev := by
  simp [button_run]

/-- The tick leaves alone a button that has no deadline or whose deadline has
not elapsed. -/
theorem debounce_one_idle (b : Board) (lvl : Nat → Bool) (t i : Nat) (st : button_state_t)
    (h : st.debounce_time = 0 ∨ t < st.debounce_time) : debounce_one b lvl t i st = st := by
  unfold debounce_one
  by_cases h0 : st.debounce_time = 0
  · rw [if_pos h0]
  · rw [if_neg h0, if_neg (by omega)]

/-- The tick clears an elapsed deadline. -/
theorem debounce_one_elapsed (b : Board) (lvl : Nat → Bool) (t i : Nat) (st : button_state_t)
    (h0 : st.debounce_time ≠ 0) (h1 : st.debounce_time ≤ t) :
    debounce_one b lvl t i st =
      { debounce_time := 0, debounced_pressed := raw_button_pressed b lvl (b.buttons i) } := by
  unfold debounce_one
  rw [if_neg h0, if_pos h1]

/-- The invariant behind the coalescing of bursts.  Along an execution in
which the raw edges on the line of button `i` come less than the debounce
interval apart, either the button still waits for the deadline of the last
edge and nothing has been notified for it, or its deadline has been resolved
by a tick at or after that deadline, which emitted at most one notification,
carrying the level that tick read. -/
theorem burst_invariant (b : Board) (i : Nat) (s : EC)
    (hi : i < b.CONFIG_BUTTON_COUNT)
    (hfirst : ∀ j, j < i → (b.buttons j).gpio ≠ (b.buttons i).gpio)
    (hquiet : (s.state i).debounce_time = 0) (evs : List ButtonEvent) :
    (evs.map ButtonEvent.time).Pairwise (fun t t' => t ≤ t') →
    (edge_times (b.buttons i).gpio evs).Chain'
      (fun t t' => t' < t + (b.buttons i).debounce_us) →
    ∃ new, (button_run b s evs).log = s.log ++ new ∧
      (edge_times (b.buttons i).gpio evs = [] →
        ((button_run b s evs).state i).debounce_time = 0 ∧ notifications i new = []) ∧
      (∀ tl, (edge_times (b.buttons i).gpio evs).getLast? = some tl →
        (((button_run b s evs).state i).debounce_time = tl + (b.buttons i).debounce_us ∧
          notifications i new = []) ∨
        (((button_run b s evs).state i).debounce_time = 0 ∧
          (notifications i new).length ≤ 1 ∧
          (∃ ev ∈ evs, tl + (b.buttons i).debounce_us ≤ ev.time) ∧
          ∀ e ∈ notifications i new, tl + (b.buttons i).debounce_us ≤ e.1 ∧
            ∃ lvl, ButtonEvent.tick lvl e.1 ∈ evs ∧
              e.2 = Effect.keyboard_update_button i (b.buttons i).type
                (raw_button_pressed b lvl (b.buttons i)))) := by
  induction evs using List.reverseRecOn with
  | nil =>
    intro _ _
    refine ⟨[], by simp [button_run], fun _ => ⟨by simpa [button_run] using hquiet, rfl⟩, ?_⟩
    intro tl h
    simp [edge_times] at h
  | append_singleton evs ev ih =>
    intro hsorted hchain
    rw [List.map_append, List.pairwise_append] at hsorted
    obtain ⟨hsorted', -, hle⟩ := hsorted
    have hle' : ∀ x ∈ evs, x.time ≤ ev.time := by
      intro x hx
      exact hle x.time (List.mem_map_of_mem _ hx) ev.time (by simp)
    rw [edge_times_append, List.chain'_append] at hchain
    obtain ⟨hchain', -, hgap⟩ := hchain
    obtain ⟨new, hlog, hnone, hsome⟩ := ih hsorted' hchain'
    rw [button_run_append, edge_times_append]
    cases ev with
    | interrupt signal t =>
      simp only [button_step]
      refine ⟨new, by rw [button_interrupt_log, hlog], ?_⟩
      by_cases hsig : signal = (b.buttons i).gpio
      · -- a raw edge on the line of button `i`
        have hedge : edge_times (b.buttons i).gpio [ButtonEvent.interrupt signal t] = [t] := by
          simp [edge_times, ButtonEvent.is_edge, ButtonEvent.time, hsig]
        rw [hedge]
        have hnew : notifications i new = [] := by
          cases hl : (edge_times (b.buttons i).gpio evs).getLast? with
          | none => exact (hnone (List.getLast?_eq_none_iff.mp hl)).2
          | some tl =>
            rcases hsome tl hl with ⟨-, h⟩ | ⟨-, -, ⟨ev0, hev0, hev0t⟩, -⟩
            · exact h
            · have h1 : ev0.time ≤ t := hle' ev0 hev0
              have h2 := hgap tl (by simp [hl]) t (by simp [hedge])
              omega
        refine ⟨fun h => absurd h (by simp), fun tl htl => Or.inl ⟨?_, hnew⟩⟩
        rw [List.getLast?_concat] at htl
        simp only [Option.some.injEq] at htl
        subst htl
        rw [button_interrupt_first b signal _ _ i hi hsig.symm (fun j hj => hsig ▸ hfirst j hj),
          button_interrupt_body_state]
        simp
      · -- a raw edge on another line
        have hedge : edge_times (b.buttons i).gpio [ButtonEvent.interrupt signal t] = [] := by
          simp [edge_times, ButtonEvent.is_edge, hsig]
        rw [hedge, List.append_nil,
          button_interrupt_other_line b signal t _ i (fun e => hsig e.symm)]
        refine ⟨hnone, fun tl htl => ?_⟩
        rcases hsome tl htl with h | ⟨h1, h2, ⟨ev0, hev0, hev0t⟩, h4⟩
        · exact Or.inl h
        · refine Or.inr ⟨h1, h2, ⟨ev0, List.mem_append_left _ hev0, hev0t⟩, fun e he => ?_⟩
          obtain ⟨g1, lvl, g2, g3⟩ := h4 e he
          exact ⟨g1, lvl, List.mem_append_left _ g2, g3⟩
    | tick lvl t =>
      simp only [button_step]
      have hedge : edge_times (b.buttons i).gpio [ButtonEvent.tick lvl t] = [] := by
        simp [edge_times, ButtonEvent.is_edge]
      rw [hedge, List.append_nil, button_change_deferred_run_state b lvl t _ i hi]
      refine ⟨new ++ debounce_log b lvl t (button_run b s evs).state b.CONFIG_BUTTON_COUNT,
        by rw [button_change_deferred_run_log, hlog, List.append_assoc], ?_⟩
      rw [notifications_append, notifications_debounce_log]
      simp only [hi, true_and]
      refine ⟨fun hnil => ?_, fun tl htl => ?_⟩
      · obtain ⟨h1, h2⟩ := hnone hnil
        rw [debounce_one_idle b lvl t i _ (Or.inl h1), h2,
          if_neg (fun h => h.1 h1)]
        exact ⟨h1, rfl⟩
      · rcases hsome tl htl with ⟨h1, h2⟩ | ⟨h1, h2, ⟨ev0, hev0, hev0t⟩, h4⟩
        · -- the button waits for the deadline of its last edge
          by_cases hz : ((button_run b s evs).state i).debounce_time = 0
          · left
            rw [debounce_one_idle b lvl t i _ (Or.inl hz), if_neg (fun h => h.1 hz),
              List.append_nil]
            exact ⟨h1, h2⟩
          · by_cases hel : ((button_run b s evs).state i).debounce_time ≤ t
            · right
              refine ⟨by rw [debounce_one_elapsed b lvl t i _ hz hel], ?_,
                ⟨ButtonEvent.tick lvl t, by simp, by simp only [ButtonEvent.time]; omega⟩, ?_⟩
              · rw [h2]
                split_ifs <;> simp
              · intro e he
                rw [h2, List.nil_append] at he
                split_ifs at he
                · simp only [List.mem_singleton] at he
                  subst he
                  exact ⟨by simp only; omega, lvl, by simp, rfl⟩
                · simp at he
            · left
              have hc : ¬ (((button_run b s evs).state i).debounce_time ≠ 0 ∧
                  ((button_run b s evs).state i).debounce_time ≤ t ∧
                  ((button_run b s evs).state i).debounced_pressed ≠
                    raw_button_pressed b lvl (b.buttons i)) := fun h => hel h.2.1
              rw [if_neg hc, List.append_nil, debounce_one_idle b lvl t i _ (Or.inr (by omega))]
              exact ⟨h1, h2⟩
        · -- the deadline of the button has been resolved
          right
          have hc : ¬ (((button_run b s evs).state i).debounce_time ≠ 0 ∧
              ((button_run b s evs).state i).debounce_time ≤ t ∧
              ((button_run b s evs).state i).debounced_pressed ≠
                raw_button_pressed b lvl (b.buttons i)) := fun h => h.1 h1
          rw [if_neg hc, List.append_nil, debounce_one_idle b lvl t i _ (Or.inl h1)]
          refine ⟨h1, h2, ⟨ev0, List.mem_append_left _ hev0, hev0t⟩, fun e he => ?_⟩
          obtain ⟨g1, lvl', g2, g3⟩ := h4 e he
          exact ⟨g1, lvl', List.mem_append_left _ g2, g3⟩


/-! ### Claim C5 -/

/-- C5: button `i` (the first one on its line) has no pending deadline in `s`,
and `evs` is any execution, in time order, of raw edges and runs of the tick,
in which each raw edge on the line of button `i` comes less than the debounce
interval of the button after the previous one; `t_last` is the time of the
last of these edges.  Then every notification emitted for button `i` is
emitted by a tick that runs at or after `t_last + debounce_us` (none by an
earlier tick), at most one is emitted, and it carries the level that tick
read. -/
theorem debounce_coalesces_burst (b : Board) (i : Nat) (s : EC) (evs : List ButtonEvent)
    (t_last : Nat)
    (hi : i < b.CONFIG_BUTTON_COUNT)
    (hfirst : ∀ j, j < i → (b.buttons j).gpio ≠ (b.buttons i).gpio)
    (hquiet : (s.state i).debounce_time = 0)
    (hsorted : (evs.map ButtonEvent.time).Pairwise (fun t t' => t ≤ t'))
    (hburst : (edge_times (b.buttons i).gpio evs).Chain'
      (fun t t' => t' < t + (b.buttons i).debounce_us))
    (hlast : (edge_times (b.buttons i).gpio evs).getLast? = some t_last) :
    ∃ new, (button_run b s evs).log = s.log ++ new ∧
      (notifications i new).length ≤ 1 ∧
      ∀ e ∈ notifications i new, t_last + (b.buttons i).debounce_us ≤ e.1 ∧
        ∃ lvl, ButtonEvent.tick lvl e.1 ∈ evs ∧
          e.2 = Effect.keyboard_update_button i (b.buttons i).type
            (raw_button_pressed b lvl (b.buttons i)) := by
  obtain ⟨new, hlog, -, hsome⟩ := burst_invariant b i s hi hfirst hquiet evs hsorted hburst
  refine ⟨new, hlog, ?_⟩
  rcases hsome t_last hlast with ⟨-, h⟩ | ⟨-, h2, -, h4⟩
  · rw [h]
    exact ⟨Nat.zero_le _, fun e he => absurd he (List.not_mem_nil e)⟩
  · exact ⟨h2, h4⟩

/-- Witness of C5: on the two-button board, the volume-up line (button 0,
debounce interval 30000) bounces at 20 and 40 while the line goes low; the
tick runs at 30020 and at 30040. -/
theorem debounce_coalesces_burst_witness :
    ∃ new, (button_run demo_board EC.boot
        [ButtonEvent.interrupt 10 20, ButtonEvent.interrupt 10 40,
         ButtonEvent.tick (fun _ => false) 30020,
         ButtonEvent.tick (fun _ => false) 30040]).log = EC.boot.log ++ new ∧
      (notifications 0 new).length ≤ 1 ∧
      ∀ e ∈ notifications 0 new, 40 + (demo_board.buttons 0).debounce_us ≤ e.1 ∧
        ∃ lvl, ButtonEvent.tick lvl e.1 ∈
            [ButtonEvent.interrupt 10 20, ButtonEvent.interrupt 10 40,
             ButtonEvent.tick (fun _ => false) 30020,
             ButtonEvent.tick (fun _ => false) 30040] ∧
          e.2 = Effect.keyboard_update_button 0 (demo_board.buttons 0).type
            (raw_button_pressed demo_board lvl (demo_board.buttons 0)) :=
  debounce_coalesces_burst demo_board 0 EC.boot
    [ButtonEvent.interrupt 10 20, ButtonEvent.interrupt 10 40,
     ButtonEvent.tick (fun _ => false) 30020, ButtonEvent.tick (fun _ => false) 30040]
    40 (by decide) (by decide) rfl (by decide)
    (by simp [edge_times, ButtonEvent.is_edge, ButtonEvent.time, demo_board]) (by decide)


/-! ## The recovery-boot detector -/

theorem event_posts_append (ev : host_event_code) (l₁ l₂ : List (Nat × Effect)) :
    event_posts ev (l₁ ++ l₂) = event_posts ev l₁ + event_posts ev l₂ := by
  simp [event_posts]

/-- The loop of `is_recovery_button_pressed` returns 1 exactly when every
recovery button it looks at reads as pressed. -/
theorem is_recovery_button_pressed_loop_iff (b : Board) (lvl : Nat → Bool) (n : Nat) :
    ∀ i0, is_recovery_button_pressed_loop b lvl n i0 = true ↔
      ∀ k, i0 ≤ k → k < i0 + n → raw_button_pressed b lvl (b.recovery_buttons k) = true := by
  induction n with
  | zero =>
    intro i0
    simp only [is_recovery_button_pressed_loop, true_iff]
    intro k h1 h2
    omega
  | succ n ih =>
    intro i0
    simp only [is_recovery_button_pressed_loop]
    by_cases h : raw_button_pressed b lvl (b.recovery_buttons i0) = true
    · simp only [h, Bool.not_true, Bool.false_eq_true, if_false, ih (i0 + 1)]
      constructor
      · intro hall k h1 h2
        by_cases hk : k = i0
        · subst hk; exact h
        · exact hall k (by omega) (by omega)
      · intro hall k h1 h2
        exact hall k (by omega) (by omega)
    · have h' : raw_button_pressed b lvl (b.recovery_buttons i0) = false := by
        simpa using h
      simp only [h', Bool.not_false, if_true, Bool.false_eq_true, false_iff]
      intro hall
      have := hall i0 (le_refl _) (by omega)
      rw [h'] at this
      exact Bool.false_ne_true this

/-- The function `is_recovery_button_pressed` returns 1 exactly when every
configured recovery button reads as pressed. -/
theorem is_recovery_button_pressed_iff (b : Board) (lvl : Nat → Bool) :
    is_recovery_button_pressed b lvl = true ↔
      ∀ k, k < b.recovery_buttons_count →
        raw_button_pressed b lvl (b.recovery_buttons k) = true := by
  rw [is_recovery_button_pressed, is_recovery_button_pressed_loop_iff]
  constructor
  · intro h k hk; exact h k (Nat.zero_le _) (by omega)
  · intro h k _ hk; exact h k (by omega)

/-- The loop of `button_init` posts no host event. -/
theorem button_init_loop_event_posts (b : Board) (env : BootEnv) (ev : host_event_code) (n : Nat)
    (s : EC) : event_posts ev (button_init_loop b env n s).log = event_posts ev s.log := by
  induction n with
  | zero => rfl
  | succ n ih =>
    simp only [button_init_loop, event_posts_append, ih]
    simp [event_posts]

/-- The LED routine posts no host event. -/
theorem button_blink_loop_event_posts (ev : host_event_code) (deadline : Nat) (clock : List Nat) :
    ∀ (led : ec_led_state) (now : Nat) (s : EC),
      event_posts ev (button_blink_loop deadline led now clock s).ec.log =
        event_posts ev s.log := by
  induction clock with
  | nil =>
    intro led now s
    simp only [button_blink_loop]
    split_ifs
    · simp [event_posts]
    · rfl
  | cons t clock ih =>
    intro led now s
    simp only [button_blink_loop]
    split_ifs
    · simp [event_posts]
    · rw [ih]
      simp [event_posts]

/-- The LED routine posts no host event. -/
theorem button_blink_hw_reinit_led_event_posts (ev : host_event_code) (clock : List Nat) (s : EC) :
    event_posts ev (button_blink_hw_reinit_led clock s).ec.log = event_posts ev s.log := by
  cases clock with
  | nil => rfl
  | cons now clock => exact button_blink_loop_event_posts ev _ clock _ now s

/-- Once the deadline has expired, `button_check_hw_reinit_required` posts the
hardware-reinit event once, and no other event. -/
theorem button_hw_reinit_requested_event_posts (b : Board) (now : Nat) (blink : List Nat) (s : EC)
    (ev : host_event_code) :
    event_posts ev (button_hw_reinit_requested b now blink s).ec.log =
      event_posts ev s.log +
        (if ev = EC_HOST_EVENT_KEYBOARD_RECOVERY_HW_REINIT then 1 else 0) := by
  simp only [button_hw_reinit_requested]
  split_ifs with h1 h2 h2
  · rw [button_blink_hw_reinit_led_event_posts, event_posts_append]
    subst h2
    simp [event_posts]
  · rw [button_blink_hw_reinit_led_event_posts, event_posts_append]
    simp [event_posts]
    exact fun e => h2 e.symm
  · rw [event_posts_append]
    subst h2
    simp [event_posts]
  · rw [event_posts_append]
    simp [event_posts]
    exact fun e => h2 e.symm

/-- The hardware-reinit check never posts the recovery event. -/
theorem button_check_hw_reinit_loop_recovery (b : Board) (deadline : Nat) (blink : List Nat)
    (polls : List Poll) :
    ∀ (now : Nat) (s : EC),
      event_posts EC_HOST_EVENT_KEYBOARD_RECOVERY
          (button_check_hw_reinit_loop b deadline blink now polls s).ec.log =
        event_posts EC_HOST_EVENT_KEYBOARD_RECOVERY s.log := by
  induction polls with
  | nil =>
    intro now s
    simp only [button_check_hw_reinit_loop]
    split_ifs
    · rw [button_hw_reinit_requested_event_posts]; simp
    · rfl
  | cons p polls ih =>
    intro now s
    simp only [button_check_hw_reinit_loop]
    split_ifs
    · rw [button_hw_reinit_requested_event_posts]; simp
    · rfl
    · rw [ih, event_posts_append]
      simp [event_posts]

/-- While the recovery buttons and the power-button signal are observed
asserted and the clock reaches the deadline, the check posts the
hardware-reinit event exactly once. -/
theorem button_check_hw_reinit_loop_held (b : Board) (deadline : Nat) (blink : List Nat)
    (rest : List Poll) (w : List Poll) :
    ∀ (now : Nat) (s : EC),
      (∀ p ∈ w, is_recovery_button_pressed b p.gpio_get_level = true ∧
        p.power_button_signal_asserted = true) →
      (deadline ≤ now ∨ ∃ p ∈ w, deadline ≤ p.get_time) →
      event_posts EC_HOST_EVENT_KEYBOARD_RECOVERY_HW_REINIT
          (button_check_hw_reinit_loop b deadline blink now (w ++ rest) s).ec.log =
        event_posts EC_HOST_EVENT_KEYBOARD_RECOVERY_HW_REINIT s.log + 1 := by
  induction w with
  | nil =>
    intro now s _ hexp
    have hnow : deadline ≤ now := by
      rcases hexp with h | ⟨p, hp, -⟩
      · exact h
      · simp at hp
    cases rest with
    | nil =>
      simp only [List.append_nil, button_check_hw_reinit_loop, timestamp_expired, hnow,
        decide_True, if_true]
      rw [button_hw_reinit_requested_event_posts]; simp
    | cons q rest =>
      simp only [List.nil_append, button_check_hw_reinit_loop, timestamp_expired, hnow,
        decide_True, if_true]
      rw [button_hw_reinit_requested_event_posts]; simp
  | cons p w ih =>
    intro now s hheld hexp
    simp only [List.cons_append, button_check_hw_reinit_loop, timestamp_expired]
    by_cases hnow : deadline ≤ now
    · simp only [hnow, decide_True, if_true]
      rw [button_hw_reinit_requested_event_posts]; simp
    · obtain ⟨hp1, hp2⟩ := hheld p (List.mem_cons_self _ _)
      simp only [hnow, decide_False, Bool.false_eq_true, if_false, hp1, hp2, Bool.not_true,
        Bool.or_self]
      have e : w.append rest = w ++ rest := rfl
      rw [e, ih p.get_time _ (fun q hq => hheld q (List.mem_cons_of_mem _ hq))]
      · rw [event_posts_append]; simp [event_posts]
      · rcases hexp with h | ⟨q, hq, hqt⟩
        · exact absurd h hnow
        · rcases List.mem_cons.mp hq with e | hq'
          · subst e; exact Or.inl hqt
          · exact Or.inr ⟨q, hq', hqt⟩

/-- On a board without the LED, the check returns once the window has been
held to the deadline. -/
theorem button_check_hw_reinit_loop_held_returned (b : Board) (deadline : Nat)
    (blink : List Nat) (rest : List Poll) (w : List Poll)
    (hled : b.CONFIG_LED_COMMON = false) :
    ∀ (now : Nat) (s : EC),
      (∀ p ∈ w, is_recovery_button_pressed b p.gpio_get_level = true ∧
        p.power_button_signal_asserted = true) →
      (deadline ≤ now ∨ ∃ p ∈ w, deadline ≤ p.get_time) →
      (button_check_hw_reinit_loop b deadline blink now (w ++ rest) s).returned = true := by
  induction w with
  | nil =>
    intro now s _ hexp
    have hnow : deadline ≤ now := by
      rcases hexp with h | ⟨p, hp, -⟩
      · exact h
      · simp at hp
    cases rest with
    | nil =>
      simp [button_check_hw_reinit_loop, timestamp_expired, hnow, button_hw_reinit_requested,
        hled]
    | cons q rest =>
      simp [button_check_hw_reinit_loop, timestamp_expired, hnow, button_hw_reinit_requested,
        hled]
  | cons p w ih =>
    intro now s hheld hexp
    simp only [List.cons_append, button_check_hw_reinit_loop, timestamp_expired]
    by_cases hnow : deadline ≤ now
    · simp [hnow, button_hw_reinit_requested, hled]
    · obtain ⟨hp1, hp2⟩ := hheld p (List.mem_cons_self _ _)
      simp only [hnow, decide_False, Bool.false_eq_true, if_false, hp1, hp2, Bool.not_true,
        Bool.or_self]
      have e : w.append rest = w ++ rest := rfl
      rw [e]
      apply ih p.get_time _ (fun q hq => hheld q (List.mem_cons_of_mem _ hq))
      rcases hexp with h | ⟨q, hq, hqt⟩
      · exact absurd h hnow
      · rcases List.mem_cons.mp hq with e' | hq'
        · subst e'; exact Or.inl hqt
        · exact Or.inr ⟨q, hq', hqt⟩

/-- When a poll before the deadline observes a recovery button or the
power-button signal released, the check returns at that poll: all it has done
is reload the watchdog once for each earlier poll. -/
theorem button_check_hw_reinit_loop_released (b : Board) (deadline : Nat) (blink : List Nat)
    (p : Poll) (rest : List Poll) (w : List Poll) :
    ∀ (now : Nat) (s : EC),
      now < deadline →
      (∀ q ∈ w, is_recovery_button_pressed b q.gpio_get_level = true ∧
        q.power_button_signal_asserted = true ∧ q.get_time < deadline) →
      (is_recovery_button_pressed b p.gpio_get_level = false ∨
        p.power_button_signal_asserted = false) →
      button_check_hw_reinit_loop b deadline blink now (w ++ p :: rest) s =
        { ec := { s with log := s.log ++ w.map (fun q => (q.get_time, Effect.watchdog_reload)) },
          returned := true } := by
  induction w with
  | nil =>
    intro now s hnow _ hrel
    have hnow' : ¬ deadline ≤ now := by omega
    have hc : (!is_recovery_button_pressed b p.gpio_get_level ||
        !p.power_button_signal_asserted) = true := by
      rcases hrel with h | h <;> simp [h]
    simp [button_check_hw_reinit_loop, timestamp_expired, hnow', hc]
  | cons q w ih =>
    intro now s hnow hheld hrel
    have hnow' : ¬ deadline ≤ now := by omega
    obtain ⟨hq1, hq2, hq3⟩ := hheld q (List.mem_cons_self _ _)
    simp only [List.cons_append, button_check_hw_reinit_loop, timestamp_expired, hnow',
      decide_False, Bool.false_eq_true, if_false, hq1, hq2, Bool.not_true, Bool.or_self]
    have e : w.append (p :: rest) = w ++ p :: rest := rfl
    rw [e, ih q.get_time _ hq3 (fun r hr => hheld r (List.mem_cons_of_mem _ hr)) hrel]
    simp

/-- The function `is_recovery_boot` returns 1 exactly when the boot was not a
jump to this image, the reset flags include `RESET_FLAG_RESET_PIN` or
`RESET_FLAG_POWER_ON`, and every configured recovery button reads as pressed. -/
theorem is_recovery_boot_iff (b : Board) (env : BootEnv) :
    is_recovery_boot b env = true ↔
      (env.system_jumped_to_this_image = false ∧
        env.system_get_reset_flags &&& (b.RESET_FLAG_RESET_PIN ||| b.RESET_FLAG_POWER_ON) ≠ 0 ∧
        ∀ k, k < b.recovery_buttons_count →
          raw_button_pressed b env.recovery_level (b.recovery_buttons k) = true) := by
  rw [← is_recovery_button_pressed_iff]
  unfold is_recovery_boot
  cases env.system_jumped_to_this_image <;>
    cases is_recovery_button_pressed b env.recovery_level <;>
    by_cases h : env.system_get_reset_flags &&&
      (b.RESET_FLAG_RESET_PIN ||| b.RESET_FLAG_POWER_ON) = 0 <;> simp [h]

/-! ### Claims C7 and C8 -/

/-- C7: `button_init` posts the recovery host event (once) when the boot was
not a jump to the current image, the reset flags include `RESET_FLAG_RESET_PIN`
or `RESET_FLAG_POWER_ON`, and every configured recovery button reads as
pressed, and then runs the hardware-reinit check; when one of the three
conditions fails it returns after its loop, having posted no host event and
not run the check. -/
theorem recovery_boot_detection (b : Board) (env : BootEnv) (s : EC) :
    ((env.system_jumped_to_this_image = false ∧
        env.system_get_reset_flags &&& (b.RESET_FLAG_RESET_PIN ||| b.RESET_FLAG_POWER_ON) ≠ 0 ∧
        ∀ k, k < b.recovery_buttons_count →
          raw_button_pressed b env.recovery_level (b.recovery_buttons k) = true) →
      event_posts EC_HOST_EVENT_KEYBOARD_RECOVERY (button_init b env s).ec.log =
          event_posts EC_HOST_EVENT_KEYBOARD_RECOVERY s.log + 1 ∧
        button_init b env s =
          button_check_hw_reinit_required b env.get_time env.polls env.blink
            { (button_init_loop b env b.CONFIG_BUTTON_COUNT { s with next_deferred_time := 0 }) with
              log := (button_init_loop b env b.CONFIG_BUTTON_COUNT
                  { s with next_deferred_time := 0 }).log ++
                [(env.get_time,
                  Effect.host_set_single_event EC_HOST_EVENT_KEYBOARD_RECOVERY)] }) ∧
    (¬ (env.system_jumped_to_this_image = false ∧
        env.system_get_reset_flags &&& (b.RESET_FLAG_RESET_PIN ||| b.RESET_FLAG_POWER_ON) ≠ 0 ∧
        ∀ k, k < b.recovery_buttons_count →
          raw_button_pressed b env.recovery_level (b.recovery_buttons k) = true) →
      button_init b env s =
          { ec := button_init_loop b env b.CONFIG_BUTTON_COUNT { s with next_deferred_time := 0 },
            returned := true } ∧
        event_posts EC_HOST_EVENT_KEYBOARD_RECOVERY (button_init b env s).ec.log =
          event_posts EC_HOST_EVENT_KEYBOARD_RECOVERY s.log ∧
        event_posts EC_HOST_EVENT_KEYBOARD_RECOVERY_HW_REINIT (button_init b env s).ec.log =
          event_posts EC_HOST_EVENT_KEYBOARD_RECOVERY_HW_REINIT s.log) := by
  constructor
  · intro h
    have hb := (is_recovery_boot_iff b env).mpr h
    have e : button_init b env s =
        button_check_hw_reinit_required b env.get_time env.polls env.blink
          { (button_init_loop b env b.CONFIG_BUTTON_COUNT { s with next_deferred_time := 0 }) with
            log := (button_init_loop b env b.CONFIG_BUTTON_COUNT
                { s with next_deferred_time := 0 }).log ++
              [(env.get_time,
                Effect.host_set_single_event EC_HOST_EVENT_KEYBOARD_RECOVERY)] } := by
      simp only [button_init, hb, if_true]
    refine ⟨?_, e⟩
    rw [e, button_check_hw_reinit_required, button_check_hw_reinit_loop_recovery,
      event_posts_append, button_init_loop_event_posts]
    simp [event_posts]
  · intro h
    have hb : is_recovery_boot b env = false := by
      cases hx : is_recovery_boot b env with
      | false => rfl
      | true => exact absurd ((is_recovery_boot_iff b env).mp hx) h
    have e : button_init b env s =
        { ec := button_init_loop b env b.CONFIG_BUTTON_COUNT { s with next_deferred_time := 0 },
          returned := true } := by
      simp only [button_init, hb, Bool.false_eq_true, if_false]
    refine ⟨e, ?_, ?_⟩
    · rw [e, button_init_loop_event_posts]
    · rw [e, button_init_loop_event_posts]

/-- Witness of C7: a power-on boot of the two-button board with both buttons
held, and one with no button pressed. -/
theorem recovery_boot_detection_witness :
    (event_posts EC_HOST_EVENT_KEYBOARD_RECOVERY (button_init demo_board held_boot EC.boot).ec.log =
        event_posts EC_HOST_EVENT_KEYBOARD_RECOVERY EC.boot.log + 1) ∧
    (button_init demo_board plain_boot EC.boot =
        { ec := button_init_loop demo_board plain_boot demo_board.CONFIG_BUTTON_COUNT
            { EC.boot with next_deferred_time := 0 },
          returned := true }) :=
  ⟨((recovery_boot_detection demo_board held_boot EC.boot).1
      ⟨rfl, by decide, by decide⟩).1,
   ((recovery_boot_detection demo_board plain_boot EC.boot).2
      (fun h => absurd (h.2.2 0 (by decide)) (by decide))).1⟩

/-- C8: `button_check_hw_reinit_required` starts at `now` with the deadline
`now + 20 * SECOND`.  (1) If the recovery buttons and the power-button signal
are observed asserted at every poll `w` of the window, up to a poll at which
the clock has reached the deadline, the hardware-reinit host event is posted
exactly once (and on a board without the LED the function then returns).
(2) If, after polls `w` that observe both asserted and end
before the deadline, a poll observes a recovery button or the power-button
signal released, the function returns at that poll: it has reloaded the
watchdog once per earlier poll and done nothing else, so no hardware-reinit
event is posted. -/
theorem hw_reinit_detection (b : Board) (now : Nat) (blink : List Nat) (s : EC) :
    (∀ (w rest : List Poll),
      (∀ p ∈ w, is_recovery_button_pressed b p.gpio_get_level = true ∧
        p.power_button_signal_asserted = true) →
      (∃ p ∈ w, now + 20 * SECOND ≤ p.get_time) →
      event_posts EC_HOST_EVENT_KEYBOARD_RECOVERY_HW_REINIT
          (button_check_hw_reinit_required b now (w ++ rest) blink s).ec.log =
        event_posts EC_HOST_EVENT_KEYBOARD_RECOVERY_HW_REINIT s.log + 1 ∧
      (b.CONFIG_LED_COMMON = false →
        (button_check_hw_reinit_required b now (w ++ rest) blink s).returned = true)) ∧
    (∀ (w : List Poll) (p : Poll) (rest : List Poll),
      (∀ q ∈ w, is_recovery_button_pressed b q.gpio_get_level = true ∧
        q.power_button_signal_asserted = true ∧ q.get_time < now + 20 * SECOND) →
      (is_recovery_button_pressed b p.gpio_get_level = false ∨
        p.power_button_signal_asserted = false) →
      button_check_hw_reinit_required b now (w ++ p :: rest) blink s =
          { ec := { s with
                    log := s.log ++ w.map (fun q => (q.get_time, Effect.watchdog_reload)) },
            returned := true } ∧
        event_posts EC_HOST_EVENT_KEYBOARD_RECOVERY_HW_REINIT
            (button_check_hw_reinit_required b now (w ++ p :: rest) blink s).ec.log =
          event_posts EC_HOST_EVENT_KEYBOARD_RECOVERY_HW_REINIT s.log) := by
  constructor
  · intro w rest hheld hexp
    exact ⟨button_check_hw_reinit_loop_held b _ blink rest w now s hheld (Or.inr hexp),
      fun hled => button_check_hw_reinit_loop_held_returned b _ blink rest w hled now s hheld
        (Or.inr hexp)⟩
  · intro w p rest hheld hrel
    have hnow : now < now + 20 * SECOND := by
      have : 0 < SECOND := by decide
      omega
    have e := button_check_hw_reinit_loop_released b (now + 20 * SECOND) blink p rest w now s
      hnow hheld hrel
    refine ⟨e, ?_⟩
    rw [button_check_hw_reinit_required, e, event_posts_append]
    simp [event_posts]

/-- Witness of C8 on the two-button board: the buttons held through polls
that end at 7 s, 14 s and 21 s; and the buttons held through polls that end at
10 s and 19 s, then observed released. -/
theorem hw_reinit_detection_witness :
    (event_posts EC_HOST_EVENT_KEYBOARD_RECOVERY_HW_REINIT
        (button_check_hw_reinit_required demo_board 0
          ([held_poll 7000000, held_poll 14000000, held_poll 21000000] ++ []) []
          EC.boot).ec.log =
      event_posts EC_HOST_EVENT_KEYBOARD_RECOVERY_HW_REINIT EC.boot.log + 1) ∧
    ((button_check_hw_reinit_required demo_board 0
          ([held_poll 7000000, held_poll 14000000, held_poll 21000000] ++ []) []
          EC.boot).returned = true) ∧
    (button_check_hw_reinit_required demo_board 0
        ([held_poll 10000000, held_poll 19000000] ++ released_poll 19000100 :: []) []
        EC.boot =
      { ec := { EC.boot with
                log := EC.boot.log ++ [held_poll 10000000, held_poll 19000000].map
                                        (fun q => (q.get_time, Effect.watchdog_reload)) },
        returned := true }) :=
  ⟨((hw_reinit_detection demo_board 0 [] EC.boot).1
      [held_poll 7000000, held_poll 14000000, held_poll 21000000] [] (by decide)
      (by decide)).1,
   ((hw_reinit_detection demo_board 0 [] EC.boot).1
      [held_poll 7000000, held_poll 14000000, held_poll 21000000] [] (by decide)
      (by decide)).2 rfl,
   ((hw_reinit_detection demo_board 0 [] EC.boot).2
      [held_poll 10000000, held_poll 19000000] (released_poll 19000100) [] (by decide)
      (by decide)).1⟩

/-! ## The diagnostic state machine: the transition table -/

/-- The mask read by `debug_button_mask` is `{vol-up, vol-down}` exactly when
the power button is not pressed and both volume buttons are. -/
theorem debug_button_mask_eq_combo (b : Board) (power : Bool) (s : EC) :
    debug_button_mask b power s = (DEBUG_BTN_VOL_UP ||| DEBUG_BTN_VOL_DN) ↔
      (power = false ∧ (s.state b.BUTTON_VOLUME_UP).debounced_pressed = true ∧
        (s.state b.BUTTON_VOLUME_DOWN).debounced_pressed = true) := by
  unfold debug_button_mask
  cases power <;> cases (s.state b.BUTTON_VOLUME_UP).debounced_pressed <;>
    cases (s.state b.BUTTON_VOLUME_DOWN).debounced_pressed <;> decide

/-- A transition to `STATE_DEBUG_NONE` clears the machine. -/
theorem debug_mode_transition_none (b : Board) (now : Nat) (s : EC) :
    (debug_mode_transition b now STATE_DEBUG_NONE s).curr_debug_state = STATE_DEBUG_NONE ∧
    (debug_mode_transition b now STATE_DEBUG_NONE s).next_debug_state = STATE_DEBUG_NONE ∧
    (debug_mode_transition b now STATE_DEBUG_NONE s).debug_state_deadline = 0 ∧
    (debug_mode_transition b now STATE_DEBUG_NONE s).debug_button_hit_count = 0 ∧
    (debug_mode_transition b now STATE_DEBUG_NONE s).debug_mode_handle_data = none := by
  simp [debug_mode_transition, hook_call_deferred_cancel]

/-- A transition to `STATE_STAGING` arms the timeout and keeps the pending
next state and the hit counter. -/
theorem debug_mode_transition_staging (b : Board) (now : Nat) (s : EC) :
    (debug_mode_transition b now STATE_STAGING s).curr_debug_state = STATE_STAGING ∧
    (debug_mode_transition b now STATE_STAGING s).next_debug_state = s.next_debug_state ∧
    (debug_mode_transition b now STATE_STAGING s).debug_state_deadline = now + DEBUG_TIMEOUT ∧
    (debug_mode_transition b now STATE_STAGING s).debug_button_hit_count =
      s.debug_button_hit_count ∧
    (debug_mode_transition b now STATE_STAGING s).debug_mode_handle_data =
      some (now + DEBUG_TIMEOUT) ∧
    (debug_mode_transition b now STATE_STAGING s).log = s.log := by
  simp [debug_mode_transition, hook_call_deferred_cancel, hook_call_deferred_delay]

/-- A transition to `STATE_DEBUG_CHECK` arms the timeout. -/
theorem debug_mode_transition_check (b : Board) (now : Nat) (s : EC) :
    (debug_mode_transition b now STATE_DEBUG_CHECK s).curr_debug_state = STATE_DEBUG_CHECK ∧
    (debug_mode_transition b now STATE_DEBUG_CHECK s).next_debug_state = s.next_debug_state ∧
    (debug_mode_transition b now STATE_DEBUG_CHECK s).debug_state_deadline =
      now + DEBUG_TIMEOUT ∧
    (debug_mode_transition b now STATE_DEBUG_CHECK s).debug_button_hit_count =
      s.debug_button_hit_count ∧
    (debug_mode_transition b now STATE_DEBUG_CHECK s).debug_mode_handle_data =
      some (now + DEBUG_TIMEOUT) ∧
    (debug_mode_transition b now STATE_DEBUG_CHECK s).log = s.log := by
  simp [debug_mode_transition, hook_call_deferred_cancel, hook_call_deferred_delay]

/-! ### Claims C14 to C20 -/

/-- C14: in `STATE_DEBUG_NONE`, `debug_mode_handle` moves to
`STATE_DEBUG_CHECK` if and only if the mask it reads is exactly
`{vol-up, vol-down}`, that is the power button is not pressed and both volume
buttons are; for every other mask the state is unchanged (no state change, no
scheduling). -/
theorem none_moves_to_check (b : Board) (power : Bool) (now : Nat) (s : EC)
    (hs : s.curr_debug_state = STATE_DEBUG_NONE) :
    ((debug_mode_handle_on_buttons b power now s).curr_debug_state = STATE_DEBUG_CHECK ↔
      (power = false ∧ (s.state b.BUTTON_VOLUME_UP).debounced_pressed = true ∧
        (s.state b.BUTTON_VOLUME_DOWN).debounced_pressed = true)) ∧
    (¬ (power = false ∧ (s.state b.BUTTON_VOLUME_UP).debounced_pressed = true ∧
        (s.state b.BUTTON_VOLUME_DOWN).debounced_pressed = true) →
      debug_mode_handle_on_buttons b power now s = s) ∧
    (debug_mode_handle b (DEBUG_BTN_VOL_UP ||| DEBUG_BTN_VOL_DN) now s).curr_debug_state =
      STATE_DEBUG_CHECK ∧
    (∀ mask, mask ≠ (DEBUG_BTN_VOL_UP ||| DEBUG_BTN_VOL_DN) →
      debug_mode_handle b mask now s = s) := by
  have hcombo : (debug_mode_handle b (DEBUG_BTN_VOL_UP ||| DEBUG_BTN_VOL_DN) now
      s).curr_debug_state = STATE_DEBUG_CHECK := by
    simp only [debug_mode_handle, hs, if_true]
    exact (debug_mode_transition_check b now s).1
  have hother : ∀ mask, mask ≠ (DEBUG_BTN_VOL_UP ||| DEBUG_BTN_VOL_DN) →
      debug_mode_handle b mask now s = s := by
    intro mask hm
    simp only [debug_mode_handle, hs, hm, if_false]
  refine ⟨?_, ?_, hcombo, hother⟩
  · rw [← debug_button_mask_eq_combo]
    unfold debug_mode_handle_on_buttons
    constructor
    · intro h
      by_contra hm
      rw [hother _ hm, hs] at h
      exact absurd h (by decide)
    · intro h
      rw [h]
      exact hcombo
  · intro h
    rw [← debug_button_mask_eq_combo] at h
    exact hother _ h

/-- Witness of C14 on the two-button board: the boot state with both volume
buttons pressed, and the boot state itself (nothing pressed). -/
theorem none_moves_to_check_witness :
    (debug_mode_handle_on_buttons demo_board false 5
        { EC.boot with state := fun _ => { debounce_time := 0, debounced_pressed := true } }
      ).curr_debug_state = STATE_DEBUG_CHECK ∧
    debug_mode_handle_on_buttons demo_board false 5 EC.boot = EC.boot :=
  ⟨(none_moves_to_check demo_board false 5
      { EC.boot with state := fun _ => { debounce_time := 0, debounced_pressed := true } }
      rfl).1.mpr ⟨rfl, rfl, rfl⟩,
   (none_moves_to_check demo_board false 5 EC.boot rfl).2.1 (by decide)⟩

/-- C15: in `STATE_DEBUG_CHECK`, `debug_mode_handle` moves to
`STATE_DEBUG_NONE` whenever the mask is not exactly `{vol-up, vol-down}`,
whether the deadline has expired or not; with the mask exactly
`{vol-up, vol-down}` and the deadline expired it sets the pending next state
to `STATE_DEBUG_MODE_ACTIVE` and moves to `STATE_STAGING`; with the mask
matching and the deadline not expired the state is unchanged. -/
theorem check_transitions (b : Board) (now : Nat) (s : EC)
    (hs : s.curr_debug_state = STATE_DEBUG_CHECK) :
    (∀ mask, mask ≠ (DEBUG_BTN_VOL_UP ||| DEBUG_BTN_VOL_DN) →
      (debug_mode_handle b mask now s).curr_debug_state = STATE_DEBUG_NONE) ∧
    (s.debug_state_deadline ≤ now →
      (debug_mode_handle b (DEBUG_BTN_VOL_UP ||| DEBUG_BTN_VOL_DN) now s).curr_debug_state =
          STATE_STAGING ∧
        (debug_mode_handle b (DEBUG_BTN_VOL_UP ||| DEBUG_BTN_VOL_DN) now s).next_debug_state =
          STATE_DEBUG_MODE_ACTIVE) ∧
    (now < s.debug_state_deadline →
      debug_mode_handle b (DEBUG_BTN_VOL_UP ||| DEBUG_BTN_VOL_DN) now s = s) := by
  refine ⟨fun mask hm => ?_, fun hexp => ?_, fun hnot => ?_⟩
  · simp only [debug_mode_handle, hs, hm, not_false_eq_true, if_true]
    exact (debug_mode_transition_none b now s).1
  · simp only [debug_mode_handle, hs, not_true_eq_false, if_false, timestamp_expired, hexp,
      decide_True, if_true]
    exact ⟨(debug_mode_transition_staging b now _).1, (debug_mode_transition_staging b now _).2.1⟩
  · have h : ¬ s.debug_state_deadline ≤ now := by omega
    simp [debug_mode_handle, hs, timestamp_expired, h]

/-- Witness of C15 on the two-button board: `STATE_DEBUG_CHECK` with the
deadline at 100. -/
theorem check_transitions_witness :
    (debug_mode_handle demo_board DEBUG_BTN_VOL_UP 50
        { EC.boot with curr_debug_state := STATE_DEBUG_CHECK, debug_state_deadline := 100 }
      ).curr_debug_state = STATE_DEBUG_NONE ∧
    ((debug_mode_handle demo_board (DEBUG_BTN_VOL_UP ||| DEBUG_BTN_VOL_DN) 100
        { EC.boot with curr_debug_state := STATE_DEBUG_CHECK, debug_state_deadline := 100 }
      ).curr_debug_state = STATE_STAGING ∧
      (debug_mode_handle demo_board (DEBUG_BTN_VOL_UP ||| DEBUG_BTN_VOL_DN) 100
        { EC.boot with curr_debug_state := STATE_DEBUG_CHECK, debug_state_deadline := 100 }
      ).next_debug_state = STATE_DEBUG_MODE_ACTIVE) ∧
    debug_mode_handle demo_board (DEBUG_BTN_VOL_UP ||| DEBUG_BTN_VOL_DN) 50
        { EC.boot with curr_debug_state := STATE_DEBUG_CHECK, debug_state_deadline := 100 } =
      { EC.boot with curr_debug_state := STATE_DEBUG_CHECK, debug_state_deadline := 100 } :=
  ⟨(check_transitions demo_board 50
      { EC.boot with curr_debug_state := STATE_DEBUG_CHECK, debug_state_deadline := 100 }
      rfl).1 DEBUG_BTN_VOL_UP (by decide),
   (check_transitions demo_board 100
      { EC.boot with curr_debug_state := STATE_DEBUG_CHECK, debug_state_deadline := 100 }
      rfl).2.1 (by decide),
   (check_transitions demo_board 50
      { EC.boot with curr_debug_state := STATE_DEBUG_CHECK, debug_state_deadline := 100 }
      rfl).2.2 (by decide)⟩

/-- An entry into `STATE_SYSRQ_PATH` counts one hit; the machine stays in
`STATE_SYSRQ_PATH` unless this makes the counter 4, in which case the machine
is cleared to `STATE_DEBUG_NONE`. -/
theorem debug_mode_transition_sysrq_path (b : Board) (now : Nat) (s : EC) :
    (s.debug_button_hit_count + 1 ≠ 4 →
      (debug_mode_transition b now STATE_SYSRQ_PATH s).curr_debug_state = STATE_SYSRQ_PATH ∧
      (debug_mode_transition b now STATE_SYSRQ_PATH s).debug_button_hit_count =
        s.debug_button_hit_count + 1 ∧
      (debug_mode_transition b now STATE_SYSRQ_PATH s).log = s.log) ∧
    (s.debug_button_hit_count + 1 = 4 →
      (debug_mode_transition b now STATE_SYSRQ_PATH s).curr_debug_state = STATE_DEBUG_NONE ∧
      (debug_mode_transition b now STATE_SYSRQ_PATH s).debug_button_hit_count = 0 ∧
      sysrq_calls (debug_mode_transition b now STATE_SYSRQ_PATH s).log = sysrq_calls s.log) := by
  constructor
  · intro h
    have h3 : ¬ s.debug_button_hit_count = 3 := by omega
    simp [debug_mode_transition, h3]
  · intro h
    have h3 : s.debug_button_hit_count = 3 := by omega
    simp only [debug_mode_transition, h3]
    refine ⟨by simp, by simp, ?_⟩
    simp only [if_true, ne_eq, not_true_eq_false, if_false]
    split_ifs <;> simp [sysrq_calls]

/-- The state `debug_mode_transition(next_state)` leaves the machine in: the
target state, except that the two `EXEC` states and the fourth hit of
`STATE_SYSRQ_PATH` end in `STATE_DEBUG_NONE`. -/
theorem debug_mode_transition_curr (b : Board) (now : Nat) (st : debug_state) (s : EC) :
    (debug_mode_transition b now st s).curr_debug_state =
      (match st with
        | STATE_SYSRQ_EXEC => STATE_DEBUG_NONE
        | STATE_WARM_RESET_EXEC => STATE_DEBUG_NONE
        | STATE_SYSRQ_PATH =>
          if s.debug_button_hit_count + 1 = 4 then STATE_DEBUG_NONE else STATE_SYSRQ_PATH
        | st' => st') := by
  cases st
  case STATE_SYSRQ_PATH =>
    by_cases h : s.debug_button_hit_count + 1 = 4
    · simp only [h, if_true]
      exact ((debug_mode_transition_sysrq_path b now s).2 h).1
    · simp only [h, if_false]
      exact ((debug_mode_transition_sysrq_path b now s).1 h).1
  all_goals simp [debug_mode_transition]

/-- C17: in `STATE_DEBUG_MODE_ACTIVE`, `debug_mode_handle` moves to
`STATE_STAGING` with pending next state `STATE_SYSRQ_PATH` on the mask
`{vol-up}` and with pending next state `STATE_WARM_RESET_PATH` on the mask
`{vol-down}`; on the empty mask before the deadline it changes nothing; on
every other mask, and on the empty mask once the deadline has expired, it moves
to `STATE_DEBUG_NONE`. -/
theorem active_transitions (b : Board) (now : Nat) (s : EC)
    (hs : s.curr_debug_state = STATE_DEBUG_MODE_ACTIVE) :
    ((debug_mode_handle b DEBUG_BTN_VOL_UP now s).curr_debug_state = STATE_STAGING ∧
      (debug_mode_handle b DEBUG_BTN_VOL_UP now s).next_debug_state = STATE_SYSRQ_PATH) ∧
    ((debug_mode_handle b DEBUG_BTN_VOL_DN now s).curr_debug_state = STATE_STAGING ∧
      (debug_mode_handle b DEBUG_BTN_VOL_DN now s).next_debug_state =
        STATE_WARM_RESET_PATH) ∧
    (now < s.debug_state_deadline → debug_mode_handle b 0 now s = s) ∧
    (∀ mask, mask ≠ DEBUG_BTN_VOL_UP → mask ≠ DEBUG_BTN_VOL_DN →
      (mask ≠ 0 ∨ s.debug_state_deadline ≤ now) →
      (debug_mode_handle b mask now s).curr_debug_state = STATE_DEBUG_NONE) := by
  refine ⟨?_, ?_, fun hnot => ?_, fun mask h1 h2 h3 => ?_⟩
  · have e : debug_mode_handle b DEBUG_BTN_VOL_UP now s =
        debug_mode_transition b now STATE_STAGING
          { s with next_debug_state := STATE_SYSRQ_PATH } := by
      simp [debug_mode_handle, hs, DEBUG_BTN_VOL_UP, DEBUG_BTN_VOL_DN]
    rw [e]
    exact ⟨(debug_mode_transition_staging b now _).1, (debug_mode_transition_staging b now _).2.1⟩
  · have e : debug_mode_handle b DEBUG_BTN_VOL_DN now s =
        debug_mode_transition b now STATE_STAGING
          { s with next_debug_state := STATE_WARM_RESET_PATH } := by
      simp [debug_mode_handle, hs, DEBUG_BTN_VOL_UP, DEBUG_BTN_VOL_DN]
    rw [e]
    exact ⟨(debug_mode_transition_staging b now _).1, (debug_mode_transition_staging b now _).2.1⟩
  · have h : ¬ s.debug_state_deadline ≤ now := by omega
    simp [debug_mode_handle, hs, timestamp_expired, h]
  · have hc : ¬ (mask = 0 ∧ ¬ timestamp_expired s.debug_state_deadline now = true) := by
      rintro ⟨hm, hne⟩
      rcases h3 with h3 | h3
      · exact h3 hm
      · exact hne (by simp [timestamp_expired, h3])
    simp only [debug_mode_handle, hs, hc, if_false, h1, h2, ne_eq, not_false_eq_true, and_self,
      if_true]
    exact (debug_mode_transition_none b now s).1

/-- Witness of C17 on the two-button board: `STATE_DEBUG_MODE_ACTIVE` with the
deadline at 100. -/
theorem active_transitions_witness :
    (debug_mode_handle demo_board 0 50
        { EC.boot with curr_debug_state := STATE_DEBUG_MODE_ACTIVE,
                       debug_state_deadline := 100 } =
      { EC.boot with curr_debug_state := STATE_DEBUG_MODE_ACTIVE,
                     debug_state_deadline := 100 }) ∧
    (debug_mode_handle demo_board 0 100
        { EC.boot with curr_debug_state := STATE_DEBUG_MODE_ACTIVE,
                       debug_state_deadline := 100 }).curr_debug_state = STATE_DEBUG_NONE ∧
    (debug_mode_handle demo_board DEBUG_BTN_VOL_DN 50
        { EC.boot with curr_debug_state := STATE_DEBUG_MODE_ACTIVE,
                       debug_state_deadline := 100 }).next_debug_state =
      STATE_WARM_RESET_PATH :=
  ⟨(active_transitions demo_board 50
      { EC.boot with curr_debug_state := STATE_DEBUG_MODE_ACTIVE,
                     debug_state_deadline := 100 } rfl).2.2.1 (by decide),
   (active_transitions demo_board 100
      { EC.boot with curr_debug_state := STATE_DEBUG_MODE_ACTIVE,
                     debug_state_deadline := 100 } rfl).2.2.2 0 (by decide) (by decide)
      (Or.inr (by decide)),
   (active_transitions demo_board 50
      { EC.boot with curr_debug_state := STATE_DEBUG_MODE_ACTIVE,
                     debug_state_deadline := 100 } rfl).2.1.2⟩

/-- C18: in `STATE_SYSRQ_PATH`, the mask `{vol-up}` moves the machine to
`STATE_STAGING` with pending next state `STATE_SYSRQ_PATH` and the mask
`{vol-down}` to `STATE_STAGING` with pending next state `STATE_SYSRQ_EXEC` (the
hit counter is not touched by either).  Each entry into `STATE_SYSRQ_PATH`
(a transition to it, from any state `s'`) adds one to the hit counter and
leaves the machine in `STATE_SYSRQ_PATH`, so for the counter values 1, 2 and 3,
except the entry that would make the counter 4: that one leaves the machine in
`STATE_DEBUG_NONE`, with the counter cleared. -/
theorem sysrq_path_transitions (b : Board) (now : Nat) (s s' : EC)
    (hs : s.curr_debug_state = STATE_SYSRQ_PATH) :
    ((debug_mode_handle b DEBUG_BTN_VOL_UP now s).curr_debug_state = STATE_STAGING ∧
      (debug_mode_handle b DEBUG_BTN_VOL_UP now s).next_debug_state = STATE_SYSRQ_PATH ∧
      (debug_mode_handle b DEBUG_BTN_VOL_UP now s).debug_button_hit_count =
        s.debug_button_hit_count) ∧
    ((debug_mode_handle b DEBUG_BTN_VOL_DN now s).curr_debug_state = STATE_STAGING ∧
      (debug_mode_handle b DEBUG_BTN_VOL_DN now s).next_debug_state = STATE_SYSRQ_EXEC ∧
      (debug_mode_handle b DEBUG_BTN_VOL_DN now s).debug_button_hit_count =
        s.debug_button_hit_count) ∧
    (s'.debug_button_hit_count + 1 ≠ 4 →
      (debug_mode_transition b now STATE_SYSRQ_PATH s').curr_debug_state = STATE_SYSRQ_PATH ∧
      (debug_mode_transition b now STATE_SYSRQ_PATH s').debug_button_hit_count =
        s'.debug_button_hit_count + 1) ∧
    (s'.debug_button_hit_count + 1 = 4 →
      (debug_mode_transition b now STATE_SYSRQ_PATH s').curr_debug_state = STATE_DEBUG_NONE ∧
      (debug_mode_transition b now STATE_SYSRQ_PATH s').debug_button_hit_count = 0) := by
  refine ⟨?_, ?_, fun h => ?_, fun h => ?_⟩
  · have e : debug_mode_handle b DEBUG_BTN_VOL_UP now s =
        debug_mode_transition b now STATE_STAGING
          { s with next_debug_state := STATE_SYSRQ_PATH } := by
      simp [debug_mode_handle, hs, DEBUG_BTN_VOL_UP, DEBUG_BTN_VOL_DN]
    rw [e]
    exact ⟨(debug_mode_transition_staging b now _).1, (debug_mode_transition_staging b now _).2.1,
      (debug_mode_transition_staging b now _).2.2.2.1⟩
  · have e : debug_mode_handle b DEBUG_BTN_VOL_DN now s =
        debug_mode_transition b now STATE_STAGING
          { s with next_debug_state := STATE_SYSRQ_EXEC } := by
      simp [debug_mode_handle, hs, DEBUG_BTN_VOL_UP, DEBUG_BTN_VOL_DN]
    rw [e]
    exact ⟨(debug_mode_transition_staging b now _).1, (debug_mode_transition_staging b now _).2.1,
      (debug_mode_transition_staging b now _).2.2.2.1⟩
  · exact ⟨((debug_mode_transition_sysrq_path b now s').1 h).1,
      ((debug_mode_transition_sysrq_path b now s').1 h).2.1⟩
  · exact ⟨((debug_mode_transition_sysrq_path b now s').2 h).1,
      ((debug_mode_transition_sysrq_path b now s').2 h).2.1⟩

/-- Witness of C18 on the two-button board: `STATE_SYSRQ_PATH` with one hit
counted; the entries into `STATE_SYSRQ_PATH` with two and with three hits
counted before. -/
theorem sysrq_path_transitions_witness :
    (debug_mode_handle demo_board DEBUG_BTN_VOL_DN 50
        { EC.boot with curr_debug_state := STATE_SYSRQ_PATH,
                       debug_button_hit_count := 1 }).next_debug_state = STATE_SYSRQ_EXEC ∧
    ((debug_mode_transition demo_board 50 STATE_SYSRQ_PATH
        { EC.boot with curr_debug_state := STATE_STAGING,
                       debug_button_hit_count := 2 }).curr_debug_state = STATE_SYSRQ_PATH ∧
      (debug_mode_transition demo_board 50 STATE_SYSRQ_PATH
        { EC.boot with curr_debug_state := STATE_STAGING,
                       debug_button_hit_count := 2 }).debug_button_hit_count = 2 + 1) ∧
    ((debug_mode_transition demo_board 50 STATE_SYSRQ_PATH
        { EC.boot with curr_debug_state := STATE_STAGING,
                       debug_button_hit_count := 3 }).curr_debug_state = STATE_DEBUG_NONE ∧
      (debug_mode_transition demo_board 50 STATE_SYSRQ_PATH
        { EC.boot with curr_debug_state := STATE_STAGING,
                       debug_button_hit_count := 3 }).debug_button_hit_count = 0) :=
  ⟨(sysrq_path_transitions demo_board 50
      { EC.boot with curr_debug_state := STATE_SYSRQ_PATH, debug_button_hit_count := 1 }
      EC.boot rfl).2.1.2.1,
   (sysrq_path_transitions demo_board 50
      { EC.boot with curr_debug_state := STATE_SYSRQ_PATH, debug_button_hit_count := 1 }
      { EC.boot with curr_debug_state := STATE_STAGING, debug_button_hit_count := 2 }
      rfl).2.2.1 (by decide),
   (sysrq_path_transitions demo_board 50
      { EC.boot with curr_debug_state := STATE_SYSRQ_PATH, debug_button_hit_count := 1 }
      { EC.boot with curr_debug_state := STATE_STAGING, debug_button_hit_count := 3 }
      rfl).2.2.2 (by decide)⟩

/-- C19 (as amended): in `STATE_WARM_RESET_PATH`, `debug_mode_handle` moves to
`STATE_STAGING` with pending next state `STATE_WARM_RESET_EXEC` when the mask is
exactly `{vol-up}`; on the empty mask before the deadline it changes nothing
(the machine stays in `STATE_WARM_RESET_PATH`); for every other mask, and for
the empty mask once the deadline has expired, it moves to `STATE_DEBUG_NONE`. -/
theorem reset_path_transitions (b : Board) (now : Nat) (s : EC)
    (hs : s.curr_debug_state = STATE_WARM_RESET_PATH) :
    ((debug_mode_handle b DEBUG_BTN_VOL_UP now s).curr_debug_state = STATE_STAGING ∧
      (debug_mode_handle b DEBUG_BTN_VOL_UP now s).next_debug_state =
        STATE_WARM_RESET_EXEC) ∧
    (now < s.debug_state_deadline → debug_mode_handle b 0 now s = s) ∧
    (∀ mask, mask ≠ DEBUG_BTN_VOL_UP → (mask ≠ 0 ∨ s.debug_state_deadline ≤ now) →
      (debug_mode_handle b mask now s).curr_debug_state = STATE_DEBUG_NONE) := by
  refine ⟨?_, fun hnot => ?_, fun mask h1 h3 => ?_⟩
  · have e : debug_mode_handle b DEBUG_BTN_VOL_UP now s =
        debug_mode_transition b now STATE_STAGING
          { s with next_debug_state := STATE_WARM_RESET_EXEC } := by
      simp [debug_mode_handle, hs, DEBUG_BTN_VOL_UP]
    rw [e]
    exact ⟨(debug_mode_transition_staging b now _).1, (debug_mode_transition_staging b now _).2.1⟩
  · have h : ¬ s.debug_state_deadline ≤ now := by omega
    simp [debug_mode_handle, hs, timestamp_expired, h]
  · have hc : ¬ (mask = 0 ∧ ¬ timestamp_expired s.debug_state_deadline now = true) := by
      rintro ⟨hm, hne⟩
      rcases h3 with h3 | h3
      · exact h3 hm
      · exact hne (by simp [timestamp_expired, h3])
    simp only [debug_mode_handle, hs, hc, if_false, h1, ne_eq, not_false_eq_true, if_true]
    exact (debug_mode_transition_none b now s).1

/-- Witness of C19 on the two-button board: `STATE_WARM_RESET_PATH` with the
deadline at 100. -/
theorem reset_path_transitions_witness :
    (debug_mode_handle demo_board DEBUG_BTN_VOL_UP 50
        { EC.boot with curr_debug_state := STATE_WARM_RESET_PATH,
                       debug_state_deadline := 100 }).next_debug_state =
      STATE_WARM_RESET_EXEC ∧
    debug_mode_handle demo_board 0 50
        { EC.boot with curr_debug_state := STATE_WARM_RESET_PATH,
                       debug_state_deadline := 100 } =
      { EC.boot with curr_debug_state := STATE_WARM_RESET_PATH,
                     debug_state_deadline := 100 } ∧
    (debug_mode_handle demo_board DEBUG_BTN_VOL_DN 50
        { EC.boot with curr_debug_state := STATE_WARM_RESET_PATH,
                       debug_state_deadline := 100 }).curr_debug_state = STATE_DEBUG_NONE :=
  ⟨(reset_path_transitions demo_board 50
      { EC.boot with curr_debug_state := STATE_WARM_RESET_PATH,
                     debug_state_deadline := 100 } rfl).1.2,
   (reset_path_transitions demo_board 50
      { EC.boot with curr_debug_state := STATE_WARM_RESET_PATH,
                     debug_state_deadline := 100 } rfl).2.1 (by decide),
   (reset_path_transitions demo_board 50
      { EC.boot with curr_debug_state := STATE_WARM_RESET_PATH,
                     debug_state_deadline := 100 } rfl).2.2 DEBUG_BTN_VOL_DN (by decide)
      (Or.inl (by decide))⟩

/-- C19 as stated fails: on the two-button board the machine is brought to
`STATE_WARM_RESET_PATH` (combination held past the timeout, release,
`{vol-down}` tap ending at 13 s, deadline at 23 s).  A handler invocation at
14 s with the empty mask, a mask other than `{vol-up}`, leaves it in
`STATE_WARM_RESET_PATH`: it does not move to `STATE_DEBUG_NONE`. -/
theorem reset_path_stays_on_empty_mask :
    (debug_run demo_board { clock := 0, mask := 0, ec := EC.boot }
        [DebugEvent.mask_change 5 (DEBUG_BTN_VOL_UP ||| DEBUG_BTN_VOL_DN), DebugEvent.deadline,
         DebugEvent.mask_change 11000000 0,
         DebugEvent.mask_change 12000000 DEBUG_BTN_VOL_DN,
         DebugEvent.mask_change 13000000 0]).map
      (fun r => (r.ec.curr_debug_state, r.ec.debug_state_deadline,
        (debug_mode_handle demo_board 0 14000000 r.ec).curr_debug_state)) =
      some (STATE_WARM_RESET_PATH, 23000000, STATE_WARM_RESET_PATH) ∧
    (0 : Nat) ≠ DEBUG_BTN_VOL_UP ∧
    STATE_WARM_RESET_PATH ≠ STATE_DEBUG_NONE := by
  decide

/-- C20: for every hit count `n`, `debug_mode_transition(STATE_SYSRQ_EXEC)`
makes exactly `n` calls of `host_send_sysrq` and leaves the machine in
`STATE_DEBUG_NONE` with the hit counter at 0 (and the pending next state and
the deadline cleared). -/
theorem sysrq_exec_sends_one_per_hit (b : Board) (now n : Nat) (s : EC) :
    sysrq_calls (debug_mode_transition b now STATE_SYSRQ_EXEC
        { s with debug_button_hit_count := n }).log = sysrq_calls s.log + n ∧
    (debug_mode_transition b now STATE_SYSRQ_EXEC
        { s with debug_button_hit_count := n }).curr_debug_state = STATE_DEBUG_NONE ∧
    (debug_mode_transition b now STATE_SYSRQ_EXEC
        { s with debug_button_hit_count := n }).debug_button_hit_count = 0 ∧
    (debug_mode_transition b now STATE_SYSRQ_EXEC
        { s with debug_button_hit_count := n }).next_debug_state = STATE_DEBUG_NONE ∧
    (debug_mode_transition b now STATE_SYSRQ_EXEC
        { s with debug_button_hit_count := n }).debug_state_deadline = 0 := by
  refine ⟨?_, by simp [debug_mode_transition], by simp [debug_mode_transition],
    by simp [debug_mode_transition], by simp [debug_mode_transition]⟩
  simp only [debug_mode_transition]
  simp only [ne_eq, not_true_eq_false, if_false]
  split_ifs
  · rw [sysrq_calls_append, sysrq_calls_send_sysrq_loop]
    simp [sysrq_calls]
  · rw [sysrq_calls_send_sysrq_loop]

/-! ## The tick: what it resolves and what it schedules -/

/-- The button states after `button_change_deferred`. -/
theorem button_change_deferred_state (b : Board) (lvl : Nat → Bool) (t : Nat) (s : EC)
    (i : Nat) (hi : i < b.CONFIG_BUTTON_COUNT) :
    (button_change_deferred b lvl t s).state i = debounce_one b lvl t i (s.state i) := by
  have h := button_change_loop_state b lvl t b.CONFIG_BUTTON_COUNT (s, 0) i
  simp only [hi, if_true] at h
  simp only [button_change_deferred]
  split_ifs <;> exact h

/-- The log after `button_change_deferred`. -/
theorem button_change_deferred_log (b : Board) (lvl : Nat → Bool) (t : Nat) (s : EC) :
    (button_change_deferred b lvl t s).log =
      s.log ++ debounce_log b lvl t s.state b.CONFIG_BUTTON_COUNT := by
  have h := button_change_loop_log b lvl t b.CONFIG_BUTTON_COUNT (s, 0)
  simp only [button_change_deferred]
  split_ifs <;> exact h

/-- What `button_change_deferred` does to `next_deferred_time` and to its own
slot: with a deadline after `t` left, `next_deferred_time` is set to the
soonest one and the callback is scheduled with the difference converted to
`int`, hence for the soonest one if that is less than `2^31` ahead; otherwise
both are left alone. -/
theorem button_change_deferred_schedule (b : Board) (lvl : Nat → Bool) (t : Nat) (s : EC) :
    (debounce_soonest t s.state b.CONFIG_BUTTON_COUNT ≠ 0 →
      (button_change_deferred b lvl t s).next_deferred_time =
          debounce_soonest t s.state b.CONFIG_BUTTON_COUNT ∧
        (button_change_deferred b lvl t s).button_change_deferred_data =
          hook_call_deferred t
            (uint64_to_int
              ((debounce_soonest t s.state b.CONFIG_BUTTON_COUNT : Int) - (t : Int))) ∧
        (debounce_soonest t s.state b.CONFIG_BUTTON_COUNT < t + 2 ^ 31 →
          (button_change_deferred b lvl t s).button_change_deferred_data =
            some (debounce_soonest t s.state b.CONFIG_BUTTON_COUNT))) ∧
    (debounce_soonest t s.state b.CONFIG_BUTTON_COUNT = 0 →
      (button_change_deferred b lvl t s).next_deferred_time = s.next_deferred_time ∧
        (button_change_deferred b lvl t s).button_change_deferred_data =
          s.button_change_deferred_data) := by
  have hf := button_change_loop_frame b lvl t b.CONFIG_BUTTON_COUNT (s, 0)
  have hs := button_change_loop_soonest b lvl t b.CONFIG_BUTTON_COUNT s
  constructor
  · intro h
    have hlt := ((debounce_soonest_spec t s.state b.CONFIG_BUTTON_COUNT).2 h).1
    simp only [button_change_deferred, hs, ne_eq, h, not_false_eq_true, if_true]
    exact ⟨trivial, trivial, fun hb => hook_call_deferred_narrowed t _ (le_of_lt hlt) hb⟩
  · intro h
    simp only [button_change_deferred, hs, h, ne_eq, not_true_eq_false, if_false]
    exact ⟨hf.1, hf.2.1⟩

/-- Every entry of the log of a tick is the notification of a button whose
deadline has elapsed and whose level has changed. -/
theorem mem_debounce_log (b : Board) (lvl : Nat → Bool) (t : Nat) (st : Nat → button_state_t)
    (n : Nat) (e : Nat × Effect) (he : e ∈ debounce_log b lvl t st n) :
    ∃ i, i < n ∧
      e = (t, Effect.keyboard_update_button i (b.buttons i).type
        (raw_button_pressed b lvl (b.buttons i))) := by
  induction n with
  | zero => simp [debounce_log] at he
  | succ n ih =>
    rw [debounce_log, List.mem_append] at he
    rcases he with he | he
    · obtain ⟨i, hi, h⟩ := ih he
      exact ⟨i, Nat.lt_succ_of_lt hi, h⟩
    · split_ifs at he
      · simp only [List.mem_singleton] at he
        exact ⟨n, Nat.lt_succ_self n, he⟩
      · simp at he

/-- The notifications of a tick come in configuration order. -/
theorem debounce_log_ordered (b : Board) (lvl : Nat → Bool) (t : Nat)
    (st : Nat → button_state_t) (n : Nat) :
    (debounce_log b lvl t st n).Pairwise (fun e e' =>
      ∃ i j ty ty' p p', i < j ∧ e.2 = Effect.keyboard_update_button i ty p ∧
        e'.2 = Effect.keyboard_update_button j ty' p') := by
  induction n with
  | zero => simp [debounce_log]
  | succ n ih =>
    rw [debounce_log, List.pairwise_append]
    refine ⟨ih, ?_, ?_⟩
    · split_ifs <;> simp
    · intro e he e' he'
      obtain ⟨i, hi, h⟩ := mem_debounce_log b lvl t st n e he
      split_ifs at he'
      · simp only [List.mem_singleton] at he'
        exact ⟨i, n, _, _, _, _, hi, by rw [h], by rw [he']⟩
      · simp at he'

/-! ### Claims C11 and C12 -/

/-- C11: `button_change_deferred` runs at `t` and appends `new` to the log.
Every entry of `new` is the notification `keyboard_update_button(type, level)`
of a configured button, and the entries come in configuration order.  For
every configured button `i`: if its `debounce_time` was non-zero and `<= t`,
it has `debounce_time` 0 and `debounced_pressed` equal to the level read in
this tick, and one notification carrying its type and that level is emitted
for it if the level differs from its previous `debounced_pressed`, none if it
does not; if its `debounce_time` was 0 or `> t`, its state is unchanged and
nothing is emitted for it. -/
theorem tick_resolves_elapsed_deadlines (b : Board) (lvl : Nat → Bool) (t : Nat) (s : EC) :
    ∃ new, (button_change_deferred b lvl t s).log = s.log ++ new ∧
      (∀ e ∈ new, ∃ i, i < b.CONFIG_BUTTON_COUNT ∧
        e = (t, Effect.keyboard_update_button i (b.buttons i).type
          (raw_button_pressed b lvl (b.buttons i)))) ∧
      new.Pairwise (fun e e' =>
        ∃ i j ty ty' p p', i < j ∧ e.2 = Effect.keyboard_update_button i ty p ∧
          e'.2 = Effect.keyboard_update_button j ty' p') ∧
      ∀ i, i < b.CONFIG_BUTTON_COUNT →
        (((s.state i).debounce_time ≠ 0 ∧ (s.state i).debounce_time ≤ t) →
          ((button_change_deferred b lvl t s).state i).debounce_time = 0 ∧
          ((button_change_deferred b lvl t s).state i).debounced_pressed =
            raw_button_pressed b lvl (b.buttons i) ∧
          notifications i new =
            if (s.state i).debounced_pressed ≠ raw_button_pressed b lvl (b.buttons i) then
              [(t, Effect.keyboard_update_button i (b.buttons i).type
                (raw_button_pressed b lvl (b.buttons i)))]
            else []) ∧
        (((s.state i).debounce_time = 0 ∨ t < (s.state i).debounce_time) →
          (button_change_deferred b lvl t s).state i = s.state i ∧
          notifications i new = []) := by
  refine ⟨debounce_log b lvl t s.state b.CONFIG_BUTTON_COUNT,
    button_change_deferred_log b lvl t s,
    fun e he => mem_debounce_log b lvl t s.state _ e he,
    debounce_log_ordered b lvl t s.state _, fun i hi => ⟨?_, ?_⟩⟩
  · rintro ⟨h0, h1⟩
    rw [button_change_deferred_state b lvl t s i hi, debounce_one_elapsed b lvl t i _ h0 h1,
      notifications_debounce_log]
    refine ⟨rfl, rfl, ?_⟩
    simp only [hi, h0, h1, ne_eq, not_false_eq_true, true_and]
  · intro h
    rw [button_change_deferred_state b lvl t s i hi, debounce_one_idle b lvl t i _ h,
      notifications_debounce_log]
    refine ⟨rfl, ?_⟩
    rw [if_neg]
    rintro ⟨-, h0, h1, -⟩
    rcases h with h | h
    · exact h0 h
    · omega

/-- A deadline is after `t` once the tick has run at `t` exactly when it was
after `t` before, and the tick has not touched it. -/
theorem debounce_one_live (b : Board) (lvl : Nat → Bool) (t i : Nat) (st : button_state_t) :
    (t < (debounce_one b lvl t i st).debounce_time ↔ t < st.debounce_time) ∧
    ((debounce_one b lvl t i st).debounce_time ≠ 0 →
      t < st.debounce_time ∧ debounce_one b lvl t i st = st) := by
  by_cases h0 : st.debounce_time = 0
  · rw [debounce_one_idle b lvl t i st (Or.inl h0)]
    exact ⟨Iff.rfl, fun h => absurd h0 h⟩
  · by_cases h1 : st.debounce_time ≤ t
    · rw [debounce_one_elapsed b lvl t i st h0 h1]
      refine ⟨⟨fun h => absurd h (Nat.not_lt_zero t), fun h => by omega⟩, fun h => absurd rfl h⟩
    · rw [debounce_one_idle b lvl t i st (Or.inr (by omega))]
      exact ⟨Iff.rfl, fun _ => ⟨by omega, rfl⟩⟩

/-- What a run of the tick from its slot does to `next_deferred_time` and to
the slot: with a deadline after `t` left, `next_deferred_time` is set to the
soonest one and the callback is scheduled with the difference converted to
`int`, hence for the soonest one if that is less than `2^31` ahead; otherwise
the slot stays empty and `next_deferred_time` is left alone. -/
theorem button_change_deferred_run_schedule (b : Board) (lvl : Nat → Bool) (t : Nat) (s : EC) :
    (debounce_soonest t s.state b.CONFIG_BUTTON_COUNT ≠ 0 →
      (button_change_deferred_run b lvl t s).next_deferred_time =
          debounce_soonest t s.state b.CONFIG_BUTTON_COUNT ∧
        (button_change_deferred_run b lvl t s).button_change_deferred_data =
          hook_call_deferred t
            (uint64_to_int
              ((debounce_soonest t s.state b.CONFIG_BUTTON_COUNT : Int) - (t : Int))) ∧
        (debounce_soonest t s.state b.CONFIG_BUTTON_COUNT < t + 2 ^ 31 →
          (button_change_deferred_run b lvl t s).button_change_deferred_data =
            some (debounce_soonest t s.state b.CONFIG_BUTTON_COUNT))) ∧
    (debounce_soonest t s.state b.CONFIG_BUTTON_COUNT = 0 →
      (button_change_deferred_run b lvl t s).next_deferred_time = s.next_deferred_time ∧
        (button_change_deferred_run b lvl t s).button_change_deferred_data = none) :=
  button_change_deferred_schedule b lvl t { s with button_change_deferred_data := none }

/-- C12: the scheduler runs `button_change_deferred` from its slot at `t`, in a
state in which every `debounce_time` is less than `2^31` microseconds ahead
(so that the delay fits the `int` parameter of `hook_call_deferred`).
Afterwards, if at least one configured button still has `debounce_time > t`,
`next_deferred_time` is the minimum such `debounce_time` and the callback has
been rescheduled with the delay `next_deferred_time - t`, which the conversion
to `int` keeps and which is positive, so it is due at that minimum; if no configured button has a `debounce_time`
after `t` (then none has a pending deadline at all), no debounce callback is
pending, and `next_deferred_time` is left as it was. -/
theorem tick_reschedules_for_soonest (b : Board) (lvl : Nat → Bool) (t : Nat) (s : EC)
    (hb : ∀ i, i < b.CONFIG_BUTTON_COUNT → (s.state i).debounce_time < t + 2 ^ 31) :
    ((∃ i, i < b.CONFIG_BUTTON_COUNT ∧
        t < ((button_change_deferred_run b lvl t s).state i).debounce_time) →
      (∃ i, i < b.CONFIG_BUTTON_COUNT ∧
        ((button_change_deferred_run b lvl t s).state i).debounce_time =
          (button_change_deferred_run b lvl t s).next_deferred_time) ∧
      (∀ i, i < b.CONFIG_BUTTON_COUNT →
        t < ((button_change_deferred_run b lvl t s).state i).debounce_time →
        (button_change_deferred_run b lvl t s).next_deferred_time ≤
          ((button_change_deferred_run b lvl t s).state i).debounce_time) ∧
      (button_change_deferred_run b lvl t s).button_change_deferred_data =
        hook_call_deferred t (uint64_to_int
          (((button_change_deferred_run b lvl t s).next_deferred_time : Int) - (t : Int))) ∧
      uint64_to_int
          (((button_change_deferred_run b lvl t s).next_deferred_time : Int) - (t : Int)) =
        ((button_change_deferred_run b lvl t s).next_deferred_time : Int) - (t : Int) ∧
      (0 : Int) < ((button_change_deferred_run b lvl t s).next_deferred_time : Int) - (t : Int) ∧
      (button_change_deferred_run b lvl t s).button_change_deferred_data =
        some (button_change_deferred_run b lvl t s).next_deferred_time) ∧
    ((∀ i, i < b.CONFIG_BUTTON_COUNT →
        ¬ t < ((button_change_deferred_run b lvl t s).state i).debounce_time) →
      (button_change_deferred_run b lvl t s).button_change_deferred_data = none ∧
      (button_change_deferred_run b lvl t s).next_deferred_time = s.next_deferred_time ∧
      ∀ i, i < b.CONFIG_BUTTON_COUNT →
        ((button_change_deferred_run b lvl t s).state i).debounce_time = 0) := by
  obtain ⟨hz, hnz⟩ := debounce_soonest_spec t s.state b.CONFIG_BUTTON_COUNT
  have hst : ∀ i, i < b.CONFIG_BUTTON_COUNT →
      (button_change_deferred_run b lvl t s).state i = debounce_one b lvl t i (s.state i) :=
    fun i hi => button_change_deferred_run_state b lvl t s i hi
  obtain ⟨hs1, hs2⟩ := button_change_deferred_run_schedule b lvl t s
  constructor
  · rintro ⟨i, hi, hlive⟩
    rw [hst i hi, (debounce_one_live b lvl t i _).1] at hlive
    have hr : debounce_soonest t s.state b.CONFIG_BUTTON_COUNT ≠ 0 := by
      intro h0
      have := hz.mp h0 i hi
      omega
    obtain ⟨h1, ⟨k, hk, hkeq⟩, h3⟩ := hnz hr
    obtain ⟨g1, g2, g3⟩ := hs1 hr
    have hsb : debounce_soonest t s.state b.CONFIG_BUTTON_COUNT < t + 2 ^ 31 := by
      rw [← hkeq]; exact hb k hk
    have g3 := g3 hsb
    refine ⟨⟨k, hk, ?_⟩, fun j hj hjl => ?_, ?_, ?_, ?_, ?_⟩
    · rw [g1, hst k hk, debounce_one_idle b lvl t k _ (Or.inr (by omega)), hkeq]
    · rw [hst j hj] at hjl ⊢
      have hjl' := (debounce_one_live b lvl t j _).1.mp hjl
      rw [debounce_one_idle b lvl t j _ (Or.inr hjl'), g1]
      exact h3 j hj hjl'
    · rw [g2, g1]
    · rw [g1]
      exact uint64_to_int_small _ (by omega) (by push_cast at hsb ⊢; omega)
    · rw [g1]; omega
    · rw [g3, g1]
  · intro hnone
    have hr : debounce_soonest t s.state b.CONFIG_BUTTON_COUNT = 0 := by
      apply hz.mpr
      intro i hi
      have := hnone i hi
      rw [hst i hi, (debounce_one_live b lvl t i _).1] at this
      omega
    obtain ⟨g1, g2⟩ := hs2 hr
    refine ⟨g2, g1, fun i hi => ?_⟩
    by_contra hne
    have := hnone i hi
    rw [hst i hi] at this hne
    exact this ((debounce_one_live b lvl t i _).1.mpr ((debounce_one_live b lvl t i _).2 hne).1)

/-- Witness of C12 on the two-button board, after raw edges on the volume-up
line at 20 and 40: the tick at 30020 finds the deadline 30040 pending and
reschedules for it; the tick at 30040 resolves it and leaves no callback
pending. -/
theorem tick_reschedules_for_soonest_witness :
    (button_change_deferred_run demo_board (fun _ => false) 30020
        bounce_state).button_change_deferred_data =
      some (button_change_deferred_run demo_board (fun _ => false) 30020
        bounce_state).next_deferred_time ∧
    (button_change_deferred_run demo_board (fun _ => false) 30040
        (button_change_deferred_run demo_board (fun _ => false) 30020
          bounce_state)).button_change_deferred_data = none :=
  ⟨((tick_reschedules_for_soonest demo_board (fun _ => false) 30020 bounce_state
      (by decide)).1 ⟨0, by decide, by decide⟩).2.2.2.2.2,
   ((tick_reschedules_for_soonest demo_board (fun _ => false) 30040
      (button_change_deferred_run demo_board (fun _ => false) 30020 bounce_state)
      (by decide)).2 (by decide)).1⟩

/-! ## The state after `button_init` -/

/-- The loop of `button_init` writes only button states and the log; buttons
`0, ..., n - 1` get the level read and no pending deadline. -/
theorem button_init_loop_fields (b : Board) (env : BootEnv) (n : Nat) (s : EC) :
    (button_init_loop b env n s).next_deferred_time = s.next_deferred_time ∧
    (button_init_loop b env n s).button_change_deferred_data = s.button_change_deferred_data ∧
    (button_init_loop b env n s).curr_debug_state = s.curr_debug_state ∧
    (button_init_loop b env n s).next_debug_state = s.next_debug_state ∧
    (button_init_loop b env n s).debug_state_deadline = s.debug_state_deadline ∧
    (button_init_loop b env n s).debug_button_hit_count = s.debug_button_hit_count ∧
    (button_init_loop b env n s).debug_mode_handle_data = s.debug_mode_handle_data ∧
    ∀ j, (button_init_loop b env n s).state j =
      if j < n then
        { debounce_time := 0,
          debounced_pressed := raw_button_pressed b env.init_level (b.buttons j) }
      else s.state j := by
  induction n with
  | zero => simp [button_init_loop]
  | succ n ih =>
    obtain ⟨h1, h2, h3, h4, h5, h6, h7, h8⟩ := ih
    simp only [button_init_loop]
    refine ⟨h1, h2, h3, h4, h5, h6, h7, fun j => ?_⟩
    by_cases hj : j = n
    · subst hj
      simp [set_state]
    · by_cases hlt : j < n
      · have : j < n + 1 := by omega
        simp [set_state, hj, hlt, this, h8 j]
      · have : ¬ j < n + 1 := by omega
        simp [set_state, hj, hlt, this, h8 j]

/-- The LED routine writes only the log. -/
theorem button_blink_loop_frame (deadline : Nat) (clock : List Nat) :
    ∀ (led : ec_led_state) (now : Nat) (s : EC),
      ∃ log, (button_blink_loop deadline led now clock s).ec = { s with log := log } := by
  induction clock with
  | nil =>
    intro led now s
    simp only [button_blink_loop]
    split_ifs
    · exact ⟨_, rfl⟩
    · exact ⟨s.log, rfl⟩
  | cons t clock ih =>
    intro led now s
    simp only [button_blink_loop]
    split_ifs
    · exact ⟨_, rfl⟩
    · obtain ⟨log, h⟩ := ih (led_not led) t
        { s with log := s.log ++
            [(now, Effect.led_control EC_LED_ID_RECOVERY_HW_REINIT_LED led),
             (now, Effect.watchdog_reload), (now, Effect.msleep 100)] }
      exact ⟨log, h⟩

/-- The hardware-reinit check writes only the log. -/
theorem button_check_hw_reinit_loop_frame (b : Board) (deadline : Nat) (blink : List Nat)
    (polls : List Poll) :
    ∀ (now : Nat) (s : EC),
      ∃ log, (button_check_hw_reinit_loop b deadline blink now polls s).ec =
        { s with log := log } := by
  have hreq : ∀ (now : Nat) (s : EC),
      ∃ log, (button_hw_reinit_requested b now blink s).ec = { s with log := log } := by
    intro now s
    simp only [button_hw_reinit_requested]
    split_ifs
    · cases blink with
      | nil => exact ⟨_, rfl⟩
      | cons t0 clock =>
        obtain ⟨log, h⟩ := button_blink_loop_frame (t0 + 3 * SECOND) clock LED_STATE_ON t0
          { s with log := s.log ++
            [(now, Effect.host_set_single_event EC_HOST_EVENT_KEYBOARD_RECOVERY_HW_REINIT)] }
        exact ⟨log, h⟩
    · exact ⟨_, rfl⟩
  induction polls with
  | nil =>
    intro now s
    simp only [button_check_hw_reinit_loop]
    split_ifs
    · exact hreq now s
    · exact ⟨s.log, rfl⟩
  | cons p polls ih =>
    intro now s
    simp only [button_check_hw_reinit_loop]
    split_ifs
    · exact hreq now s
    · exact ⟨s.log, rfl⟩
    · obtain ⟨log, h⟩ := ih p.get_time
        { s with log := s.log ++ [(p.get_time, Effect.watchdog_reload)] }
      exact ⟨log, h⟩

/-- After `button_init`, `next_deferred_time` is 0, every configured button
has the level read and no pending deadline, and the deferred slots and the
diagnostic state machine are as before. -/
theorem button_init_fields (b : Board) (env : BootEnv) (s : EC) :
    (button_init b env s).ec.next_deferred_time = 0 ∧
    (button_init b env s).ec.button_change_deferred_data = s.button_change_deferred_data ∧
    (button_init b env s).ec.debug_mode_handle_data = s.debug_mode_handle_data ∧
    (button_init b env s).ec.curr_debug_state = s.curr_debug_state ∧
    ∀ j, (button_init b env s).ec.state j =
      if j < b.CONFIG_BUTTON_COUNT then
        { debounce_time := 0,
          debounced_pressed := raw_button_pressed b env.init_level (b.buttons j) }
      else s.state j := by
  obtain ⟨h1, h2, h3, -, -, -, h7, h8⟩ :=
    button_init_loop_fields b env b.CONFIG_BUTTON_COUNT { s with next_deferred_time := 0 }
  simp only [button_init]
  split_ifs
  · obtain ⟨log, h⟩ := button_check_hw_reinit_loop_frame b (env.get_time + 20 * SECOND)
      env.blink env.polls env.get_time
      { (button_init_loop b env b.CONFIG_BUTTON_COUNT { s with next_deferred_time := 0 }) with
        log := (button_init_loop b env b.CONFIG_BUTTON_COUNT
            { s with next_deferred_time := 0 }).log ++
          [(env.get_time, Effect.host_set_single_event EC_HOST_EVENT_KEYBOARD_RECOVERY)] }
    simp only [button_check_hw_reinit_required]
    rw [h]
    exact ⟨h1, h2, h7, h3, h8⟩
  · exact ⟨h1, h2, h7, h3, h8⟩

/-! ## The invariant of `next_deferred_time` under a timely scheduler -/

/-- One event preserves the invariant: when no tick is pending, no configured
button has a pending deadline and `next_deferred_time` is not in the future;
when a tick is pending, it is due at `next_deferred_time`, which is not in the
past and not after any pending deadline; and no deadline is further ahead than
the debounce interval of its button, which is below `2^31`. -/
theorem timely_invariant_step (b : Board) (r r' : ButtonRun) (ev : ButtonEvent)
    (hnone : r.ec.button_change_deferred_data = none →
      (∀ i, i < b.CONFIG_BUTTON_COUNT → (r.ec.state i).debounce_time = 0) ∧
        r.ec.next_deferred_time ≤ r.clock)
    (hsome : ∀ d, r.ec.button_change_deferred_data = some d →
      r.ec.next_deferred_time = d ∧ r.clock ≤ d ∧
        ∀ i, i < b.CONFIG_BUTTON_COUNT → (r.ec.state i).debounce_time ≠ 0 →
          d ≤ (r.ec.state i).debounce_time)
    (hdl : ∀ i, i < b.CONFIG_BUTTON_COUNT →
      (r.ec.state i).debounce_time ≤ r.clock + (b.buttons i).debounce_us)
    (hB : ∀ i, i < b.CONFIG_BUTTON_COUNT → (b.buttons i).debounce_us < 2 ^ 31)
    (hstep : button_step_timely b r ev = some r') :
    (r'.ec.button_change_deferred_data = none →
      (∀ i, i < b.CONFIG_BUTTON_COUNT → (r'.ec.state i).debounce_time = 0) ∧
        r'.ec.next_deferred_time ≤ r'.clock) ∧
    (∀ d, r'.ec.button_change_deferred_data = some d →
      r'.ec.next_deferred_time = d ∧ r'.clock ≤ d ∧
        ∀ i, i < b.CONFIG_BUTTON_COUNT → (r'.ec.state i).debounce_time ≠ 0 →
          d ≤ (r'.ec.state i).debounce_time) ∧
    (∀ i, i < b.CONFIG_BUTTON_COUNT →
      (r'.ec.state i).debounce_time ≤ r'.clock + (b.buttons i).debounce_us) := by
  cases ev with
  | interrupt signal t =>
    simp only [button_step_timely] at hstep
    split_ifs at hstep with hv
    obtain ⟨hct, hdue⟩ := hv
    simp only [Option.some.injEq] at hstep
    subst hstep
    simp only
    rcases button_interrupt_loop_cases b signal t b.CONFIG_BUTTON_COUNT 0 r.ec with
      ⟨-, heq⟩ | ⟨k, -, hk, -, -, heq⟩
    · -- no button on the line
      have heq' : button_interrupt b signal t r.ec = r.ec := heq
      rw [heq']
      refine ⟨fun h => ⟨(hnone h).1, le_trans (hnone h).2 hct⟩, fun d hd => ?_,
        fun i hi => le_trans (hdl i hi) (by omega)⟩
      obtain ⟨h1, -, h3⟩ := hsome d hd
      exact ⟨h1, le_of_lt (hdue d hd), h3⟩
    · -- button `k` is on the line
      have heq' : button_interrupt b signal t r.ec = button_interrupt_body b t k r.ec := heq
      rw [heq']
      obtain ⟨hs1, hs2⟩ := button_interrupt_body_schedule b t k r.ec
      have hstate : ∀ i, ((button_interrupt_body b t k r.ec).state i).debounce_time =
          if i = k then t + (b.buttons k).debounce_us else (r.ec.state i).debounce_time := by
        intro i
        rw [button_interrupt_body_state]
        split_ifs <;> rfl
      have hkB := hB k (by omega)
      have hdl' : ∀ i, i < b.CONFIG_BUTTON_COUNT →
          ((button_interrupt_body b t k r.ec).state i).debounce_time ≤
            t + (b.buttons i).debounce_us := by
        intro i hi
        rw [hstate]
        by_cases hik : i = k
        · simp [hik]
        · simp only [hik, if_false]
          exact le_trans (hdl i hi) (by omega)
      by_cases hc : r.ec.next_deferred_time ≤ t ∨
          r.ec.next_deferred_time > t + (b.buttons k).debounce_us
      · obtain ⟨g1, g2⟩ := hs1 hc
        rw [hook_call_deferred_narrowed t _ (Nat.le_add_right _ _) (by omega)] at g2
        refine ⟨fun h => ?_, fun d hd => ?_, hdl'⟩
        · rw [g2] at h
          exact absurd h (by simp)
        · rw [g2] at hd
          simp only [Option.some.injEq] at hd
          subst hd
          refine ⟨g1, Nat.le_add_right _ _, fun i hi hne => ?_⟩
          rw [hstate] at hne ⊢
          by_cases hik : i = k
          · simp [hik]
          · simp only [hik, if_false] at hne ⊢
            cases hsl : r.ec.button_change_deferred_data with
            | none => exact absurd ((hnone hsl).1 i hi) hne
            | some d0 =>
              obtain ⟨h1, -, h3⟩ := hsome d0 hsl
              have := h3 i hi hne
              have hlt := hdue d0 hsl
              rcases hc with hc | hc
              · omega
              · omega
      · obtain ⟨g1, g2⟩ := hs2 hc
        have hc1 : t < r.ec.next_deferred_time := by
          by_contra h
          exact hc (Or.inl (by omega))
        have hc2 : r.ec.next_deferred_time ≤ t + (b.buttons k).debounce_us := by
          by_contra h
          exact hc (Or.inr (by omega))
        refine ⟨fun h => ?_, fun d hd => ?_, hdl'⟩
        · rw [g2] at h
          have := (hnone h).2
          omega
        · rw [g2] at hd
          obtain ⟨h1, -, h3⟩ := hsome d hd
          refine ⟨g1.trans h1, le_of_lt (hdue d hd), fun i hi hne => ?_⟩
          rw [hstate] at hne ⊢
          by_cases hik : i = k
          · simp only [hik, if_true]
            omega
          · simp only [hik, if_false] at hne ⊢
            exact h3 i hi hne
  | tick lvl t =>
    simp only [button_step_timely] at hstep
    split_ifs at hstep with hv
    obtain ⟨hct, hdue⟩ := hv
    simp only [Option.some.injEq] at hstep
    subst hstep
    simp only
    obtain ⟨hz, hnz⟩ := debounce_soonest_spec t r.ec.state b.CONFIG_BUTTON_COUNT
    obtain ⟨hs1, hs2⟩ := button_change_deferred_run_schedule b lvl t r.ec
    have hst : ∀ i, i < b.CONFIG_BUTTON_COUNT →
        (button_change_deferred_run b lvl t r.ec).state i =
          debounce_one b lvl t i (r.ec.state i) :=
      fun i hi => button_change_deferred_run_state b lvl t r.ec i hi
    have hdl' : ∀ i, i < b.CONFIG_BUTTON_COUNT →
        ((button_change_deferred_run b lvl t r.ec).state i).debounce_time ≤
          t + (b.buttons i).debounce_us := by
      intro i hi
      rw [hst i hi]
      by_cases h0 : ((debounce_one b lvl t i (r.ec.state i)).debounce_time = 0)
      · rw [h0]; exact Nat.zero_le _
      · rw [((debounce_one_live b lvl t i _).2 h0).2]
        exact le_trans (hdl i hi) (by omega)
    by_cases hr : debounce_soonest t r.ec.state b.CONFIG_BUTTON_COUNT = 0
    · obtain ⟨g1, g2⟩ := hs2 hr
      refine ⟨fun _ => ⟨fun i hi => ?_, ?_⟩, fun d hd => ?_, hdl'⟩
      · by_contra hne
        rw [hst i hi] at hne
        have h1 := ((debounce_one_live b lvl t i _).2 hne).1
        have h2 := hz.mp hr i hi
        omega
      · rw [g1, (hsome t hdue).1]
      · rw [g2] at hd
        exact absurd hd (by simp)
    · obtain ⟨g1, -, g3⟩ := hs1 hr
      obtain ⟨h1, ⟨j, hj, hjeq⟩, h3⟩ := hnz hr
      have g3 := g3 (by
        rw [← hjeq]
        have e1 := hdl j hj
        have e2 := hB j hj
        omega)
      refine ⟨fun h => ?_, fun d hd => ?_, hdl'⟩
      · rw [g3] at h
        exact absurd h (by simp)
      · rw [g3] at hd
        simp only [Option.some.injEq] at hd
        subst hd
        refine ⟨g1, le_of_lt h1, fun i hi hne => ?_⟩
        rw [hst i hi] at hne ⊢
        obtain ⟨hl, he⟩ := (debounce_one_live b lvl t i _).2 hne
        rw [he]
        exact h3 i hi hl

/-- The invariant of `timely_invariant_step` along an execution. -/
theorem timely_invariant_run (b : Board) (evs : List ButtonEvent) :
    ∀ (r r' : ButtonRun),
    (r.ec.button_change_deferred_data = none →
      (∀ i, i < b.CONFIG_BUTTON_COUNT → (r.ec.state i).debounce_time = 0) ∧
        r.ec.next_deferred_time ≤ r.clock) →
    (∀ d, r.ec.button_change_deferred_data = some d →
      r.ec.next_deferred_time = d ∧ r.clock ≤ d ∧
        ∀ i, i < b.CONFIG_BUTTON_COUNT → (r.ec.state i).debounce_time ≠ 0 →
          d ≤ (r.ec.state i).debounce_time) →
    (∀ i, i < b.CONFIG_BUTTON_COUNT →
      (r.ec.state i).debounce_time ≤ r.clock + (b.buttons i).debounce_us) →
    (∀ i, i < b.CONFIG_BUTTON_COUNT → (b.buttons i).debounce_us < 2 ^ 31) →
    button_run_timely b r evs = some r' →
    (r'.ec.button_change_deferred_data = none →
      (∀ i, i < b.CONFIG_BUTTON_COUNT → (r'.ec.state i).debounce_time = 0) ∧
        r'.ec.next_deferred_time ≤ r'.clock) ∧
    (∀ d, r'.ec.button_change_deferred_data = some d →
      r'.ec.next_deferred_time = d ∧ r'.clock ≤ d ∧
        ∀ i, i < b.CONFIG_BUTTON_COUNT → (r'.ec.state i).debounce_time ≠ 0 →
          d ≤ (r'.ec.state i).debounce_time) := by
  induction evs with
  | nil =>
    intro r r' hnone hsome _ _ hrun
    simp only [button_run_timely, Option.some.injEq] at hrun
    subst hrun
    exact ⟨hnone, hsome⟩
  | cons ev evs ih =>
    intro r r' hnone hsome hdl hB hrun
    simp only [button_run_timely] at hrun
    cases hstep : button_step_timely b r ev with
    | none => simp [hstep] at hrun
    | some r1 =>
      simp only [hstep] at hrun
      obtain ⟨h1, h2, h3⟩ := timely_invariant_step b r r1 ev hnone hsome hdl hB hstep
      exact ih r1 r' h1 h2 h3 hB hrun

/-! ### Claim C13 -/

/-- C13 (as amended): on a board whose buttons all have a `debounce_us` below
`2^31` (so that every delay fits the `int` parameter of `hook_call_deferred`),
in every state reachable from `button_init` by `button_interrupt` calls and
runs of the tick at the time it is due (the tick running before any interrupt
that comes at or after that time),
`next_deferred_time` is `<=` the `debounce_time` of every configured button
with a pending (non-zero) deadline, hence `<=` their minimum.  It is not reset
to 0 when no button has a pending deadline: when no tick is pending, no
configured button has a pending deadline and `next_deferred_time` is a time
that is not in the future; when a tick is pending, `next_deferred_time` is the
time it is due. -/
theorem next_deferred_time_invariant (b : Board) (env : BootEnv) (s0 : EC) (c : Nat)
    (evs : List ButtonEvent) (r : ButtonRun)
    (hslot : s0.button_change_deferred_data = none)
    (hB : ∀ i, i < b.CONFIG_BUTTON_COUNT → (b.buttons i).debounce_us < 2 ^ 31)
    (hrun : button_run_timely b { clock := c, ec := (button_init b env s0).ec } evs = some r) :
    (∀ i, i < b.CONFIG_BUTTON_COUNT → (r.ec.state i).debounce_time ≠ 0 →
      r.ec.next_deferred_time ≤ (r.ec.state i).debounce_time) ∧
    (r.ec.button_change_deferred_data = none →
      (∀ i, i < b.CONFIG_BUTTON_COUNT → (r.ec.state i).debounce_time = 0) ∧
        r.ec.next_deferred_time ≤ r.clock) ∧
    (∀ d, r.ec.button_change_deferred_data = some d → r.ec.next_deferred_time = d) := by
  obtain ⟨h1, h2, -, -, h5⟩ := button_init_fields b env s0
  have hinit : (button_init b env s0).ec.button_change_deferred_data = none := h2.trans hslot
  obtain ⟨hnone, hsome⟩ := timely_invariant_run b evs
    { clock := c, ec := (button_init b env s0).ec } r
    (fun _ => ⟨fun i hi => by simp [h5 i, hi], by simp [h1]⟩)
    (fun d hd => by simp [hinit] at hd) (fun i hi => by simp [h5 i, hi]) hB hrun
  refine ⟨fun i hi hne => ?_, hnone, fun d hd => (hsome d hd).1⟩
  cases hsl : r.ec.button_change_deferred_data with
  | none => exact absurd ((hnone hsl).1 i hi) hne
  | some d =>
    obtain ⟨g1, -, g3⟩ := hsome d hsl
    rw [g1]
    exact g3 i hi hne

/-- Witness of C13 on the two-button board: after `button_init`, raw edges on
the volume-up line at 20 and 40 and the tick at 30020, which is rescheduled
for the deadline 30040. -/
theorem next_deferred_time_invariant_witness :
    (∀ i, i < demo_board.CONFIG_BUTTON_COUNT →
      ((button_change_deferred_run demo_board (fun _ => true) 30020
        (button_interrupt demo_board 10 40 (button_interrupt demo_board 10 20
          (button_init demo_board plain_boot EC.boot).ec))).state i).debounce_time ≠ 0 →
      (button_change_deferred_run demo_board (fun _ => true) 30020
        (button_interrupt demo_board 10 40 (button_interrupt demo_board 10 20
          (button_init demo_board plain_boot EC.boot).ec))).next_deferred_time ≤
      ((button_change_deferred_run demo_board (fun _ => true) 30020
        (button_interrupt demo_board 10 40 (button_interrupt demo_board 10 20
          (button_init demo_board plain_boot EC.boot).ec))).state i).debounce_time) ∧
    (button_change_deferred_run demo_board (fun _ => true) 30020
        (button_interrupt demo_board 10 40 (button_interrupt demo_board 10 20
          (button_init demo_board plain_boot EC.boot).ec))).next_deferred_time = 30040 :=
  ⟨(next_deferred_time_invariant demo_board plain_boot EC.boot 0
      [ButtonEvent.interrupt 10 20, ButtonEvent.interrupt 10 40,
       ButtonEvent.tick (fun _ => true) 30020]
      { clock := 30020,
        ec := button_change_deferred_run demo_board (fun _ => true) 30020
          (button_interrupt demo_board 10 40 (button_interrupt demo_board 10 20
            (button_init demo_board plain_boot EC.boot).ec)) }
      rfl (by decide) rfl).1,
   (next_deferred_time_invariant demo_board plain_boot EC.boot 0
      [ButtonEvent.interrupt 10 20, ButtonEvent.interrupt 10 40,
       ButtonEvent.tick (fun _ => true) 30020]
      { clock := 30020,
        ec := button_change_deferred_run demo_board (fun _ => true) 30020
          (button_interrupt demo_board 10 40 (button_interrupt demo_board 10 20
            (button_init demo_board plain_boot EC.boot).ec)) }
      rfl (by decide) rfl).2.2 30040 (by decide)⟩

/-- C13 as stated fails on the two-button board, from the state after
`button_init`.  (1) After a raw edge on the volume-up line at 20 and the tick
at 30020, which resolves it, no button has a pending deadline and no tick is
pending, yet `next_deferred_time` is 30020, not 0.  (2) With the tick running
late: after a raw edge on the volume-up line at 10 and one on the volume-down
line at 40000, volume-up has the pending deadline 30010 and
`next_deferred_time` is 70000, which is not `<=` it. -/
theorem next_deferred_time_not_reset :
    (button_run_timely demo_board
        { clock := 0, ec := (button_init demo_board plain_boot EC.boot).ec }
        [ButtonEvent.interrupt 10 20, ButtonEvent.tick (fun _ => true) 30020]).map
      (fun r => (r.ec.next_deferred_time, (r.ec.state 0).debounce_time,
        (r.ec.state 1).debounce_time, r.ec.button_change_deferred_data)) =
      some (30020, 0, 0, none) ∧
    (30020 : Nat) ≠ 0 ∧
    ((button_run demo_board (button_init demo_board plain_boot EC.boot).ec
        [ButtonEvent.interrupt 10 10, ButtonEvent.interrupt 11 40000]).next_deferred_time,
      ((button_run demo_board (button_init demo_board plain_boot EC.boot).ec
        [ButtonEvent.interrupt 10 10, ButtonEvent.interrupt 11 40000]).state 0).debounce_time) =
      (70000, 30010) ∧
    ¬ ((70000 : Nat) ≤ 30010) := by
  decide

/-! ## General facts about `debug_mode_transition` and `debug_mode_handle` -/

/-- The loop that sends the simulated sysrq signals makes no `chipset_reset`
call. -/
theorem reset_calls_send_sysrq_loop (now : Nat) (n : Nat) :
    ∀ log, reset_calls (send_sysrq_loop now n log) = reset_calls log := by
  induction n with
  | zero => intro log; rfl
  | succ n ih =>
    intro log
    simp only [send_sysrq_loop]
    rw [ih]
    simp [reset_calls]

/-- The fields of the diagnostic state machine after
`debug_mode_transition(next_state)`, in terms of the state the routine leaves
the machine in. -/
theorem debug_mode_transition_fields (b : Board) (now : Nat) (st : debug_state) (s : EC) :
    (debug_mode_transition b now st s).next_debug_state =
      (if (debug_mode_transition b now st s).curr_debug_state = STATE_DEBUG_NONE
        then STATE_DEBUG_NONE else s.next_debug_state) ∧
    (debug_mode_transition b now st s).debug_state_deadline =
      (if (debug_mode_transition b now st s).curr_debug_state = STATE_DEBUG_NONE
        then 0 else now + DEBUG_TIMEOUT) ∧
    (debug_mode_transition b now st s).debug_button_hit_count =
      (if (debug_mode_transition b now st s).curr_debug_state = STATE_DEBUG_NONE then 0
        else if st = STATE_DEBUG_MODE_ACTIVE then 0
        else if st = STATE_SYSRQ_PATH then s.debug_button_hit_count + 1
        else s.debug_button_hit_count) ∧
    (debug_mode_transition b now st s).debug_mode_handle_data =
      (if st = STATE_DEBUG_CHECK ∨ st = STATE_STAGING then some (now + DEBUG_TIMEOUT)
        else none) := by
  cases st
  case STATE_SYSRQ_PATH =>
    by_cases h3 : s.debug_button_hit_count = 3
    · simp [debug_mode_transition, h3, hook_call_deferred_cancel]
    · simp [debug_mode_transition, h3, hook_call_deferred_cancel]
  all_goals simp [debug_mode_transition, hook_call_deferred_cancel, hook_call_deferred_delay]

/-- The routine `debug_mode_transition` writes neither the button states, nor
`next_deferred_time`, nor the slot of the debounce callback. -/
theorem debug_mode_transition_frame (b : Board) (now : Nat) (st : debug_state) (s : EC) :
    (debug_mode_transition b now st s).state = s.state ∧
    (debug_mode_transition b now st s).next_deferred_time = s.next_deferred_time ∧
    (debug_mode_transition b now st s).button_change_deferred_data =
      s.button_change_deferred_data := by
  cases st
  case STATE_SYSRQ_PATH =>
    by_cases h3 : s.debug_button_hit_count = 3
    · simp [debug_mode_transition, h3]
    · simp [debug_mode_transition, h3]
  all_goals simp [debug_mode_transition]

/-- The `chipset_reset` and `host_send_sysrq` calls of
`debug_mode_transition`: one reset when the target is
`STATE_WARM_RESET_EXEC`, one sysrq per hit when it is `STATE_SYSRQ_EXEC`, none
otherwise. -/
theorem debug_mode_transition_calls (b : Board) (now : Nat) (st : debug_state) (s : EC) :
    reset_calls (debug_mode_transition b now st s).log =
      reset_calls s.log + (if st = STATE_WARM_RESET_EXEC then 1 else 0) ∧
    sysrq_calls (debug_mode_transition b now st s).log =
      sysrq_calls s.log + (if st = STATE_SYSRQ_EXEC then s.debug_button_hit_count else 0) := by
  have hled : ∀ (c : Prop) [Decidable c] (log : List (Nat × Effect)),
      reset_calls (if c then log ++
          [(now, Effect.led_control EC_LED_ID_SYSRQ_DEBUG_LED LED_STATE_RESET)] else log) =
        reset_calls log ∧
      sysrq_calls (if c then log ++
          [(now, Effect.led_control EC_LED_ID_SYSRQ_DEBUG_LED LED_STATE_RESET)] else log) =
        sysrq_calls log := by
    intro c _ log
    split_ifs <;> simp [reset_calls, sysrq_calls]
  cases st
  case STATE_SYSRQ_PATH =>
    by_cases h3 : s.debug_button_hit_count = 3
    · simp [debug_mode_transition, h3, hled]
    · simp [debug_mode_transition, h3]
  case STATE_WARM_RESET_EXEC =>
    simp only [debug_mode_transition]
    split_ifs <;> simp_all [reset_calls, sysrq_calls]
  all_goals simp [debug_mode_transition, hled, reset_calls_send_sysrq_loop,
    sysrq_calls_send_sysrq_loop, reset_calls_append, sysrq_calls_append]

/-- What `debug_mode_handle` does, branch by branch: nothing, the
rescheduling of `STATE_STAGING`, or one call of `debug_mode_transition`, with
the state and the mask each branch needs. -/
theorem debug_mode_handle_cases (b : Board) (mask now : Nat) (s : EC) :
    (s.curr_debug_state ≠ STATE_STAGING ∧ debug_mode_handle b mask now s = s) ∨
    (s.curr_debug_state = STATE_STAGING ∧ mask ≠ 0 ∧
      timestamp_expired s.debug_state_deadline now = false ∧
      debug_mode_handle b mask now s =
        { s with debug_mode_handle_data :=
            hook_call_deferred now ((s.debug_state_deadline : Int) - (now : Int)) }) ∨
    (s.curr_debug_state = STATE_DEBUG_NONE ∧
      debug_mode_handle b mask now s = debug_mode_transition b now STATE_DEBUG_CHECK s) ∨
    (s.curr_debug_state ≠ STATE_DEBUG_NONE ∧
      debug_mode_handle b mask now s = debug_mode_transition b now STATE_DEBUG_NONE s) ∨
    (s.curr_debug_state = STATE_DEBUG_CHECK ∧
      debug_mode_handle b mask now s = debug_mode_transition b now STATE_STAGING
        { s with next_debug_state := STATE_DEBUG_MODE_ACTIVE }) ∨
    (s.curr_debug_state = STATE_STAGING ∧ mask = 0 ∧
      debug_mode_handle b mask now s = debug_mode_transition b now s.next_debug_state s) ∨
    ((s.curr_debug_state = STATE_DEBUG_MODE_ACTIVE ∨ s.curr_debug_state = STATE_SYSRQ_PATH) ∧
      mask = DEBUG_BTN_VOL_UP ∧
      debug_mode_handle b mask now s = debug_mode_transition b now STATE_STAGING
        { s with next_debug_state := STATE_SYSRQ_PATH }) ∨
    (s.curr_debug_state = STATE_DEBUG_MODE_ACTIVE ∧ mask = DEBUG_BTN_VOL_DN ∧
      debug_mode_handle b mask now s = debug_mode_transition b now STATE_STAGING
        { s with next_debug_state := STATE_WARM_RESET_PATH }) ∨
    (s.curr_debug_state = STATE_SYSRQ_PATH ∧ mask = DEBUG_BTN_VOL_DN ∧
      debug_mode_handle b mask now s = debug_mode_transition b now STATE_STAGING
        { s with next_debug_state := STATE_SYSRQ_EXEC }) ∨
    (s.curr_debug_state = STATE_WARM_RESET_PATH ∧ mask = DEBUG_BTN_VOL_UP ∧
      debug_mode_handle b mask now s = debug_mode_transition b now STATE_STAGING
        { s with next_debug_state := STATE_WARM_RESET_EXEC }) := by
  unfold debug_mode_handle
  cases hc : s.curr_debug_state <;> simp only [] <;> (try split_ifs) <;> simp_all

/-- The routine `debug_mode_handle` writes neither the button states, nor
`next_deferred_time`, nor the slot of the debounce callback. -/
theorem debug_mode_handle_frame (b : Board) (mask now : Nat) (s : EC) :
    (debug_mode_handle b mask now s).state = s.state ∧
    (debug_mode_handle b mask now s).next_deferred_time = s.next_deferred_time ∧
    (debug_mode_handle b mask now s).button_change_deferred_data =
      s.button_change_deferred_data := by
  rcases debug_mode_handle_cases b mask now s with ⟨-, h⟩ | ⟨-, -, -, h⟩ | ⟨-, h⟩ | ⟨-, h⟩ |
    ⟨-, h⟩ | ⟨-, -, h⟩ | ⟨-, -, h⟩ | ⟨-, -, h⟩ | ⟨-, -, h⟩ | ⟨-, -, h⟩
  · rw [h]; exact ⟨rfl, rfl, rfl⟩
  · rw [h]; exact ⟨rfl, rfl, rfl⟩
  all_goals rw [h]; exact debug_mode_transition_frame b now _ _

/-- The machine is cleared: in `STATE_DEBUG_NONE` the pending next state is
`STATE_DEBUG_NONE`, the deadline is 0 and the hit counter is 0.  One run of
`debug_mode_handle` keeps it so. -/
theorem debug_mode_handle_cleared (b : Board) (mask now : Nat) (s : EC)
    (hs : s.curr_debug_state = STATE_DEBUG_NONE →
      s.next_debug_state = STATE_DEBUG_NONE ∧ s.debug_state_deadline = 0 ∧
        s.debug_button_hit_count = 0) :
    (debug_mode_handle b mask now s).curr_debug_state = STATE_DEBUG_NONE →
      (debug_mode_handle b mask now s).next_debug_state = STATE_DEBUG_NONE ∧
      (debug_mode_handle b mask now s).debug_state_deadline = 0 ∧
      (debug_mode_handle b mask now s).debug_button_hit_count = 0 := by
  have key : ∀ (st : debug_state) (s1 : EC),
      (debug_mode_transition b now st s1).curr_debug_state = STATE_DEBUG_NONE →
      (debug_mode_transition b now st s1).next_debug_state = STATE_DEBUG_NONE ∧
      (debug_mode_transition b now st s1).debug_state_deadline = 0 ∧
      (debug_mode_transition b now st s1).debug_button_hit_count = 0 := by
    intro st s1 h
    obtain ⟨h1, h2, h3, -⟩ := debug_mode_transition_fields b now st s1
    rw [h1, h2, h3]
    simp [h]
  rcases debug_mode_handle_cases b mask now s with ⟨-, h⟩ | ⟨hc, -, -, h⟩ | ⟨-, h⟩ | ⟨-, h⟩ |
    ⟨-, h⟩ | ⟨-, -, h⟩ | ⟨-, -, h⟩ | ⟨-, -, h⟩ | ⟨-, -, h⟩ | ⟨-, -, h⟩
  · rw [h]; exact hs
  · rw [h]
    intro h0
    have h0' : s.curr_debug_state = STATE_DEBUG_NONE := h0
    rw [hc] at h0'
    exact absurd h0' (by decide)
  all_goals rw [h]; exact key _ _

/-- One run of `debug_mode_handle` keeps the hit counter at most 3. -/
theorem debug_mode_handle_hit_count (b : Board) (mask now : Nat) (s : EC)
    (hs : s.debug_button_hit_count ≤ 3) :
    (debug_mode_handle b mask now s).debug_button_hit_count ≤ 3 := by
  have key : ∀ (st : debug_state) (s1 : EC), s1.debug_button_hit_count ≤ 3 →
      (debug_mode_transition b now st s1).debug_button_hit_count ≤ 3 := by
    intro st s1 h1
    obtain ⟨-, -, h3, -⟩ := debug_mode_transition_fields b now st s1
    have hcurr := debug_mode_transition_curr b now st s1
    rw [h3]
    split_ifs with g1 g2 g3
    · omega
    · omega
    · subst g3
      simp only at hcurr
      by_cases h4 : s1.debug_button_hit_count + 1 = 4
      · rw [if_pos h4] at hcurr
        exact absurd hcurr g1
      · omega
    · exact h1
  rcases debug_mode_handle_cases b mask now s with ⟨-, h⟩ | ⟨-, -, -, h⟩ | ⟨-, h⟩ | ⟨-, h⟩ |
    ⟨-, h⟩ | ⟨-, -, h⟩ | ⟨-, -, h⟩ | ⟨-, -, h⟩ | ⟨-, -, h⟩ | ⟨-, -, h⟩
  · rw [h]; exact hs
  · rw [h]; exact hs
  all_goals rw [h]; exact key _ _ hs

/-- The simulated sysrq signals of one run of `debug_mode_handle`: at most as
many as the hit counter, and none unless the run starts in `STATE_STAGING`
with the pending next state `STATE_SYSRQ_EXEC` and an empty mask and ends in
`STATE_DEBUG_NONE`. -/
theorem debug_mode_handle_sysrq_calls (b : Board) (mask now : Nat) (s : EC) :
    sysrq_calls (debug_mode_handle b mask now s).log ≤
      sysrq_calls s.log + s.debug_button_hit_count ∧
    sysrq_calls s.log ≤ sysrq_calls (debug_mode_handle b mask now s).log ∧
    (sysrq_calls (debug_mode_handle b mask now s).log ≠ sysrq_calls s.log →
      s.curr_debug_state = STATE_STAGING ∧ s.next_debug_state = STATE_SYSRQ_EXEC ∧ mask = 0 ∧
        (debug_mode_handle b mask now s).curr_debug_state = STATE_DEBUG_NONE) := by
  have key : ∀ (st : debug_state) (s1 : EC), st ≠ STATE_SYSRQ_EXEC →
      sysrq_calls (debug_mode_transition b now st s1).log = sysrq_calls s1.log := by
    intro st s1 hst
    rw [(debug_mode_transition_calls b now st s1).2]
    simp [hst]
  have fin : ∀ (s' : EC), sysrq_calls s'.log = sysrq_calls s.log →
      sysrq_calls s'.log ≤ sysrq_calls s.log + s.debug_button_hit_count ∧
      sysrq_calls s.log ≤ sysrq_calls s'.log ∧
      (sysrq_calls s'.log ≠ sysrq_calls s.log →
        s.curr_debug_state = STATE_STAGING ∧ s.next_debug_state = STATE_SYSRQ_EXEC ∧ mask = 0 ∧
          s'.curr_debug_state = STATE_DEBUG_NONE) := by
    intro s' h
    exact ⟨by omega, by omega, fun hne => absurd h hne⟩
  rcases debug_mode_handle_cases b mask now s with ⟨-, h⟩ | ⟨-, -, -, h⟩ | ⟨-, h⟩ | ⟨-, h⟩ |
    ⟨-, h⟩ | ⟨hc, hm, h⟩ | ⟨-, -, h⟩ | ⟨-, -, h⟩ | ⟨-, -, h⟩ | ⟨-, -, h⟩
  · rw [h]; exact fin s rfl
  · rw [h]; exact fin _ rfl
  · rw [h]; exact fin _ (key _ _ (by decide))
  · rw [h]; exact fin _ (key _ _ (by decide))
  · rw [h]; exact fin _ (key _ _ (by decide))
  · rw [h]
    by_cases hn : s.next_debug_state = STATE_SYSRQ_EXEC
    · have hcalls := (debug_mode_transition_calls b now s.next_debug_state s).2
      have hcurr := debug_mode_transition_curr b now s.next_debug_state s
      rw [hn] at hcalls hcurr ⊢
      simp only [if_true] at hcalls
      simp only at hcurr
      exact ⟨by omega, by omega, fun _ => ⟨hc, rfl, hm, hcurr⟩⟩
    · exact fin _ (key _ _ hn)
  · rw [h]; exact fin _ (key _ _ (by decide))
  · rw [h]; exact fin _ (key _ _ (by decide))
  · rw [h]; exact fin _ (key _ _ (by decide))
  · rw [h]; exact fin _ (key _ _ (by decide))

/-- The `chipset_reset` calls of one run of `debug_mode_handle`: at most one,
and none unless the run starts in `STATE_STAGING` with the pending next state
`STATE_WARM_RESET_EXEC` and an empty mask. -/
theorem debug_mode_handle_reset_calls (b : Board) (mask now : Nat) (s : EC) :
    (reset_calls (debug_mode_handle b mask now s).log = reset_calls s.log ∨
      reset_calls (debug_mode_handle b mask now s).log = reset_calls s.log + 1) ∧
    (reset_calls (debug_mode_handle b mask now s).log ≠ reset_calls s.log →
      s.curr_debug_state = STATE_STAGING ∧ s.next_debug_state = STATE_WARM_RESET_EXEC ∧
        mask = 0) := by
  have key : ∀ (st : debug_state) (s1 : EC), st ≠ STATE_WARM_RESET_EXEC →
      reset_calls (debug_mode_transition b now st s1).log = reset_calls s1.log := by
    intro st s1 hst
    rw [(debug_mode_transition_calls b now st s1).1]
    simp [hst]
  have fin : ∀ (s' : EC), reset_calls s'.log = reset_calls s.log →
      (reset_calls s'.log = reset_calls s.log ∨ reset_calls s'.log = reset_calls s.log + 1) ∧
      (reset_calls s'.log ≠ reset_calls s.log →
        s.curr_debug_state = STATE_STAGING ∧ s.next_debug_state = STATE_WARM_RESET_EXEC ∧
          mask = 0) := by
    intro s' h
    exact ⟨Or.inl h, fun hne => absurd h hne⟩
  rcases debug_mode_handle_cases b mask now s with ⟨-, h⟩ | ⟨-, -, -, h⟩ | ⟨-, h⟩ | ⟨-, h⟩ |
    ⟨-, h⟩ | ⟨hc, hm, h⟩ | ⟨-, -, h⟩ | ⟨-, -, h⟩ | ⟨-, -, h⟩ | ⟨-, -, h⟩
  · rw [h]; exact fin s rfl
  · rw [h]; exact fin _ rfl
  · rw [h]; exact fin _ (key _ _ (by decide))
  · rw [h]; exact fin _ (key _ _ (by decide))
  · rw [h]; exact fin _ (key _ _ (by decide))
  · rw [h]
    by_cases hn : s.next_debug_state = STATE_WARM_RESET_EXEC
    · have hcalls := (debug_mode_transition_calls b now s.next_debug_state s).1
      rw [hn] at hcalls ⊢
      simp only [if_true] at hcalls
      exact ⟨Or.inr hcalls, fun _ => ⟨hc, rfl, hm⟩⟩
    · exact fin _ (key _ _ hn)
  · rw [h]; exact fin _ (key _ _ (by decide))
  · rw [h]; exact fin _ (key _ _ (by decide))
  · rw [h]; exact fin _ (key _ _ (by decide))
  · rw [h]; exact fin _ (key _ _ (by decide))

/-- An invocation of the handler is a run of `debug_mode_handle` on a state
that differs from the current one at most in the slot of the handler. -/
theorem debug_call_eq (b : Board) (s : EC) (c : HandlerCall) :
    ∃ slot, debug_call b s c =
      debug_mode_handle b c.mask c.now { s with debug_mode_handle_data := slot } := by
  unfold debug_call debug_mode_handle_deferred
  cases c.from_slot
  · exact ⟨s.debug_mode_handle_data, rfl⟩
  · exact ⟨none, rfl⟩

/-- A sequence of invocations followed by one more. -/
theorem debug_calls_append (b : Board) (s : EC) (cs : List HandlerCall) (c : HandlerCall) :
    debug_calls b s (cs ++ [c]) = debug_call b (debug_calls b s cs) c := by
  simp [debug_calls]

/-- Along any sequence of invocations from a cleared machine, the machine is
cleared whenever it is in `STATE_DEBUG_NONE`, and the hit counter is at most
3. -/
theorem debug_calls_invariant (b : Board) (s0 : EC)
    (h1 : s0.next_debug_state = STATE_DEBUG_NONE)
    (h2 : s0.debug_state_deadline = 0) (h3 : s0.debug_button_hit_count = 0)
    (cs : List HandlerCall) :
    ((debug_calls b s0 cs).curr_debug_state = STATE_DEBUG_NONE →
      (debug_calls b s0 cs).next_debug_state = STATE_DEBUG_NONE ∧
      (debug_calls b s0 cs).debug_state_deadline = 0 ∧
      (debug_calls b s0 cs).debug_button_hit_count = 0) ∧
    (debug_calls b s0 cs).debug_button_hit_count ≤ 3 := by
  induction cs using List.reverseRecOn with
  | nil => exact ⟨fun _ => ⟨h1, h2, h3⟩, by simp [debug_calls, h3]⟩
  | append_singleton cs c ih =>
    rw [debug_calls_append]
    obtain ⟨slot, hc⟩ := debug_call_eq b (debug_calls b s0 cs) c
    rw [hc]
    exact ⟨debug_mode_handle_cleared b c.mask c.now _ ih.1,
      debug_mode_handle_hit_count b c.mask c.now _ ih.2⟩

/-- A transition to `STATE_DEBUG_CHECK` or `STATE_STAGING` leaves the machine
in that state with a re-invocation scheduled at the new deadline. -/
theorem debug_mode_transition_armed (b : Board) (now : Nat) (st : debug_state) (s : EC)
    (h : st = STATE_DEBUG_CHECK ∨ st = STATE_STAGING) :
    (debug_mode_transition b now st s).curr_debug_state = st ∧
    (debug_mode_transition b now st s).debug_state_deadline = now + DEBUG_TIMEOUT ∧
    (debug_mode_transition b now st s).debug_mode_handle_data =
      some ((debug_mode_transition b now st s).debug_state_deadline) := by
  rcases h with rfl | rfl
  · obtain ⟨g1, -, g3, -, g5, -⟩ := debug_mode_transition_check b now s
    exact ⟨g1, g3, by rw [g5, g3]⟩
  · obtain ⟨g1, -, g3, -, g5, -⟩ := debug_mode_transition_staging b now s
    exact ⟨g1, g3, by rw [g5, g3]⟩

/-! ### Claims C21 to C23 -/

/-- C21: `debug_mode_transition` makes exactly one `chipset_reset` call when
its target is `STATE_WARM_RESET_EXEC`, and the machine is then in
`STATE_DEBUG_NONE`; for every other target it makes none. -/
theorem reset_only_for_reset_exec (b : Board) (now : Nat) (s : EC) :
    reset_calls (debug_mode_transition b now STATE_WARM_RESET_EXEC s).log =
      reset_calls s.log + 1 ∧
    (debug_mode_transition b now STATE_WARM_RESET_EXEC s).curr_debug_state =
      STATE_DEBUG_NONE ∧
    ∀ st, st ≠ STATE_WARM_RESET_EXEC →
      reset_calls (debug_mode_transition b now st s).log = reset_calls s.log := by
  refine ⟨?_, ?_, fun st hst => ?_⟩
  · rw [(debug_mode_transition_calls b now STATE_WARM_RESET_EXEC s).1]
    simp
  · exact debug_mode_transition_curr b now STATE_WARM_RESET_EXEC s
  · rw [(debug_mode_transition_calls b now st s).1]
    simp [hst]

/-- C22 (as amended): every call of `debug_mode_transition` cancels the
re-invocation scheduled before (the slot then holds nothing, or the
re-invocation the call itself has scheduled at `now + DEBUG_TIMEOUT`); when it
leaves the machine in a state other than `STATE_DEBUG_NONE` the deadline is
`now + DEBUG_TIMEOUT`; when it leaves the machine in `STATE_DEBUG_NONE` the
deadline is 0 and nothing is scheduled; for the targets `STATE_DEBUG_CHECK`
and `STATE_STAGING` the machine is in the target state with a re-invocation
scheduled at the deadline. -/
theorem transition_arms_timeout (b : Board) (now : Nat) (st : debug_state) (s : EC) :
    ((debug_mode_transition b now st s).debug_mode_handle_data = none ∨
      (debug_mode_transition b now st s).debug_mode_handle_data =
        some (now + DEBUG_TIMEOUT)) ∧
    ((debug_mode_transition b now st s).curr_debug_state ≠ STATE_DEBUG_NONE →
      (debug_mode_transition b now st s).debug_state_deadline = now + DEBUG_TIMEOUT) ∧
    ((debug_mode_transition b now st s).curr_debug_state = STATE_DEBUG_NONE →
      (debug_mode_transition b now st s).debug_state_deadline = 0 ∧
      (debug_mode_transition b now st s).debug_mode_handle_data = none) ∧
    (st = STATE_DEBUG_CHECK ∨ st = STATE_STAGING →
      (debug_mode_transition b now st s).curr_debug_state = st ∧
      (debug_mode_transition b now st s).debug_state_deadline = now + DEBUG_TIMEOUT ∧
      (debug_mode_transition b now st s).debug_mode_handle_data =
        some ((debug_mode_transition b now st s).debug_state_deadline)) := by
  obtain ⟨-, h2, -, h4⟩ := debug_mode_transition_fields b now st s
  have hcurr := debug_mode_transition_curr b now st s
  refine ⟨?_, fun h => ?_, fun h => ⟨?_, ?_⟩, fun h => ?_⟩
  · rw [h4]
    split_ifs
    · exact Or.inr rfl
    · exact Or.inl rfl
  · rw [h2, if_neg h]
  · rw [h2, if_pos h]
  · rw [h4]
    rw [h] at hcurr
    have hst : ¬ (st = STATE_DEBUG_CHECK ∨ st = STATE_STAGING) := by
      rintro (rfl | rfl) <;> simp at hcurr
    rw [if_neg hst]
  · exact debug_mode_transition_armed b now st s h

/-- Witness of C22 on the two-button board: the transition to
`STATE_DEBUG_CHECK` at time 20 from the boot state. -/
theorem transition_arms_timeout_witness :
    (debug_mode_transition demo_board 20 STATE_DEBUG_CHECK EC.boot).curr_debug_state =
      STATE_DEBUG_CHECK ∧
    (debug_mode_transition demo_board 20 STATE_DEBUG_CHECK EC.boot).debug_state_deadline =
      20 + DEBUG_TIMEOUT ∧
    (debug_mode_transition demo_board 20 STATE_DEBUG_CHECK EC.boot).debug_mode_handle_data =
      some ((debug_mode_transition demo_board 20 STATE_DEBUG_CHECK EC.boot).debug_state_deadline) :=
  (transition_arms_timeout demo_board 20 STATE_DEBUG_CHECK EC.boot).2.2.2 (Or.inl rfl)

/-- Counterexample to C22 as stated, on the two-button board.  After the
combination has been held for 10 s the machine is in `STATE_STAGING` with the
pending next state `STATE_DEBUG_MODE_ACTIVE`; the transition to
`STATE_DEBUG_MODE_ACTIVE` at the release (time 10100000) sets the deadline to
`now + DEBUG_TIMEOUT` and leaves nothing scheduled.  After three taps of
volume-up and a fourth press the machine is in `STATE_STAGING` with the
pending next state `STATE_SYSRQ_PATH` and 3 hits; the transition to
`STATE_SYSRQ_PATH` at the release (time 17100000) ends in `STATE_DEBUG_NONE`
with the deadline 0 and nothing scheduled. -/
theorem transition_leaves_no_timer :
    (debug_calls demo_board EC.boot
      [⟨true, 6, 0⟩, ⟨true, 6, 10000000⟩]).curr_debug_state = STATE_STAGING ∧
    (debug_calls demo_board EC.boot
      [⟨true, 6, 0⟩, ⟨true, 6, 10000000⟩]).next_debug_state = STATE_DEBUG_MODE_ACTIVE ∧
    (debug_mode_transition demo_board 10100000 STATE_DEBUG_MODE_ACTIVE
      (debug_calls demo_board EC.boot
        [⟨true, 6, 0⟩, ⟨true, 6, 10000000⟩])).debug_state_deadline = 10100000 + DEBUG_TIMEOUT ∧
    (debug_mode_transition demo_board 10100000 STATE_DEBUG_MODE_ACTIVE
      (debug_calls demo_board EC.boot
        [⟨true, 6, 0⟩, ⟨true, 6, 10000000⟩])).debug_mode_handle_data ≠ some (10100000 + DEBUG_TIMEOUT) ∧
    (debug_calls demo_board EC.boot
      [⟨true, 6, 0⟩, ⟨true, 6, 10000000⟩, ⟨true, 0, 10100000⟩,
        ⟨true, 2, 11000000⟩, ⟨true, 0, 11100000⟩, ⟨true, 2, 13000000⟩, ⟨true, 0, 13100000⟩,
        ⟨true, 2, 15000000⟩, ⟨true, 0, 15100000⟩, ⟨true, 2, 17000000⟩]).curr_debug_state =
      STATE_STAGING ∧
    (debug_calls demo_board EC.boot
      [⟨true, 6, 0⟩, ⟨true, 6, 10000000⟩, ⟨true, 0, 10100000⟩,
        ⟨true, 2, 11000000⟩, ⟨true, 0, 11100000⟩, ⟨true, 2, 13000000⟩, ⟨true, 0, 13100000⟩,
        ⟨true, 2, 15000000⟩, ⟨true, 0, 15100000⟩, ⟨true, 2, 17000000⟩]).next_debug_state =
      STATE_SYSRQ_PATH ∧
    (debug_calls demo_board EC.boot
      [⟨true, 6, 0⟩, ⟨true, 6, 10000000⟩, ⟨true, 0, 10100000⟩,
        ⟨true, 2, 11000000⟩, ⟨true, 0, 11100000⟩, ⟨true, 2, 13000000⟩, ⟨true, 0, 13100000⟩,
        ⟨true, 2, 15000000⟩, ⟨true, 0, 15100000⟩, ⟨true, 2, 17000000⟩]).debug_button_hit_count =
      3 ∧
    (debug_mode_transition demo_board 17100000 STATE_SYSRQ_PATH
      (debug_calls demo_board EC.boot
      [⟨true, 6, 0⟩, ⟨true, 6, 10000000⟩, ⟨true, 0, 10100000⟩,
        ⟨true, 2, 11000000⟩, ⟨true, 0, 11100000⟩, ⟨true, 2, 13000000⟩, ⟨true, 0, 13100000⟩,
        ⟨true, 2, 15000000⟩, ⟨true, 0, 15100000⟩, ⟨true, 2, 17000000⟩])).debug_state_deadline ≠
      17100000 + DEBUG_TIMEOUT ∧
    (debug_mode_transition demo_board 17100000 STATE_SYSRQ_PATH
      (debug_calls demo_board EC.boot
      [⟨true, 6, 0⟩, ⟨true, 6, 10000000⟩, ⟨true, 0, 10100000⟩,
        ⟨true, 2, 11000000⟩, ⟨true, 0, 11100000⟩, ⟨true, 2, 13000000⟩, ⟨true, 0, 13100000⟩,
        ⟨true, 2, 15000000⟩, ⟨true, 0, 15100000⟩, ⟨true, 2, 17000000⟩])).debug_mode_handle_data ≠
      some (17100000 + DEBUG_TIMEOUT) := by
  decide

/-- C23: a transition into `STATE_DEBUG_MODE_ACTIVE` sets the hit counter to
0; whenever `debug_mode_transition` leaves the machine in `STATE_DEBUG_NONE`
(which it does for the target `STATE_DEBUG_NONE`, for the two `EXEC` targets
and for the fourth hit of `STATE_SYSRQ_PATH`) the pending next state is
`STATE_DEBUG_NONE`, the deadline is 0 and the hit counter is 0; hence in every
state reached from a cleared machine by handler invocations (from the slot or
from the hook, with any masks and times), the state `STATE_DEBUG_NONE` implies
that the three fields are cleared. -/
theorem none_state_is_cleared (b : Board) (s0 : EC) (cs : List HandlerCall)
    (h1 : s0.next_debug_state = STATE_DEBUG_NONE) (h2 : s0.debug_state_deadline = 0)
    (h3 : s0.debug_button_hit_count = 0) :
    (∀ now s, (debug_mode_transition b now STATE_DEBUG_MODE_ACTIVE s).debug_button_hit_count
      = 0) ∧
    (∀ now st s, (debug_mode_transition b now st s).curr_debug_state = STATE_DEBUG_NONE →
      (debug_mode_transition b now st s).next_debug_state = STATE_DEBUG_NONE ∧
      (debug_mode_transition b now st s).debug_state_deadline = 0 ∧
      (debug_mode_transition b now st s).debug_button_hit_count = 0) ∧
    (∀ now s,
      (debug_mode_transition b now STATE_DEBUG_NONE s).curr_debug_state = STATE_DEBUG_NONE ∧
      (debug_mode_transition b now STATE_SYSRQ_EXEC s).curr_debug_state = STATE_DEBUG_NONE ∧
      (debug_mode_transition b now STATE_WARM_RESET_EXEC s).curr_debug_state =
        STATE_DEBUG_NONE ∧
      (s.debug_button_hit_count = 3 →
        (debug_mode_transition b now STATE_SYSRQ_PATH s).curr_debug_state =
          STATE_DEBUG_NONE)) ∧
    ((debug_calls b s0 cs).curr_debug_state = STATE_DEBUG_NONE →
      (debug_calls b s0 cs).next_debug_state = STATE_DEBUG_NONE ∧
      (debug_calls b s0 cs).debug_state_deadline = 0 ∧
      (debug_calls b s0 cs).debug_button_hit_count = 0) := by
  refine ⟨fun now s => ?_, fun now st s h => ?_, fun now s => ⟨?_, ?_, ?_, fun h => ?_⟩,
    (debug_calls_invariant b s0 h1 h2 h3 cs).1⟩
  · simp [debug_mode_transition]
  · obtain ⟨g1, g2, g3, -⟩ := debug_mode_transition_fields b now st s
    rw [g1, g2, g3]
    simp [h]
  · exact debug_mode_transition_curr b now STATE_DEBUG_NONE s
  · exact debug_mode_transition_curr b now STATE_SYSRQ_EXEC s
  · exact debug_mode_transition_curr b now STATE_WARM_RESET_EXEC s
  · have := debug_mode_transition_curr b now STATE_SYSRQ_PATH s
    simp only [h] at this
    exact this

/-- Witness of C23 on the two-button board, from the boot state: the
combination is held for 10 s and released, then the power button is pressed,
which ends the session. -/
theorem none_state_is_cleared_witness :
    EC.boot.next_debug_state = STATE_DEBUG_NONE ∧ EC.boot.debug_state_deadline = 0 ∧
    EC.boot.debug_button_hit_count = 0 ∧
    (debug_calls demo_board EC.boot
      [⟨true, 6, 0⟩, ⟨true, 6, 10000000⟩, ⟨true, 0, 10100000⟩,
        ⟨false, 1, 11000000⟩]).curr_debug_state = STATE_DEBUG_NONE ∧
    (debug_calls demo_board EC.boot
      [⟨true, 6, 0⟩, ⟨true, 6, 10000000⟩, ⟨true, 0, 10100000⟩,
        ⟨false, 1, 11000000⟩]).debug_state_deadline = 0 :=
  ⟨rfl, rfl, rfl, by decide,
    ((none_state_is_cleared demo_board EC.boot
      [⟨true, 6, 0⟩, ⟨true, 6, 10000000⟩, ⟨true, 0, 10100000⟩, ⟨false, 1, 11000000⟩]
      rfl rfl rfl).2.2.2 (by decide)).2.1⟩

/-! ### Claim C24 -/

/-- The loop of `button_init` enables the interrupt of each button it
visits. -/
theorem button_init_loop_log (b : Board) (env : BootEnv) (n : Nat) (s : EC) :
    (button_init_loop b env n s).log =
      s.log ++ (List.range n).map
        (fun i => (env.get_time, Effect.gpio_enable_interrupt (b.buttons i).gpio)) := by
  induction n with
  | zero => simp [button_init_loop]
  | succ n ih =>
    simp only [button_init_loop]
    rw [ih, List.range_succ, List.map_append, List.append_assoc]
    rfl

/-- The LED routine only appends to the log. -/
theorem button_blink_loop_log (deadline : Nat) (clock : List Nat) :
    ∀ (led : ec_led_state) (now : Nat) (s : EC),
      ∃ suffix, (button_blink_loop deadline led now clock s).ec.log = s.log ++ suffix := by
  induction clock with
  | nil =>
    intro led now s
    simp only [button_blink_loop]
    split_ifs
    · exact ⟨_, rfl⟩
    · exact ⟨[], by simp⟩
  | cons t clock ih =>
    intro led now s
    simp only [button_blink_loop]
    split_ifs
    · exact ⟨_, rfl⟩
    · obtain ⟨suffix, h⟩ := ih (led_not led) t
        { s with log := s.log ++
            [(now, Effect.led_control EC_LED_ID_RECOVERY_HW_REINIT_LED led),
             (now, Effect.watchdog_reload), (now, Effect.msleep 100)] }
      exact ⟨_, by rw [h]; exact List.append_assoc _ _ _⟩

/-- The hardware-reinit check only appends to the log. -/
theorem button_check_hw_reinit_loop_log (b : Board) (deadline : Nat) (blink : List Nat)
    (polls : List Poll) :
    ∀ (now : Nat) (s : EC),
      ∃ suffix, (button_check_hw_reinit_loop b deadline blink now polls s).ec.log =
        s.log ++ suffix := by
  have hreq : ∀ (now : Nat) (s : EC),
      ∃ suffix, (button_hw_reinit_requested b now blink s).ec.log = s.log ++ suffix := by
    intro now s
    simp only [button_hw_reinit_requested]
    split_ifs
    · cases blink with
      | nil => exact ⟨_, rfl⟩
      | cons t0 clock =>
        obtain ⟨suffix, h⟩ := button_blink_loop_log (t0 + 3 * SECOND) clock LED_STATE_ON t0
          { s with log := s.log ++
            [(now, Effect.host_set_single_event EC_HOST_EVENT_KEYBOARD_RECOVERY_HW_REINIT)] }
        exact ⟨_, by
          simp only [button_blink_hw_reinit_led]
          rw [h]
          exact List.append_assoc _ _ _⟩
    · exact ⟨_, rfl⟩
  induction polls with
  | nil =>
    intro now s
    simp only [button_check_hw_reinit_loop]
    split_ifs
    · exact hreq now s
    · exact ⟨[], by simp⟩
  | cons p polls ih =>
    intro now s
    simp only [button_check_hw_reinit_loop]
    split_ifs
    · exact hreq now s
    · exact ⟨[], by simp⟩
    · obtain ⟨suffix, h⟩ := ih p.get_time
        { s with log := s.log ++ [(p.get_time, Effect.watchdog_reload)] }
      exact ⟨_, by rw [h]; exact List.append_assoc _ _ _⟩

/-- C24: after `button_init`, `next_deferred_time` is 0 and, for every
configured button `i`, `debounced_pressed` is the polarity-corrected level of
its line (the level read if `BUTTON_FLAG_ACTIVE_HIGH` is set in its flags, the
negation otherwise), `debounce_time` is 0, and `gpio_enable_interrupt` has
been called for its line. -/
theorem button_init_post (b : Board) (env : BootEnv) (s : EC) :
    (button_init b env s).ec.next_deferred_time = 0 ∧
    ∀ i, i < b.CONFIG_BUTTON_COUNT →
      ((button_init b env s).ec.state i).debounced_pressed =
        (if (b.buttons i).flags &&& b.BUTTON_FLAG_ACTIVE_HIGH ≠ 0
          then env.init_level (b.buttons i).gpio else !env.init_level (b.buttons i).gpio) ∧
      ((button_init b env s).ec.state i).debounce_time = 0 ∧
      (env.get_time, Effect.gpio_enable_interrupt (b.buttons i).gpio) ∈
        (button_init b env s).ec.log := by
  obtain ⟨h1, -, -, -, h5⟩ := button_init_fields b env s
  refine ⟨h1, fun i hi => ⟨?_, ?_, ?_⟩⟩
  · rw [h5 i, if_pos hi]
    rfl
  · rw [h5 i, if_pos hi]
  · have hloop : (env.get_time, Effect.gpio_enable_interrupt (b.buttons i).gpio) ∈
        (button_init_loop b env b.CONFIG_BUTTON_COUNT { s with next_deferred_time := 0 }).log := by
      rw [button_init_loop_log]
      apply List.mem_append_right
      exact List.mem_map.mpr ⟨i, List.mem_range.mpr hi, rfl⟩
    simp only [button_init]
    split_ifs
    · obtain ⟨suffix, h⟩ := button_check_hw_reinit_loop_log b (env.get_time + 20 * SECOND)
        env.blink env.polls env.get_time
        { (button_init_loop b env b.CONFIG_BUTTON_COUNT { s with next_deferred_time := 0 }) with
          log := (button_init_loop b env b.CONFIG_BUTTON_COUNT
              { s with next_deferred_time := 0 }).log ++
            [(env.get_time, Effect.host_set_single_event EC_HOST_EVENT_KEYBOARD_RECOVERY)] }
      simp only [button_check_hw_reinit_required]
      rw [h]
      exact List.mem_append_left _ (List.mem_append_left _ hloop)
    · exact hloop

/-! ### Claims C25 and C26 -/

/-- C25: for every state and input, `debug_mode_transition` and
`debug_mode_handle` leave the button states (every `debounced_pressed` and
`debounce_time`), `next_deferred_time` and the slot of the debounce callback
as they were. -/
theorem diagnostic_machine_frame (b : Board) (mask now : Nat) (st : debug_state) (s : EC) :
    ((debug_mode_transition b now st s).state = s.state ∧
      (debug_mode_transition b now st s).next_deferred_time = s.next_deferred_time ∧
      (debug_mode_transition b now st s).button_change_deferred_data =
        s.button_change_deferred_data) ∧
    ((debug_mode_handle b mask now s).state = s.state ∧
      (debug_mode_handle b mask now s).next_deferred_time = s.next_deferred_time ∧
      (debug_mode_handle b mask now s).button_change_deferred_data =
        s.button_change_deferred_data) ∧
    ((debug_mode_handle_deferred b mask now s).state = s.state ∧
      (debug_mode_handle_deferred b mask now s).next_deferred_time = s.next_deferred_time ∧
      (debug_mode_handle_deferred b mask now s).button_change_deferred_data =
        s.button_change_deferred_data) :=
  ⟨debug_mode_transition_frame b now st s, debug_mode_handle_frame b mask now s,
    debug_mode_handle_frame b mask now { s with debug_mode_handle_data := none }⟩

/-- Within a session no simulated sysrq signal is sent before the machine is
back in `STATE_DEBUG_NONE`. -/
theorem debug_calls_session_silent (b : Board) (s : EC) (cs : List HandlerCall) :
    (∀ n, 0 < n → n ≤ cs.length →
      (debug_calls b s (cs.take n)).curr_debug_state ≠ STATE_DEBUG_NONE) →
    sysrq_calls (debug_calls b s cs).log = sysrq_calls s.log := by
  induction cs using List.reverseRecOn with
  | nil => intro _; rfl
  | append_singleton cs c ih =>
    intro h
    have hprev : sysrq_calls (debug_calls b s cs).log = sysrq_calls s.log := by
      apply ih
      intro n hn1 hn2
      have := h n hn1 (by simp; omega)
      rwa [List.take_append_of_le_length hn2] at this
    have hlast := h (cs.length + 1) (by omega) (by simp)
    have htake : (cs ++ [c]).take (cs.length + 1) = cs ++ [c] := by
      apply List.take_of_length_le
      simp
    rw [htake] at hlast
    rw [debug_calls_append] at hlast ⊢
    obtain ⟨slot, hc⟩ := debug_call_eq b (debug_calls b s cs) c
    rw [hc] at hlast ⊢
    obtain ⟨-, -, g3⟩ := debug_mode_handle_sysrq_calls b c.mask c.now
      { (debug_calls b s cs) with debug_mode_handle_data := slot }
    by_contra hne
    have hne' : sysrq_calls (debug_mode_handle b c.mask c.now
        { (debug_calls b s cs) with debug_mode_handle_data := slot }).log ≠
        sysrq_calls (debug_calls b s cs).log := by
      rw [hprev]; exact hne
    exact hlast (g3 hne').2.2.2

/-- C26: in every state reached from a cleared machine by handler invocations
(from the slot or from the hook, with any masks and times) the hit counter is
at most 3 when the handler has returned; and a session, that is a sequence of
further invocations during which the machine is not back in
`STATE_DEBUG_NONE` before the last one, sends at most 3 simulated sysrq
signals. -/
theorem hit_count_bound (b : Board) (s0 : EC) (cs session : List HandlerCall)
    (h1 : s0.next_debug_state = STATE_DEBUG_NONE) (h2 : s0.debug_state_deadline = 0)
    (h3 : s0.debug_button_hit_count = 0)
    (hsession : ∀ n, 0 < n → n < session.length →
      (debug_calls b (debug_calls b s0 cs) (session.take n)).curr_debug_state ≠
        STATE_DEBUG_NONE) :
    (debug_calls b s0 cs).debug_button_hit_count ≤ 3 ∧
    sysrq_calls (debug_calls b (debug_calls b s0 cs) session).log ≤
      sysrq_calls (debug_calls b s0 cs).log + 3 := by
  refine ⟨(debug_calls_invariant b s0 h1 h2 h3 cs).2, ?_⟩
  rcases List.eq_nil_or_concat session with rfl | ⟨init, c, hsc⟩
  · simp [debug_calls]
  · rw [List.concat_eq_append] at hsc
    subst hsc
    have hsilent : sysrq_calls (debug_calls b (debug_calls b s0 cs) init).log =
        sysrq_calls (debug_calls b s0 cs).log := by
      apply debug_calls_session_silent
      intro n hn1 hn2
      have := hsession n hn1 (by simp; omega)
      rwa [List.take_append_of_le_length hn2] at this
    have hhit : (debug_calls b (debug_calls b s0 cs) init).debug_button_hit_count ≤ 3 := by
      have := (debug_calls_invariant b s0 h1 h2 h3 (cs ++ init)).2
      simpa [debug_calls] using this
    rw [debug_calls_append]
    obtain ⟨slot, hc⟩ := debug_call_eq b (debug_calls b (debug_calls b s0 cs) init) c
    rw [hc]
    obtain ⟨g1, -, -⟩ := debug_mode_handle_sysrq_calls b c.mask c.now
      { (debug_calls b (debug_calls b s0 cs) init) with debug_mode_handle_data := slot }
    refine le_trans g1 ?_
    show sysrq_calls (debug_calls b (debug_calls b s0 cs) init).log +
      (debug_calls b (debug_calls b s0 cs) init).debug_button_hit_count ≤ _
    omega

/-- Witness of C26 on the two-button board, from the boot state: the
combination is held for 10 s and released, volume-up is tapped three times,
then volume-down is tapped; the session sends 3 simulated sysrq signals. -/
theorem hit_count_bound_witness :
    sysrq_calls (debug_calls demo_board (debug_calls demo_board EC.boot [])
      [⟨true, 6, 0⟩, ⟨true, 6, 10000000⟩, ⟨true, 0, 10100000⟩,
        ⟨true, 2, 11000000⟩, ⟨true, 0, 11100000⟩, ⟨true, 2, 13000000⟩, ⟨true, 0, 13100000⟩,
        ⟨true, 2, 15000000⟩, ⟨true, 0, 15100000⟩, ⟨true, 4, 17000000⟩,
        ⟨true, 0, 17100000⟩]).log = 3 ∧
    sysrq_calls (debug_calls demo_board (debug_calls demo_board EC.boot [])
      [⟨true, 6, 0⟩, ⟨true, 6, 10000000⟩, ⟨true, 0, 10100000⟩,
        ⟨true, 2, 11000000⟩, ⟨true, 0, 11100000⟩, ⟨true, 2, 13000000⟩, ⟨true, 0, 13100000⟩,
        ⟨true, 2, 15000000⟩, ⟨true, 0, 15100000⟩, ⟨true, 4, 17000000⟩,
        ⟨true, 0, 17100000⟩]).log ≤
      sysrq_calls (debug_calls demo_board EC.boot []).log + 3 :=
  ⟨by decide,
    (hit_count_bound demo_board EC.boot []
      [⟨true, 6, 0⟩, ⟨true, 6, 10000000⟩, ⟨true, 0, 10100000⟩,
        ⟨true, 2, 11000000⟩, ⟨true, 0, 11100000⟩, ⟨true, 2, 13000000⟩, ⟨true, 0, 13100000⟩,
        ⟨true, 2, 15000000⟩, ⟨true, 0, 15100000⟩, ⟨true, 4, 17000000⟩, ⟨true, 0, 17100000⟩]
      rfl rfl rfl
      (by
        intro n hn1 hn2
        simp only [List.length_cons, List.length_nil] at hn2
        interval_cases n <;> decide)).2⟩

/-! ### Claim C27 -/

/-- One event under a scheduler that may be late preserves the invariant: when
no tick is pending, no configured button has a pending deadline and
`next_deferred_time` is not in the future; when a tick is pending, it is due at
`next_deferred_time`; and no deadline is further ahead than the debounce
interval of its button, which is below `2^31`. -/
theorem late_invariant_step (b : Board) (r r' : ButtonRun) (ev : ButtonEvent)
    (hnone : r.ec.button_change_deferred_data = none →
      (∀ i, i < b.CONFIG_BUTTON_COUNT → (r.ec.state i).debounce_time = 0) ∧
        r.ec.next_deferred_time ≤ r.clock)
    (hsome : ∀ d, r.ec.button_change_deferred_data = some d → r.ec.next_deferred_time = d)
    (hdl : ∀ i, i < b.CONFIG_BUTTON_COUNT →
      (r.ec.state i).debounce_time ≤ r.clock + (b.buttons i).debounce_us)
    (hB : ∀ i, i < b.CONFIG_BUTTON_COUNT → (b.buttons i).debounce_us < 2 ^ 31)
    (hstep : button_step_late b r ev = some r') :
    (r'.ec.button_change_deferred_data = none →
      (∀ i, i < b.CONFIG_BUTTON_COUNT → (r'.ec.state i).debounce_time = 0) ∧
        r'.ec.next_deferred_time ≤ r'.clock) ∧
    (∀ d, r'.ec.button_change_deferred_data = some d → r'.ec.next_deferred_time = d) ∧
    (∀ i, i < b.CONFIG_BUTTON_COUNT →
      (r'.ec.state i).debounce_time ≤ r'.clock + (b.buttons i).debounce_us) := by
  cases ev with
  | interrupt signal t =>
    simp only [button_step_late] at hstep
    split_ifs at hstep with hct
    simp only [Option.some.injEq] at hstep
    subst hstep
    simp only
    rcases button_interrupt_loop_cases b signal t b.CONFIG_BUTTON_COUNT 0 r.ec with
      ⟨-, heq⟩ | ⟨k, -, hk, -, -, heq⟩
    · have heq' : button_interrupt b signal t r.ec = r.ec := heq
      rw [heq']
      exact ⟨fun h => ⟨(hnone h).1, le_trans (hnone h).2 hct⟩, hsome,
        fun i hi => le_trans (hdl i hi) (by omega)⟩
    · have heq' : button_interrupt b signal t r.ec = button_interrupt_body b t k r.ec := heq
      rw [heq']
      obtain ⟨hs1, hs2⟩ := button_interrupt_body_schedule b t k r.ec
      have hkB := hB k (by omega)
      have hdl' : ∀ i, i < b.CONFIG_BUTTON_COUNT →
          ((button_interrupt_body b t k r.ec).state i).debounce_time ≤
            t + (b.buttons i).debounce_us := by
        intro i hi
        rw [button_interrupt_body_state]
        by_cases hik : i = k
        · simp [hik]
        · simp only [hik, if_false]
          exact le_trans (hdl i hi) (by omega)
      by_cases hc : r.ec.next_deferred_time ≤ t ∨
          r.ec.next_deferred_time > t + (b.buttons k).debounce_us
      · obtain ⟨g1, g2⟩ := hs1 hc
        rw [hook_call_deferred_narrowed t _ (Nat.le_add_right _ _) (by omega)] at g2
        refine ⟨fun h => ?_, fun d hd => ?_, hdl'⟩
        · rw [g2] at h
          exact absurd h (by simp)
        · rw [g2] at hd
          simp only [Option.some.injEq] at hd
          rw [g1, hd]
      · obtain ⟨g1, g2⟩ := hs2 hc
        have hc1 : t < r.ec.next_deferred_time := by
          by_contra h
          exact hc (Or.inl (by omega))
        refine ⟨fun h => ?_, fun d hd => ?_, hdl'⟩
        · rw [g2] at h
          have := (hnone h).2
          omega
        · rw [g2] at hd
          rw [g1]
          exact hsome d hd
  | tick lvl t =>
    simp only [button_step_late] at hstep
    cases hsl : r.ec.button_change_deferred_data with
    | none => simp [hsl] at hstep
    | some d0 =>
      simp only [hsl] at hstep
      split_ifs at hstep with hv
      obtain ⟨hct, hdue⟩ := hv
      simp only [Option.some.injEq] at hstep
      subst hstep
      simp only
      obtain ⟨hz, hnz⟩ := debounce_soonest_spec t r.ec.state b.CONFIG_BUTTON_COUNT
      obtain ⟨hs1, hs2⟩ := button_change_deferred_run_schedule b lvl t r.ec
      have hst : ∀ i, i < b.CONFIG_BUTTON_COUNT →
          (button_change_deferred_run b lvl t r.ec).state i =
            debounce_one b lvl t i (r.ec.state i) :=
        fun i hi => button_change_deferred_run_state b lvl t r.ec i hi
      have hdl' : ∀ i, i < b.CONFIG_BUTTON_COUNT →
          ((button_change_deferred_run b lvl t r.ec).state i).debounce_time ≤
            t + (b.buttons i).debounce_us := by
        intro i hi
        rw [hst i hi]
        by_cases h0 : ((debounce_one b lvl t i (r.ec.state i)).debounce_time = 0)
        · rw [h0]; exact Nat.zero_le _
        · rw [((debounce_one_live b lvl t i _).2 h0).2]
          exact le_trans (hdl i hi) (by omega)
      by_cases hr : debounce_soonest t r.ec.state b.CONFIG_BUTTON_COUNT = 0
      · obtain ⟨g1, g2⟩ := hs2 hr
        refine ⟨fun _ => ⟨fun i hi => ?_, ?_⟩, fun d hd => ?_, hdl'⟩
        · by_contra hne
          rw [hst i hi] at hne
          have h1 := ((debounce_one_live b lvl t i _).2 hne).1
          have h2 := hz.mp hr i hi
          omega
        · rw [g1, hsome d0 hsl]
          exact hdue
        · rw [g2] at hd
          exact absurd hd (by simp)
      · obtain ⟨g1, -, g3⟩ := hs1 hr
        obtain ⟨-, ⟨j, hj, hjeq⟩, -⟩ := hnz hr
        have g3 := g3 (by
          rw [← hjeq]
          have e1 := hdl j hj
          have e2 := hB j hj
          omega)
        refine ⟨fun h => ?_, fun d hd => ?_, hdl'⟩
        · rw [g3] at h
          exact absurd h (by simp)
        · rw [g3] at hd
          simp only [Option.some.injEq] at hd
          rw [g1, hd]

/-- The invariant of `late_invariant_step` along an execution. -/
theorem late_invariant_run (b : Board) (evs : List ButtonEvent) :
    ∀ (r r' : ButtonRun),
    (r.ec.button_change_deferred_data = none →
      (∀ i, i < b.CONFIG_BUTTON_COUNT → (r.ec.state i).debounce_time = 0) ∧
        r.ec.next_deferred_time ≤ r.clock) →
    (∀ d, r.ec.button_change_deferred_data = some d → r.ec.next_deferred_time = d) →
    (∀ i, i < b.CONFIG_BUTTON_COUNT →
      (r.ec.state i).debounce_time ≤ r.clock + (b.buttons i).debounce_us) →
    (∀ i, i < b.CONFIG_BUTTON_COUNT → (b.buttons i).debounce_us < 2 ^ 31) →
    button_run_late b r evs = some r' →
    (r'.ec.button_change_deferred_data = none →
      (∀ i, i < b.CONFIG_BUTTON_COUNT → (r'.ec.state i).debounce_time = 0) ∧
        r'.ec.next_deferred_time ≤ r'.clock) ∧
    (∀ d, r'.ec.button_change_deferred_data = some d → r'.ec.next_deferred_time = d) ∧
    (∀ i, i < b.CONFIG_BUTTON_COUNT →
      (r'.ec.state i).debounce_time ≤ r'.clock + (b.buttons i).debounce_us) := by
  induction evs with
  | nil =>
    intro r r' hnone hsome hdl _ hrun
    simp only [button_run_late, Option.some.injEq] at hrun
    subst hrun
    exact ⟨hnone, hsome, hdl⟩
  | cons ev evs ih =>
    intro r r' hnone hsome hdl hB hrun
    simp only [button_run_late] at hrun
    cases hstep : button_step_late b r ev with
    | none => simp [hstep] at hrun
    | some r1 =>
      simp only [hstep] at hrun
      obtain ⟨h1, h2, h3⟩ := late_invariant_step b r r1 ev hnone hsome hdl hB hstep
      exact ih r1 r' h1 h2 h3 hB hrun

/-- C27: `button_interrupt` and the tick are atomic steps in any order, the
tick running from its slot no earlier than the time it is due (possibly
later), on a board whose buttons all have a `debounce_us` below `2^31` (so
that every delay fits the `int` parameter of `hook_call_deferred`).  In every
state reached this way from `button_init`, a configured
button with a pending (non-zero) deadline has a debounce callback pending.
That callback can run at every later time that is not before the time it is
due; run at or after the deadline of the button it resolves the button (the
level is sampled and the deadline cleared), run before that deadline it keeps
the deadline and is pending again, for a time after the run and no later than
that deadline. -/
theorem no_dropped_press (b : Board) (env : BootEnv) (s0 : EC) (c : Nat)
    (evs : List ButtonEvent) (r : ButtonRun) (i : Nat)
    (hslot : s0.button_change_deferred_data = none)
    (hB : ∀ j, j < b.CONFIG_BUTTON_COUNT → (b.buttons j).debounce_us < 2 ^ 31)
    (hrun : button_run_late b { clock := c, ec := (button_init b env s0).ec } evs = some r)
    (hi : i < b.CONFIG_BUTTON_COUNT) (hpending : (r.ec.state i).debounce_time ≠ 0) :
    ∃ d, r.ec.button_change_deferred_data = some d ∧
      ∀ lvl t, r.clock ≤ t → d ≤ t →
        button_step_late b r (ButtonEvent.tick lvl t) =
          some { clock := t, ec := button_change_deferred_run b lvl t r.ec } ∧
        ((r.ec.state i).debounce_time ≤ t →
          ((button_change_deferred_run b lvl t r.ec).state i).debounce_time = 0 ∧
          ((button_change_deferred_run b lvl t r.ec).state i).debounced_pressed =
            raw_button_pressed b lvl (b.buttons i)) ∧
        (t < (r.ec.state i).debounce_time →
          ((button_change_deferred_run b lvl t r.ec).state i).debounce_time =
            (r.ec.state i).debounce_time ∧
          ∃ d', (button_change_deferred_run b lvl t r.ec).button_change_deferred_data =
              some d' ∧ t < d' ∧ d' ≤ (r.ec.state i).debounce_time) := by
  obtain ⟨h1, h2, -, -, h5⟩ := button_init_fields b env s0
  have hinit : (button_init b env s0).ec.button_change_deferred_data = none := h2.trans hslot
  obtain ⟨hnone, -, hdl⟩ := late_invariant_run b evs
    { clock := c, ec := (button_init b env s0).ec } r
    (fun _ => ⟨fun i hi => by simp [h5 i, hi], by simp [h1]⟩)
    (fun d hd => by simp [hinit] at hd) (fun i hi => by simp [h5 i, hi]) hB hrun
  cases hsl : r.ec.button_change_deferred_data with
  | none => exact absurd ((hnone hsl).1 i hi) hpending
  | some d =>
    refine ⟨d, rfl, fun lvl t hct hdt => ⟨?_, fun hle => ?_, fun hlt => ?_⟩⟩
    · simp [button_step_late, hsl, hct, hdt]
    · rw [button_change_deferred_run_state b lvl t r.ec i hi,
        debounce_one_elapsed b lvl t i _ hpending hle]
      exact ⟨rfl, rfl⟩
    · obtain ⟨hz, hnz⟩ := debounce_soonest_spec t r.ec.state b.CONFIG_BUTTON_COUNT
      have hr : debounce_soonest t r.ec.state b.CONFIG_BUTTON_COUNT ≠ 0 := by
        intro h0
        have := hz.mp h0 i hi
        omega
      obtain ⟨-, -, g3⟩ := (button_change_deferred_run_schedule b lvl t r.ec).1 hr
      obtain ⟨k1, ⟨j, hj, hjeq⟩, k3⟩ := hnz hr
      have g3 := g3 (by
        rw [← hjeq]
        have e1 := hdl j hj
        have e2 := hB j hj
        omega)
      refine ⟨?_, _, g3, k1, k3 i hi hlt⟩
      rw [button_change_deferred_run_state b lvl t r.ec i hi,
        debounce_one_idle b lvl t i _ (Or.inr hlt)]

/-- Witness of C27 on the two-button board: after `button_init`, a raw edge on
the volume-up line at 20 and, the tick being late, one on the volume-down line
at 40000; volume-up has a pending deadline and a callback is pending. -/
theorem no_dropped_press_witness :
    ((button_interrupt demo_board 11 40000 (button_interrupt demo_board 10 20
      (button_init demo_board plain_boot EC.boot).ec)).state 0).debounce_time = 30020 ∧
    ∃ d, (button_interrupt demo_board 11 40000 (button_interrupt demo_board 10 20
      (button_init demo_board plain_boot EC.boot).ec)).button_change_deferred_data = some d :=
  ⟨by decide,
    (no_dropped_press demo_board plain_boot EC.boot 0
      [ButtonEvent.interrupt 10 20, ButtonEvent.interrupt 11 40000]
      { clock := 40000,
        ec := button_interrupt demo_board 11 40000 (button_interrupt demo_board 10 20
          (button_init demo_board plain_boot EC.boot).ec) }
      0 rfl (by decide) rfl (by decide) (by decide)).imp (fun _ h => h.1)⟩

/-! ### Claim C28 -/

/-- C28: `a_newer_than_b(a, b)` returns true exactly when the triple
`(epoch, major, minor)` of `a`, with every field equal to `0xffffffff`
replaced by 0, is lexicographically greater than that of `b`; hence
`a_newer_than_b(a, a)` is false, and `a_newer_than_b(a, b)` and
`a_newer_than_b(b, a)` are never both true. -/
theorem a_newer_than_b_is_lexicographic (a b : signed_header_version) :
    (a_newer_than_b a b = true ↔ lexicographically_greater a b) ∧
    a_newer_than_b a a = false ∧
    ¬ (a_newer_than_b a b = true ∧ a_newer_than_b b a = true) := by
  have key : ∀ x y : signed_header_version,
      a_newer_than_b x y = true ↔ lexicographically_greater x y := by
    intro x y
    simp only [a_newer_than_b, a_newer_than_b_loop, lexicographically_greater, normalised_field]
    generalize (if x.epoch = 0xffffffff then 0 else x.epoch) = xe
    generalize (if y.epoch = 0xffffffff then 0 else y.epoch) = ye
    generalize (if x.major = 0xffffffff then 0 else x.major) = xa
    generalize (if y.major = 0xffffffff then 0 else y.major) = ya
    generalize (if x.minor = 0xffffffff then 0 else x.minor) = xi
    generalize (if y.minor = 0xffffffff then 0 else y.minor) = yi
    by_cases h1 : xe = ye
    · by_cases h2 : xa = ya
      · by_cases h3 : xi = yi
        · simp [h1, h2, h3]
        · simp [h1, h2, h3]
      · simp [h1, h2]
    · simp [h1]
  refine ⟨key a b, ?_, ?_⟩
  · cases h : a_newer_than_b a a
    · rfl
    · have := (key a a).mp h
      simp only [lexicographically_greater] at this
      omega
  · rintro ⟨h1, h2⟩
    have g1 := (key a b).mp h1
    have g2 := (key b a).mp h2
    simp only [lexicographically_greater] at g1 g2
    omega

/-! ### Claim C29 -/

/-- Where the states on the way to a warm reset come from, for one run of
`debug_mode_handle`: `STATE_STAGING` with the pending next state
`STATE_WARM_RESET_EXEC` is kept, or entered from `STATE_WARM_RESET_PATH` on
the mask `{vol-up}`; `STATE_WARM_RESET_PATH` is kept, or entered from
`STATE_STAGING` with that pending next state; `STATE_STAGING` with the pending
next state `STATE_WARM_RESET_PATH` is kept, or entered from
`STATE_DEBUG_MODE_ACTIVE` on the mask `{vol-down}`. -/
theorem debug_mode_handle_reset_path (b : Board) (mask now : Nat) (s : EC) :
    ((debug_mode_handle b mask now s).curr_debug_state = STATE_STAGING ∧
      (debug_mode_handle b mask now s).next_debug_state = STATE_WARM_RESET_EXEC →
        (s.curr_debug_state = STATE_STAGING ∧ s.next_debug_state = STATE_WARM_RESET_EXEC) ∨
        (s.curr_debug_state = STATE_WARM_RESET_PATH ∧ mask = DEBUG_BTN_VOL_UP)) ∧
    ((debug_mode_handle b mask now s).curr_debug_state = STATE_WARM_RESET_PATH →
        s.curr_debug_state = STATE_WARM_RESET_PATH ∨
        (s.curr_debug_state = STATE_STAGING ∧ s.next_debug_state = STATE_WARM_RESET_PATH)) ∧
    ((debug_mode_handle b mask now s).curr_debug_state = STATE_STAGING ∧
      (debug_mode_handle b mask now s).next_debug_state = STATE_WARM_RESET_PATH →
        (s.curr_debug_state = STATE_STAGING ∧ s.next_debug_state = STATE_WARM_RESET_PATH) ∨
        (s.curr_debug_state = STATE_DEBUG_MODE_ACTIVE ∧ mask = DEBUG_BTN_VOL_DN)) := by
  have hstaging : ∀ (n : debug_state),
      (debug_mode_transition b now STATE_STAGING
        { s with next_debug_state := n }).curr_debug_state = STATE_STAGING ∧
      (debug_mode_transition b now STATE_STAGING
        { s with next_debug_state := n }).next_debug_state = n := by
    intro n
    obtain ⟨g1, g2, -⟩ := debug_mode_transition_staging b now { s with next_debug_state := n }
    exact ⟨g1, g2⟩
  rcases debug_mode_handle_cases b mask now s with ⟨-, h⟩ | ⟨-, -, -, h⟩ | ⟨-, h⟩ | ⟨-, h⟩ |
    ⟨-, h⟩ | ⟨hc, -, h⟩ | ⟨-, -, h⟩ | ⟨hc, hm, h⟩ | ⟨-, -, h⟩ | ⟨hc, hm, h⟩
  · rw [h]
    exact ⟨fun g => Or.inl g, fun g => Or.inl g, fun g => Or.inl g⟩
  · rw [h]
    exact ⟨fun g => Or.inl g, fun g => Or.inl g, fun g => Or.inl g⟩
  · rw [h, (debug_mode_transition_check b now s).1]
    simp
  · rw [h, (debug_mode_transition_none b now s).1]
    simp
  · rw [h, (hstaging _).1, (hstaging _).2]
    simp
  · rw [h]
    have hcurr := debug_mode_transition_curr b now s.next_debug_state s
    have hnext := (debug_mode_transition_fields b now s.next_debug_state s).1
    rw [hnext, hcurr]
    cases hn : s.next_debug_state <;> simp [hc]
    split_ifs <;> simp
  · rw [h, (hstaging _).1, (hstaging _).2]
    simp
  · rw [h, (hstaging _).1, (hstaging _).2]
    simp [hc, hm]
  · rw [h, (hstaging _).1, (hstaging _).2]
    simp
  · rw [h, (hstaging _).1, (hstaging _).2]
    simp [hc, hm]

/-- Along any sequence of invocations from `STATE_DEBUG_NONE`: if the machine
is in `STATE_STAGING` with the pending next state `STATE_WARM_RESET_EXEC`,
an earlier invocation started in `STATE_WARM_RESET_PATH` and read the mask
`{vol-up}`, and before that one an invocation started in
`STATE_DEBUG_MODE_ACTIVE` and read the mask `{vol-down}`; if the machine is in
`STATE_WARM_RESET_PATH`, or in `STATE_STAGING` with that pending next state,
an earlier invocation started in `STATE_DEBUG_MODE_ACTIVE` and read the mask
`{vol-down}`. -/
theorem reset_history_invariant (b : Board) (s0 : EC)
    (h0 : s0.curr_debug_state = STATE_DEBUG_NONE) (pre : List HandlerCall) :
    ((debug_calls b s0 pre).curr_debug_state = STATE_STAGING ∧
      (debug_calls b s0 pre).next_debug_state = STATE_WARM_RESET_EXEC →
        ∃ pre1 c1 post1, pre = pre1 ++ c1 :: post1 ∧
          (debug_calls b s0 pre1).curr_debug_state = STATE_WARM_RESET_PATH ∧
          c1.mask = DEBUG_BTN_VOL_UP ∧
          ∃ pre0 c0 post0, pre1 = pre0 ++ c0 :: post0 ∧
            (debug_calls b s0 pre0).curr_debug_state = STATE_DEBUG_MODE_ACTIVE ∧
            c0.mask = DEBUG_BTN_VOL_DN) ∧
    ((debug_calls b s0 pre).curr_debug_state = STATE_WARM_RESET_PATH ∨
      ((debug_calls b s0 pre).curr_debug_state = STATE_STAGING ∧
        (debug_calls b s0 pre).next_debug_state = STATE_WARM_RESET_PATH) →
        ∃ pre0 c0 post0, pre = pre0 ++ c0 :: post0 ∧
          (debug_calls b s0 pre0).curr_debug_state = STATE_DEBUG_MODE_ACTIVE ∧
          c0.mask = DEBUG_BTN_VOL_DN) := by
  induction pre using List.reverseRecOn with
  | nil =>
    constructor
    · rintro ⟨g, -⟩
      have g' : s0.curr_debug_state = STATE_STAGING := g
      rw [h0] at g'
      exact absurd g' (by decide)
    · rintro (g | ⟨g, -⟩)
      · have g' : s0.curr_debug_state = STATE_WARM_RESET_PATH := g
        rw [h0] at g'
        exact absurd g' (by decide)
      · have g' : s0.curr_debug_state = STATE_STAGING := g
        rw [h0] at g'
        exact absurd g' (by decide)
  | append_singleton pre c ih =>
    obtain ⟨ih1, ih2⟩ := ih
    rw [debug_calls_append]
    obtain ⟨slot, hc⟩ := debug_call_eq b (debug_calls b s0 pre) c
    rw [hc]
    obtain ⟨A, B, C⟩ := debug_mode_handle_reset_path b c.mask c.now
      { (debug_calls b s0 pre) with debug_mode_handle_data := slot }
    constructor
    · intro g
      rcases A g with ⟨g1, g2⟩ | ⟨g1, g2⟩
      · obtain ⟨pre1, c1, post1, e, r⟩ := ih1 ⟨g1, g2⟩
        exact ⟨pre1, c1, post1 ++ [c], by simp [e], r⟩
      · exact ⟨pre, c, [], rfl, g1, g2, ih2 (Or.inl g1)⟩
    · intro g
      rcases g with g | g
      · rcases B g with g1 | ⟨g1, g2⟩
        · obtain ⟨pre0, c0, post0, e, r⟩ := ih2 (Or.inl g1)
          exact ⟨pre0, c0, post0 ++ [c], by simp [e], r⟩
        · obtain ⟨pre0, c0, post0, e, r⟩ := ih2 (Or.inr ⟨g1, g2⟩)
          exact ⟨pre0, c0, post0 ++ [c], by simp [e], r⟩
      · rcases C g with ⟨g1, g2⟩ | ⟨g1, g2⟩
        · obtain ⟨pre0, c0, post0, e, r⟩ := ih2 (Or.inr ⟨g1, g2⟩)
          exact ⟨pre0, c0, post0 ++ [c], by simp [e], r⟩
        · exact ⟨pre, c, [], rfl, g1, g2⟩

/-- C29: in every execution of the diagnostic state machine from
`STATE_DEBUG_NONE` (handler invocations from the slot or from the hook, with
any masks and times), an invocation makes a `chipset_reset` call only if it
starts in `STATE_STAGING` with the pending next state `STATE_WARM_RESET_EXEC`
and reads an empty mask (and then it makes exactly one); an earlier invocation
then started in `STATE_WARM_RESET_PATH` and read the mask exactly `{vol-up}`,
and one before that started in `STATE_DEBUG_MODE_ACTIVE` and read the mask
exactly `{vol-down}`. -/
theorem warm_reset_safety (b : Board) (s0 : EC) (pre : List HandlerCall) (c : HandlerCall)
    (h0 : s0.curr_debug_state = STATE_DEBUG_NONE)
    (hreset : reset_calls (debug_calls b s0 (pre ++ [c])).log ≠
      reset_calls (debug_calls b s0 pre).log) :
    (debug_calls b s0 pre).curr_debug_state = STATE_STAGING ∧
    (debug_calls b s0 pre).next_debug_state = STATE_WARM_RESET_EXEC ∧
    c.mask = 0 ∧
    reset_calls (debug_calls b s0 (pre ++ [c])).log =
      reset_calls (debug_calls b s0 pre).log + 1 ∧
    ∃ pre1 c1 post1, pre = pre1 ++ c1 :: post1 ∧
      (debug_calls b s0 pre1).curr_debug_state = STATE_WARM_RESET_PATH ∧
      c1.mask = DEBUG_BTN_VOL_UP ∧
      ∃ pre0 c0 post0, pre1 = pre0 ++ c0 :: post0 ∧
        (debug_calls b s0 pre0).curr_debug_state = STATE_DEBUG_MODE_ACTIVE ∧
        c0.mask = DEBUG_BTN_VOL_DN := by
  rw [debug_calls_append] at hreset ⊢
  obtain ⟨slot, hc⟩ := debug_call_eq b (debug_calls b s0 pre) c
  rw [hc] at hreset ⊢
  obtain ⟨g1, g2⟩ := debug_mode_handle_reset_calls b c.mask c.now
    { (debug_calls b s0 pre) with debug_mode_handle_data := slot }
  obtain ⟨k1, k2, k3⟩ := g2 hreset
  refine ⟨k1, k2, k3, ?_, (reset_history_invariant b s0 h0 pre).1 ⟨k1, k2⟩⟩
  rcases g1 with g1 | g1
  · exact absurd g1 hreset
  · exact g1

/-- Witness of C29 on the two-button board, from the boot state: the
combination is held for 10 s and released, volume-down is tapped, volume-up is
tapped; the release of volume-up makes the `chipset_reset` call. -/
theorem warm_reset_safety_witness :
    EC.boot.curr_debug_state = STATE_DEBUG_NONE ∧
    reset_calls (debug_calls demo_board EC.boot
      ([⟨true, 6, 0⟩, ⟨true, 6, 10000000⟩, ⟨true, 0, 10100000⟩, ⟨true, 4, 11000000⟩,
        ⟨true, 0, 11100000⟩, ⟨true, 2, 12000000⟩] ++ [⟨true, 0, 12100000⟩])).log ≠
      reset_calls (debug_calls demo_board EC.boot
        [⟨true, 6, 0⟩, ⟨true, 6, 10000000⟩, ⟨true, 0, 10100000⟩, ⟨true, 4, 11000000⟩,
          ⟨true, 0, 11100000⟩, ⟨true, 2, 12000000⟩]).log ∧
    (debug_calls demo_board EC.boot
      [⟨true, 6, 0⟩, ⟨true, 6, 10000000⟩, ⟨true, 0, 10100000⟩, ⟨true, 4, 11000000⟩,
        ⟨true, 0, 11100000⟩, ⟨true, 2, 12000000⟩]).next_debug_state =
      STATE_WARM_RESET_EXEC :=
  ⟨rfl, by decide,
    (warm_reset_safety demo_board EC.boot
      [⟨true, 6, 0⟩, ⟨true, 6, 10000000⟩, ⟨true, 0, 10100000⟩, ⟨true, 4, 11000000⟩,
        ⟨true, 0, 11100000⟩, ⟨true, 2, 12000000⟩] ⟨true, 0, 12100000⟩ rfl (by decide)).2.1⟩

/-! ### Claim C30 -/

/-- C30: when `debug_mode_handle` returns with the machine in `STATE_STAGING`,
a re-invocation is pending at the deadline, whether a transition was made or
not; when it returns with the machine in `STATE_DEBUG_CHECK`, either it has
made a transition and a re-invocation is pending at the deadline, or it has
changed nothing, the slot included.  So a run from the slot, which the
scheduler has emptied, that makes no transition in `STATE_DEBUG_CHECK` leaves
nothing pending.  On the three-button board: with the combination held since
time 20 the machine is in `STATE_DEBUG_CHECK` with deadline and timer at
10030020; the third button is pressed, its tick at 1030000 schedules the
handler with delay 0, the handler runs from its slot at 1030000 and reads the
unchanged mask `{vol-up, vol-down}`; the machine is still in
`STATE_DEBUG_CHECK` with the deadline 10030020, and nothing is pending. -/
theorem check_timer_lost :
    (∀ (b : Board) (mask now : Nat) (s : EC),
      (debug_mode_handle b mask now s).curr_debug_state = STATE_STAGING →
      (debug_mode_handle b mask now s).debug_mode_handle_data =
        some (debug_mode_handle b mask now s).debug_state_deadline) ∧
    (∀ (b : Board) (mask now : Nat) (s : EC),
      (debug_mode_handle b mask now s).curr_debug_state = STATE_DEBUG_CHECK →
      debug_mode_handle b mask now s = s ∨
      (debug_mode_handle b mask now s).debug_mode_handle_data =
        some (debug_mode_handle b mask now s).debug_state_deadline) ∧
    combo_held_state.curr_debug_state = STATE_DEBUG_CHECK ∧
    combo_held_state.debug_state_deadline = 10030020 ∧
    combo_held_state.debug_mode_handle_data = some 10030020 ∧
    debug_button_mask three_button_board false combo_held_state =
      (DEBUG_BTN_VOL_UP ||| DEBUG_BTN_VOL_DN) ∧
    third_button_tick.debug_mode_handle_data = some 1030000 ∧
    debug_button_mask three_button_board false third_button_tick =
      (DEBUG_BTN_VOL_UP ||| DEBUG_BTN_VOL_DN) ∧
    third_button_state.curr_debug_state = STATE_DEBUG_CHECK ∧
    third_button_state.debug_state_deadline = 10030020 ∧
    third_button_state.debug_mode_handle_data = none := by
  have key : ∀ (b : Board) (now : Nat) (st : debug_state) (s1 : EC),
      (debug_mode_transition b now st s1).curr_debug_state = STATE_STAGING ∨
        (debug_mode_transition b now st s1).curr_debug_state = STATE_DEBUG_CHECK →
      (debug_mode_transition b now st s1).debug_mode_handle_data =
        some (debug_mode_transition b now st s1).debug_state_deadline := by
    intro b now st s1 h
    have hcurr := debug_mode_transition_curr b now st s1
    have hst : st = STATE_DEBUG_CHECK ∨ st = STATE_STAGING := by
      rw [hcurr] at h
      cases st <;> simp at h ⊢
      split_ifs at h <;> simp at h
    exact (debug_mode_transition_armed b now st s1 hst).2.2
  refine ⟨fun b mask now s hs => ?_, fun b mask now s hs => ?_, ?_⟩
  · rcases debug_mode_handle_cases b mask now s with ⟨hne, h⟩ | ⟨-, -, hexp, h⟩ | ⟨-, h⟩ |
      ⟨-, h⟩ | ⟨-, h⟩ | ⟨-, -, h⟩ | ⟨-, -, h⟩ | ⟨-, -, h⟩ | ⟨-, -, h⟩ | ⟨-, -, h⟩
    · rw [h] at hs
      exact absurd hs hne
    · rw [h]
      have hle : now ≤ s.debug_state_deadline := by
        simp only [timestamp_expired, decide_eq_false_iff_not] at hexp
        omega
      exact hook_call_deferred_until now _ hle
    all_goals rw [h] at hs ⊢; exact key _ _ _ _ (Or.inl hs)
  · rcases debug_mode_handle_cases b mask now s with ⟨-, h⟩ | ⟨hc, -, -, h⟩ | ⟨-, h⟩ |
      ⟨-, h⟩ | ⟨-, h⟩ | ⟨-, -, h⟩ | ⟨-, -, h⟩ | ⟨-, -, h⟩ | ⟨-, -, h⟩ | ⟨-, -, h⟩
    · exact Or.inl h
    · rw [h] at hs
      have hs' : s.curr_debug_state = STATE_DEBUG_CHECK := hs
      rw [hc] at hs'
      exact absurd hs' (by decide)
    all_goals rw [h] at hs ⊢; exact Or.inr (key _ _ _ _ (Or.inr hs))
  · decide

end Button
